import Mathlib

/-!
Verification development for `mini-compiler.cpp`.

A shallow embedding of the two-stage front end of the repository: the class
`Lexer` (method `tokenize`) and the class `Parser` (method `parse`), followed
by theorems about them.

Conventions of the embedding.

* A C++ `char` is a Lean `Char`; a `std::string` is a Lean `String`, scanned
  as its list of characters.  The `<cctype>` predicates are those of the "C"
  locale, so they are false on every character outside ASCII.
* The lexer fields `line` and `column` (C++ `int`) are natural numbers.  The
  field `position` is implicit: the state of the scan is the suffix of the
  input that starts at `position`.
* A thrown `std::runtime_error` is `Except.error (Failure.runtimeError what)`.
* Loops whose number of iterations is not bounded syntactically run on fuel;
  running dry is the separate outcome `Failure.fuelExhausted`.
-/

namespace MiniCompiler

/-! ## Data model -/

/-- The record `struct Token`. -/
structure Token where
  type : String
  value : String
  line : Nat
  column : Nat
deriving DecidableEq, Repr

/-- The ways in which a call can end without a result. -/
inductive Failure where
  /-- The call threw `std::runtime_error(what)`. -/
  | runtimeError (what : String)
  /-- The call read a vector out of range (undefined behaviour in C++). -/
  | outOfRange
  /-- The fuel of the embedding ran dry; not a behaviour of the program. -/
  | fuelExhausted
deriving DecidableEq, Repr

instance instDecidableEqExcept {ε α : Type} [DecidableEq ε] [DecidableEq α] :
    DecidableEq (Except ε α)
  | .ok a, .ok b => if h : a = b then isTrue (by rw [h]) else isFalse (by simp [h])
  | .error a, .error b => if h : a = b then isTrue (by rw [h]) else isFalse (by simp [h])
  | .ok _, .error _ => isFalse (by simp)
  | .error _, .ok _ => isFalse (by simp)

/-! ## Character classes (`<cctype>`, `<cstring>`) -/

/-- The function `isspace` in the "C" locale: space, `\t`, `\n`, `\v`, `\f`, `\r`. -/
def isspace (c : Char) : Bool :=
  c == ' ' || c == '\t' || c == '\n' || c == '\x0b' || c == '\x0c' || c == '\r'

/-- The function `isalpha` in the "C" locale. -/
def isalpha (c : Char) : Bool :=
  ('a' ≤ c && c ≤ 'z') || ('A' ≤ c && c ≤ 'Z')

/-- The function `isdigit`. -/
def isdigit (c : Char) : Bool :=
  '0' ≤ c && c ≤ '9'

/-- The function `isalnum` in the "C" locale. -/
def isalnum (c : Char) : Bool :=
  isalpha c || isdigit c

/-- The test `strchr(s, c) != nullptr`.  The terminating NUL of the C string
`s` counts as part of it, so the test succeeds for `c == '\0'`. -/
def strchr (s : String) (c : Char) : Bool :=
  c == '\x00' || s.data.contains c

/-! ## Lexer -/

/-- The method `Lexer::isKeyword`: membership in the fixed keyword table. -/
def isKeyword (word : String) : Bool :=
  ["int", "char", "float", "double", "void", "if", "else", "while", "for",
    "return", "printf"].contains word

/-- The inner loop of the multi-line comment branch (source lines 90-109),
entered after the opening `/*` has been consumed.  On success it returns the
characters appended to `comment` (the closing `*/` included), the unread
input and the updated `line` and `column`; `none` means the loop ended with
`commentClosed == false`. -/
def scanMultiLine : List Char → Nat → Nat → Option (List Char × List Char × Nat × Nat)
  | [], _, _ => none
  | c :: tail, line, column =>
    match tail with
    | [] => none
    | d :: rest =>
      if c == '*' && d == '/' then
        some (['*', '/'], rest, line, column + 2)
      else if c == '\n' then
        (scanMultiLine tail (line + 1) 1).map fun r => (c :: r.1, r.2)
      else
        (scanMultiLine tail line (column + 1)).map fun r => (c :: r.1, r.2)

/-- The two-character operators recognised at source lines 169-174. -/
def isTwoCharOperator (current next : Char) : Bool :=
  (current == '=' && next == '=') ||
  (current == '!' && next == '=') ||
  (current == '<' && next == '=') ||
  (current == '>' && next == '=') ||
  (current == '+' && next == '+') ||
  (current == '-' && next == '-')

/-- The message built at source lines 195-196. -/
def unexpectedCharacter (current : Char) (line column : Nat) : String :=
  "Unexpected character '" ++ String.singleton current ++ "' at line " ++
    toString line ++ ", column " ++ toString column

/-- One iteration of the `while` loop of `Lexer::tokenize` (source lines
50-197) on the non-empty unread input `current :: tail`.  It returns the
token pushed in this iteration (none for whitespace), the unread input and
the updated `line` and `column`. -/
def scanToken (current : Char) (tail : List Char) (line column : Nat) :
    Except Failure (Option Token × List Char × Nat × Nat) :=
  -- Handle whitespace
  if isspace current then
    if current == '\n' then .ok (none, tail, line + 1, 1)
    else .ok (none, tail, line, column + 1)
  -- Single-line comment
  else if current == '/' && tail.head? == some '/' then
    let body := (tail.drop 1).takeWhile (· != '\n')
    .ok (some ⟨"COMMENT", String.mk ('/' :: '/' :: body), line, column⟩,
      (tail.drop 1).dropWhile (· != '\n'), line, column + 2 + body.length)
  -- Multi-line comment
  else if current == '/' && tail.head? == some '*' then
    match scanMultiLine (tail.drop 1) line (column + 2) with
    | none => .error (.runtimeError "Unclosed multi-line comment")
    | some (body, rest, line', column') =>
      .ok (some ⟨"COMMENT", String.mk ('/' :: '*' :: body), line', column⟩,
        rest, line', column')
  -- Handle identifiers and keywords
  else if isalpha current || current == '_' then
    let identifier := (current :: tail).takeWhile (fun c => isalnum c || c == '_')
    let rest := (current :: tail).dropWhile (fun c => isalnum c || c == '_')
    if isKeyword (String.mk identifier) then
      .ok (some ⟨"KEYWORD", String.mk identifier, line, column⟩,
        rest, line, column + identifier.length)
    else
      .ok (some ⟨"IDENTIFIER", String.mk identifier, line, column⟩,
        rest, line, column + identifier.length)
  -- Handle numbers
  else if isdigit current then
    let number := (current :: tail).takeWhile (fun c => isdigit c || c == '.')
    let rest := (current :: tail).dropWhile (fun c => isdigit c || c == '.')
    .ok (some ⟨"NUMBER", String.mk number, line, column⟩,
      rest, line, column + number.length)
  -- Handle operators
  else if strchr "+-*/%=<>!" current then
    match tail with
    | next :: rest =>
      if isTwoCharOperator current next then
        .ok (some ⟨"OPERATOR", String.mk [current, next], line, column⟩,
          rest, line, column + 2)
      else
        .ok (some ⟨"OPERATOR", String.mk [current], line, column⟩,
          tail, line, column + 1)
    | [] =>
      .ok (some ⟨"OPERATOR", String.mk [current], line, column⟩,
        tail, line, column + 1)
  -- Handle punctuation
  else if strchr ";,(){}[]" current then
    .ok (some ⟨"PUNCTUATION", String.mk [current], line, column⟩,
      tail, line, column + 1)
  -- Unknown character
  else
    .error (.runtimeError (unexpectedCharacter current line column))

/-- The `while (position < input.length())` loop of `Lexer::tokenize`, from the
state in which the unread input is the first list argument.  The result lists
the tokens pushed from that state on. -/
def tokenizeLoop : Nat → List Char → Nat → Nat → Except Failure (List Token)
  | _, [], _, _ => .ok []
  | 0, _ :: _, _, _ => .error .fuelExhausted
  | fuel + 1, current :: tail, line, column =>
    match scanToken current tail line column with
    | .error e => .error e
    | .ok (tok, rest, line', column') =>
      match tokenizeLoop fuel rest line' column' with
      | .error e => .error e
      | .ok toks => .ok (tok.toList ++ toks)

/-- The method `Lexer::tokenize` of a lexer constructed on `input`
(`position = 0`, `line = 1`, `column = 1`).  Every iteration consumes at
least one character, so `input.length` iterations suffice. -/
def tokenize (input : String) : Except Failure (List Token) :=
  tokenizeLoop input.length input.data 1 1

/-! ## Syntax tree -/

/-- The record `struct ASTNode`.  A child is a `std::shared_ptr<ASTNode>`,
which may be null: `none` is the null pointer. -/
inductive ASTNode where
  | mk (type : String) (value : String) (children : List (Option ASTNode))
deriving Repr

/-- The member `type` of a node. -/
def ASTNode.type : ASTNode → String
  | .mk t _ _ => t

/-- The member `value` of a node. -/
def ASTNode.value : ASTNode → String
  | .mk _ v _ => v

/-- The member `children` of a node. -/
def ASTNode.children : ASTNode → List (Option ASTNode)
  | .mk _ _ cs => cs

/-! ## Parser

The member `tokens` never changes and is an explicit argument; the member
`current` is the state of the monad `Parse`. -/

/-- Computations of the parser: they read and update `current`, and may fail. -/
abbrev Parse (α : Type) := StateT Nat (Except Failure) α

/-- The method `Parser::isAtEnd`. -/
def isAtEnd (tokens : List Token) : Parse Bool := do
  let current ← get
  pure (decide (current ≥ tokens.length))

/-- The method `Parser::peek`. -/
def peek (tokens : List Token) : Parse Token := do
  let current ← get
  if current ≥ tokens.length then
    match tokens.getLast? with
    | some back => pure ⟨"EOF", "", back.line, back.column⟩
    | none => throw .outOfRange
  else
    match tokens[current]? with
    | some token => pure token
    | none => throw .outOfRange

/-- The method `Parser::previous`: the element `tokens[current - 1]`. -/
def previous (tokens : List Token) : Parse Token := do
  let current ← get
  match current with
  | 0 => throw .outOfRange
  | k + 1 =>
    match tokens[k]? with
    | some token => pure token
    | none => throw .outOfRange

/-- The method `Parser::advance`. -/
def advance (tokens : List Token) : Parse Token := do
  if !(← isAtEnd tokens) then
    modify (· + 1)
  previous tokens

/-- The method `Parser::check`; the default argument `value = ""` is passed
explicitly. -/
def check (tokens : List Token) (type value : String) : Parse Bool := do
  if (← isAtEnd tokens) then
    pure false
  else
    let current ← get
    match tokens[current]? with
    | none => throw .outOfRange
    | some token =>
      if value.isEmpty then
        pure (token.type == type)
      else
        pure (token.type == type && token.value == value)

/-- The method `Parser::match`. -/
def matchToken (tokens : List Token) (type value : String) : Parse Bool := do
  if (← check tokens type value) then
    let _ ← advance tokens
    pure true
  else
    pure false

/-- A short-circuit disjunction `match(type, v1) || match(type, v2) || ...`. -/
def matchAny (tokens : List Token) (type : String) : List String → Parse Bool
  | [] => pure false
  | value :: values => do
    if (← matchToken tokens type value) then
      pure true
    else
      matchAny tokens type values

/-- The method `Parser::consume`. -/
def consume (tokens : List Token) (type value message : String) : Parse Token := do
  if (← check tokens type value) then
    advance tokens
  else
    let token ← peek tokens
    throw (.runtimeError (message ++ " at line " ++ toString token.line ++
      ", column " ++ toString token.column))

/-- The loop `while (match("COMMENT")) {}` of `parseDeclaration` and
`parseStatement`. -/
def skipComments (tokens : List Token) : Nat → Parse Unit
  | 0 => throw .fuelExhausted
  | fuel + 1 => do
    if (← matchToken tokens "COMMENT" "") then
      skipComments tokens fuel
    else
      pure ()

/-- The loop of `parseFunctionDeclaration` that skips the parameter list
(source lines 342-348). -/
def skipParameters (tokens : List Token) : Nat → Parse Unit
  | 0 => throw .fuelExhausted
  | fuel + 1 => do
    if (← matchToken tokens "PUNCTUATION" ")") then
      pure ()
    else if (← isAtEnd tokens) then
      throw (.runtimeError "Unexpected end of file while parsing function parameters")
    else
      let _ ← advance tokens
      skipParameters tokens fuel

/-- Appends a declaration to a list of children unless it is null
(`if (node) children.push_back(node)`). -/
def pushIfNotNull (children : List (Option ASTNode)) (node : Option ASTNode) :
    List (Option ASTNode) :=
  match node with
  | some n => children ++ [some n]
  | none => children

mutual

/-- The method `Parser::parseDeclaration`. -/
def parseDeclaration (tokens : List Token) : Nat → Parse (Option ASTNode)
  | 0 => throw .fuelExhausted
  | fuel + 1 => do
    skipComments tokens fuel
    if (← isAtEnd tokens) then
      pure none
    else if (← matchAny tokens "KEYWORD" ["int", "char", "float", "double", "void"]) then
      let typeToken ← previous tokens
      if (← matchToken tokens "IDENTIFIER" "") then
        let nameToken ← previous tokens
        if (← matchToken tokens "PUNCTUATION" "(") then
          let node ← parseFunctionDeclaration tokens fuel typeToken nameToken
          pure (some node)
        else
          let node ← parseVariableDeclaration tokens fuel typeToken nameToken
          pure (some node)
      else
        parseStatement tokens fuel
    else
      parseStatement tokens fuel

/-- The method `Parser::parseFunctionDeclaration`. -/
def parseFunctionDeclaration (tokens : List Token) :
    Nat → Token → Token → Parse ASTNode
  | 0, _, _ => throw .fuelExhausted
  | fuel + 1, typeToken, nameToken => do
    let typeNode := ASTNode.mk "TYPE" typeToken.value []
    let paramsNode := ASTNode.mk "PARAMETERS" "" []
    skipParameters tokens fuel
    if (← matchToken tokens "PUNCTUATION" "\x7b") then
      let bodyNode ← parseBlock tokens fuel
      pure (.mk "FUNCTION_DECLARATION" nameToken.value
        [some typeNode, some paramsNode, some bodyNode])
    else
      pure (.mk "FUNCTION_DECLARATION" nameToken.value [some typeNode, some paramsNode])

/-- The method `Parser::parseVariableDeclaration`. -/
def parseVariableDeclaration (tokens : List Token) :
    Nat → Token → Token → Parse ASTNode
  | 0, _, _ => throw .fuelExhausted
  | fuel + 1, typeToken, nameToken => do
    let typeNode := ASTNode.mk "TYPE" typeToken.value []
    if (← matchToken tokens "OPERATOR" "=") then
      let exprNode ← parseExpression tokens fuel
      let initNode := ASTNode.mk "INITIALIZATION" "" [some exprNode]
      let _ ← consume tokens "PUNCTUATION" ";" "Expected ';' after variable declaration"
      pure (.mk "VARIABLE_DECLARATION" nameToken.value [some typeNode, some initNode])
    else
      let _ ← consume tokens "PUNCTUATION" ";" "Expected ';' after variable declaration"
      pure (.mk "VARIABLE_DECLARATION" nameToken.value [some typeNode])

/-- The method `Parser::parseStatement`. -/
def parseStatement (tokens : List Token) : Nat → Parse (Option ASTNode)
  | 0 => throw .fuelExhausted
  | fuel + 1 => do
    skipComments tokens fuel
    if (← isAtEnd tokens) then
      pure none
    else if (← matchToken tokens "KEYWORD" "if") then
      let node ← parseIfStatement tokens fuel
      pure (some node)
    else if (← matchToken tokens "KEYWORD" "while") then
      let node ← parseWhileStatement tokens fuel
      pure (some node)
    else if (← matchToken tokens "KEYWORD" "for") then
      let node ← parseForStatement tokens fuel
      pure (some node)
    else if (← matchToken tokens "KEYWORD" "return") then
      let node ← parseReturnStatement tokens fuel
      pure (some node)
    else if (← matchToken tokens "PUNCTUATION" "\x7b") then
      let node ← parseBlock tokens fuel
      pure (some node)
    else
      let node ← parseExpressionStatement tokens fuel
      pure (some node)

/-- The method `Parser::parseIfStatement`. -/
def parseIfStatement (tokens : List Token) : Nat → Parse ASTNode
  | 0 => throw .fuelExhausted
  | fuel + 1 => do
    let _ ← consume tokens "PUNCTUATION" "(" "Expected '(' after 'if'"
    let condition ← parseExpression tokens fuel
    let _ ← consume tokens "PUNCTUATION" ")" "Expected ')' after if condition"
    let thenBranch ← parseStatement tokens fuel
    if (← matchToken tokens "KEYWORD" "else") then
      let elseBranch ← parseStatement tokens fuel
      pure (.mk "IF_STATEMENT" "" [some condition, thenBranch, elseBranch])
    else
      pure (.mk "IF_STATEMENT" "" [some condition, thenBranch])

/-- The method `Parser::parseWhileStatement`. -/
def parseWhileStatement (tokens : List Token) : Nat → Parse ASTNode
  | 0 => throw .fuelExhausted
  | fuel + 1 => do
    let _ ← consume tokens "PUNCTUATION" "(" "Expected '(' after 'while'"
    let condition ← parseExpression tokens fuel
    let _ ← consume tokens "PUNCTUATION" ")" "Expected ')' after while condition"
    let body ← parseStatement tokens fuel
    pure (.mk "WHILE_STATEMENT" "" [some condition, body])

/-- The initialization clause of `parseForStatement` (source lines 459-483):
the children of the `FOR_INIT` node. -/
def parseForInit (tokens : List Token) : Nat → Parse (List (Option ASTNode))
  | 0 => throw .fuelExhausted
  | fuel + 1 => do
    if !(← check tokens "PUNCTUATION" ";") then
      if (← matchAny tokens "KEYWORD" ["int", "float", "char"]) then
        let typeToken ← previous tokens
        if (← matchToken tokens "IDENTIFIER" "") then
          let nameToken ← previous tokens
          let varNode ← parseVariableDeclaration tokens fuel typeToken nameToken
          pure [some varNode]
        else
          pure []
      else
        let expr ← parseExpression tokens fuel
        let _ ← consume tokens "PUNCTUATION" ";" "Expected ';' after for initialization"
        pure [some expr]
    else
      let _ ← advance tokens
      pure []

/-- The method `Parser::parseForStatement`. -/
def parseForStatement (tokens : List Token) : Nat → Parse ASTNode
  | 0 => throw .fuelExhausted
  | fuel + 1 => do
    let _ ← consume tokens "PUNCTUATION" "(" "Expected '(' after 'for'"
    let initNode := ASTNode.mk "FOR_INIT" "" (← parseForInit tokens fuel)
    let condChildren ←
      if !(← check tokens "PUNCTUATION" ";") then
        (do let expr ← parseExpression tokens fuel; pure [some expr])
      else
        pure []
    let _ ← consume tokens "PUNCTUATION" ";" "Expected ';' after for condition"
    let condNode := ASTNode.mk "FOR_CONDITION" "" condChildren
    let incrChildren ←
      if !(← check tokens "PUNCTUATION" ")") then
        (do let expr ← parseExpression tokens fuel; pure [some expr])
      else
        pure []
    let _ ← consume tokens "PUNCTUATION" ")" "Expected ')' after for clauses"
    let incrNode := ASTNode.mk "FOR_INCREMENT" "" incrChildren
    let body ← parseStatement tokens fuel
    pure (.mk "FOR_STATEMENT" "" [some initNode, some condNode, some incrNode, body])

/-- The method `Parser::parseReturnStatement`. -/
def parseReturnStatement (tokens : List Token) : Nat → Parse ASTNode
  | 0 => throw .fuelExhausted
  | fuel + 1 => do
    if !(← check tokens "PUNCTUATION" ";") then
      let expr ← parseExpression tokens fuel
      let _ ← consume tokens "PUNCTUATION" ";" "Expected ';' after return statement"
      pure (.mk "RETURN_STATEMENT" "" [some expr])
    else
      let _ ← consume tokens "PUNCTUATION" ";" "Expected ';' after return statement"
      pure (.mk "RETURN_STATEMENT" "" [])

/-- The `while` loop of `parseBlock` (source lines 534-539); the argument is
the list of children pushed so far. -/
def parseBlockLoop (tokens : List Token) :
    Nat → List (Option ASTNode) → Parse (List (Option ASTNode))
  | 0, _ => throw .fuelExhausted
  | fuel + 1, children => do
    if (← check tokens "PUNCTUATION" "\x7d") then
      pure children
    else if (← isAtEnd tokens) then
      pure children
    else
      let declaration ← parseDeclaration tokens fuel
      parseBlockLoop tokens fuel (pushIfNotNull children declaration)

/-- The method `Parser::parseBlock`. -/
def parseBlock (tokens : List Token) : Nat → Parse ASTNode
  | 0 => throw .fuelExhausted
  | fuel + 1 => do
    let children ← parseBlockLoop tokens fuel []
    let _ ← consume tokens "PUNCTUATION" "\x7d" "Expected '\x7d' after block"
    pure (.mk "BLOCK" "" children)

/-- The method `Parser::parseExpressionStatement`. -/
def parseExpressionStatement (tokens : List Token) : Nat → Parse ASTNode
  | 0 => throw .fuelExhausted
  | fuel + 1 => do
    let expr ← parseExpression tokens fuel
    let _ ← consume tokens "PUNCTUATION" ";" "Expected ';' after expression"
    pure expr

/-- The method `Parser::parseExpression`. -/
def parseExpression (tokens : List Token) : Nat → Parse ASTNode
  | 0 => throw .fuelExhausted
  | fuel + 1 => parseAssignment tokens fuel

/-- The method `Parser::parseAssignment`. -/
def parseAssignment (tokens : List Token) : Nat → Parse ASTNode
  | 0 => throw .fuelExhausted
  | fuel + 1 => do
    let expr ← parseEquality tokens fuel
    if (← matchToken tokens "OPERATOR" "=") then
      let value ← parseAssignment tokens fuel
      if expr.type == "IDENTIFIER" then
        pure (.mk "ASSIGNMENT" expr.value [some value])
      else
        throw (.runtimeError "Invalid assignment target")
    else
      pure expr

/-- The `while` loop of `parseEquality`; the argument is the variable `expr`. -/
def parseEqualityLoop (tokens : List Token) : Nat → ASTNode → Parse ASTNode
  | 0, _ => throw .fuelExhausted
  | fuel + 1, expr => do
    if (← matchAny tokens "OPERATOR" ["==", "!="]) then
      let op := (← previous tokens).value
      let right ← parseComparison tokens fuel
      parseEqualityLoop tokens fuel (.mk "BINARY" op [some expr, some right])
    else
      pure expr

/-- The method `Parser::parseEquality`. -/
def parseEquality (tokens : List Token) : Nat → Parse ASTNode
  | 0 => throw .fuelExhausted
  | fuel + 1 => do
    let expr ← parseComparison tokens fuel
    parseEqualityLoop tokens fuel expr

/-- The `while` loop of `parseComparison`. -/
def parseComparisonLoop (tokens : List Token) : Nat → ASTNode → Parse ASTNode
  | 0, _ => throw .fuelExhausted
  | fuel + 1, expr => do
    if (← matchAny tokens "OPERATOR" [">", ">=", "<", "<="]) then
      let op := (← previous tokens).value
      let right ← parseTerm tokens fuel
      parseComparisonLoop tokens fuel (.mk "BINARY" op [some expr, some right])
    else
      pure expr

/-- The method `Parser::parseComparison`. -/
def parseComparison (tokens : List Token) : Nat → Parse ASTNode
  | 0 => throw .fuelExhausted
  | fuel + 1 => do
    let expr ← parseTerm tokens fuel
    parseComparisonLoop tokens fuel expr

/-- The `while` loop of `parseTerm`. -/
def parseTermLoop (tokens : List Token) : Nat → ASTNode → Parse ASTNode
  | 0, _ => throw .fuelExhausted
  | fuel + 1, expr => do
    if (← matchAny tokens "OPERATOR" ["+", "-"]) then
      let op := (← previous tokens).value
      let right ← parseFactor tokens fuel
      parseTermLoop tokens fuel (.mk "BINARY" op [some expr, some right])
    else
      pure expr

/-- The method `Parser::parseTerm`. -/
def parseTerm (tokens : List Token) : Nat → Parse ASTNode
  | 0 => throw .fuelExhausted
  | fuel + 1 => do
    let expr ← parseFactor tokens fuel
    parseTermLoop tokens fuel expr

/-- The `while` loop of `parseFactor`. -/
def parseFactorLoop (tokens : List Token) : Nat → ASTNode → Parse ASTNode
  | 0, _ => throw .fuelExhausted
  | fuel + 1, expr => do
    if (← matchAny tokens "OPERATOR" ["*", "/", "%"]) then
      let op := (← previous tokens).value
      let right ← parseUnary tokens fuel
      parseFactorLoop tokens fuel (.mk "BINARY" op [some expr, some right])
    else
      pure expr

/-- The method `Parser::parseFactor`. -/
def parseFactor (tokens : List Token) : Nat → Parse ASTNode
  | 0 => throw .fuelExhausted
  | fuel + 1 => do
    let expr ← parseUnary tokens fuel
    parseFactorLoop tokens fuel expr

/-- The method `Parser::parseUnary`. -/
def parseUnary (tokens : List Token) : Nat → Parse ASTNode
  | 0 => throw .fuelExhausted
  | fuel + 1 => do
    if (← matchAny tokens "OPERATOR" ["!", "-"]) then
      let op := (← previous tokens).value
      let right ← parseUnary tokens fuel
      pure (.mk "UNARY" op [some right])
    else
      parsePrimary tokens fuel

/-- The method `Parser::parsePrimary`. -/
def parsePrimary (tokens : List Token) : Nat → Parse ASTNode
  | 0 => throw .fuelExhausted
  | fuel + 1 => do
    if (← matchToken tokens "NUMBER" "") then
      pure (.mk "LITERAL" (← previous tokens).value [])
    else if (← matchToken tokens "IDENTIFIER" "") then
      pure (.mk "IDENTIFIER" (← previous tokens).value [])
    else if (← matchToken tokens "PUNCTUATION" "(") then
      let expr ← parseExpression tokens fuel
      let _ ← consume tokens "PUNCTUATION" ")" "Expected ')' after expression"
      pure (.mk "GROUPING" "" [some expr])
    else
      throw (.runtimeError "Expected expression")

end

/-- The `while (current < tokens.size())` loop of `Parser::parse`; the
argument is the list of children of the root pushed so far. -/
def parseLoop (tokens : List Token) :
    Nat → List (Option ASTNode) → Parse (List (Option ASTNode))
  | 0, _ => throw .fuelExhausted
  | fuel + 1, children => do
    let current ← get
    match tokens[current]? with
    | none => pure children
    | some token =>
      if token.type == "COMMENT" then
        modify (· + 1)
        parseLoop tokens fuel children
      else
        let node ← parseDeclaration tokens fuel
        parseLoop tokens fuel (pushIfNotNull children node)

/-- The fuel on which `parse` runs: 32 units for every token, and 32 more. -/
def parseFuel (tokens : List Token) : Nat :=
  32 * (tokens.length + 1)

/-- The method `Parser::parse` of a parser constructed on `tokens`
(`current = 0`). -/
def parse (tokens : List Token) : Except Failure ASTNode :=
  match parseLoop tokens (parseFuel tokens) [] 0 with
  | .error e => .error e
  | .ok (children, _) => .ok (.mk "PROGRAM" "" children)

/-- The driver's composition: tokenize the source, then parse the tokens. -/
def compile (source : String) : Except Failure ASTNode :=
  match tokenize source with
  | .error e => .error e
  | .ok tokens => parse tokens

/-! ## Notions used to state the properties -/

/-- The line on which the character that follows the text `pre` stands. -/
def lineAfter (pre : List Char) : Nat :=
  1 + pre.count '\n'

/-- The column at which the character that follows the text `pre` stands. -/
def columnAfter (pre : List Char) : Nat :=
  1 + (pre.reverse.takeWhile (· != '\n')).length

/-- The position bookkeeping of the lexer for one consumed character. -/
def advancePos (p : Nat × Nat) (c : Char) : Nat × Nat :=
  if c == '\n' then (p.1 + 1, 1) else (p.1, p.2 + 1)

/-- The texts of the tokens, concatenated in order. -/
def concatTexts : List Token → List Char
  | [] => []
  | t :: ts => t.value.data ++ concatTexts ts

/-- Deletes the characters space, tab, CR and LF. -/
def deleteBlanks (s : List Char) : List Char :=
  s.filter fun c => !(c == ' ' || c == '\t' || c == '\r' || c == '\n')

/-- Deletes every character on which `isspace` holds. -/
def deleteSpace (s : List Char) : List Char :=
  s.filter fun c => !isspace c

/-- The number of vertical tabs and form feeds in a text. -/
def countVtFf (s : List Char) : Nat :=
  s.countP fun c => c == '\x0b' || c == '\x0c'

/-- The layout of a token list over a text: `Tiled pre rest toks` says that,
after the prefix `pre`, the text `rest` consists of the texts of `toks` in
order, separated (and followed) by runs of `isspace` characters; every token
carries the column at which its text starts and the line on which its text
ends, only `COMMENT` tokens contain `isspace` characters, and no text starts
with one. -/
inductive Tiled : List Char → List Char → List Token → Prop
  | nil (pre gap : List Char) : (∀ x ∈ gap, isspace x = true) → Tiled pre gap []
  | cons (pre gap post : List Char) (t : Token) (ts : List Token) :
      (∀ x ∈ gap, isspace x = true) →
      t.column = columnAfter (pre ++ gap) →
      t.line = lineAfter (pre ++ gap ++ t.value.data) →
      (t.type = "COMMENT" ∨ ∀ x ∈ t.value.data, isspace x = false) →
      (∃ a l, t.value.data = a :: l ∧ isspace a = false) →
      Tiled (pre ++ gap ++ t.value.data) post ts →
      Tiled pre (gap ++ t.value.data ++ post) (t :: ts)

/-- A character on which every branch of the scan loop fails: it is no
`isspace` character and starts no comment, word, number, operator or
punctuation token. -/
structure Unexpected (c : Char) : Prop where
  space : isspace c = false
  alpha : isalpha c = false
  digit : isdigit c = false
  underscore : c ≠ '_'
  operator : strchr "+-*/%=<>!" c = false
  punctuation : strchr ";,()\x7b\x7d[]" c = false

/-- The test that `check` makes on the token under the cursor. -/
def Token.matches (t : Token) (type value : String) : Bool :=
  if value.isEmpty then t.type == type else t.type == type && t.value == value

/-- The value that `check(type, value)` returns with the cursor at `k`. -/
def checkAt (tokens : List Token) (k : Nat) (type value : String) : Bool :=
  match tokens[k]? with
  | some t => t.matches type value
  | none => false

/-- The value of `match(type, v1) || match(type, v2) || ...` with the cursor
at `k`. -/
def checkAnyAt (tokens : List Token) (k : Nat) (type : String) (values : List String) : Bool :=
  values.any fun v => checkAt tokens k type v

/-- Sequencing of two parser steps on explicit results: the second step runs
from the cursor that the first one returns, an error of the first one is the
result. -/
def andThen {α β : Type} (r : Except Failure (α × Nat))
    (f : α → Nat → Except Failure (β × Nat)) : Except Failure (β × Nat) :=
  match r with
  | .ok (a, k) => f a k
  | .error e => .error e

/-- A well-behaved result of a parser step over `n` tokens: a success leaves
the cursor between `lo` and `n`; a failure is a thrown `runtime_error`, never
an out-of-range read, and it is not the fuel running dry when `s` holds (`s`
says that the fuel was enough). -/
def Good {α : Type} (n lo : Nat) (s : Prop) : Except Failure (α × Nat) → Prop
  | .ok (_, k) => lo ≤ k ∧ k ≤ n
  | .error (.runtimeError _) => True
  | .error .outOfRange => False
  | .error .fuelExhausted => ¬ s

/-- The well-behavedness of every function of the parser on the fuel `fuel`:
each one, started at a cursor `k` within the `n` tokens, ends within them, the
rules that read a token end strictly after `k`, and a fuel of `32 * (n - k)`
plus the rank of the function is enough. -/
structure AllGood (tokens : List Token) (fuel : Nat) : Prop where
  primary : ∀ k, k ≤ tokens.length →
    Good tokens.length (k + 1) (32 * (tokens.length - k) + 1 ≤ fuel) (parsePrimary tokens fuel k)
  unary : ∀ k, k ≤ tokens.length →
    Good tokens.length (k + 1) (32 * (tokens.length - k) + 2 ≤ fuel) (parseUnary tokens fuel k)
  factorLoop : ∀ e k, k ≤ tokens.length →
    Good tokens.length k (32 * (tokens.length - k) + 3 ≤ fuel) (parseFactorLoop tokens fuel e k)
  factor : ∀ k, k ≤ tokens.length →
    Good tokens.length (k + 1) (32 * (tokens.length - k) + 4 ≤ fuel) (parseFactor tokens fuel k)
  termLoop : ∀ e k, k ≤ tokens.length →
    Good tokens.length k (32 * (tokens.length - k) + 5 ≤ fuel) (parseTermLoop tokens fuel e k)
  term : ∀ k, k ≤ tokens.length →
    Good tokens.length (k + 1) (32 * (tokens.length - k) + 6 ≤ fuel) (parseTerm tokens fuel k)
  comparisonLoop : ∀ e k, k ≤ tokens.length →
    Good tokens.length k (32 * (tokens.length - k) + 7 ≤ fuel)
      (parseComparisonLoop tokens fuel e k)
  comparison : ∀ k, k ≤ tokens.length →
    Good tokens.length (k + 1) (32 * (tokens.length - k) + 8 ≤ fuel)
      (parseComparison tokens fuel k)
  equalityLoop : ∀ e k, k ≤ tokens.length →
    Good tokens.length k (32 * (tokens.length - k) + 9 ≤ fuel)
      (parseEqualityLoop tokens fuel e k)
  equality : ∀ k, k ≤ tokens.length →
    Good tokens.length (k + 1) (32 * (tokens.length - k) + 10 ≤ fuel)
      (parseEquality tokens fuel k)
  assignment : ∀ k, k ≤ tokens.length →
    Good tokens.length (k + 1) (32 * (tokens.length - k) + 11 ≤ fuel)
      (parseAssignment tokens fuel k)
  expression : ∀ k, k ≤ tokens.length →
    Good tokens.length (k + 1) (32 * (tokens.length - k) + 12 ≤ fuel)
      (parseExpression tokens fuel k)
  expressionStatement : ∀ k, k ≤ tokens.length →
    Good tokens.length (k + 1) (32 * (tokens.length - k) + 13 ≤ fuel)
      (parseExpressionStatement tokens fuel k)
  returnStatement : ∀ k, k ≤ tokens.length →
    Good tokens.length (k + 1) (32 * (tokens.length - k) + 13 ≤ fuel)
      (parseReturnStatement tokens fuel k)
  variableDeclaration : ∀ typeToken nameToken k, k ≤ tokens.length →
    Good tokens.length (k + 1) (32 * (tokens.length - k) + 13 ≤ fuel)
      (parseVariableDeclaration tokens fuel typeToken nameToken k)
  ifStatement : ∀ k, k ≤ tokens.length →
    Good tokens.length (k + 1) (32 * (tokens.length - k) + 13 ≤ fuel)
      (parseIfStatement tokens fuel k)
  whileStatement : ∀ k, k ≤ tokens.length →
    Good tokens.length (k + 1) (32 * (tokens.length - k) + 13 ≤ fuel)
      (parseWhileStatement tokens fuel k)
  forInit : ∀ k, k ≤ tokens.length →
    Good tokens.length (k + 1) (32 * (tokens.length - k) + 14 ≤ fuel)
      (parseForInit tokens fuel k)
  forStatement : ∀ k, k ≤ tokens.length →
    Good tokens.length (k + 1) (32 * (tokens.length - k) + 15 ≤ fuel)
      (parseForStatement tokens fuel k)
  statement : ∀ k, k ≤ tokens.length →
    Good tokens.length (min (k + 1) tokens.length) (32 * (tokens.length - k) + 14 ≤ fuel)
      (parseStatement tokens fuel k)
  declaration : ∀ k, k ≤ tokens.length →
    Good tokens.length (min (k + 1) tokens.length) (32 * (tokens.length - k) + 15 ≤ fuel)
      (parseDeclaration tokens fuel k)
  functionDeclaration : ∀ typeToken nameToken k, k ≤ tokens.length →
    Good tokens.length k (32 * (tokens.length - k) + 2 ≤ fuel)
      (parseFunctionDeclaration tokens fuel typeToken nameToken k)
  blockLoop : ∀ children k, k ≤ tokens.length →
    Good tokens.length k (32 * (tokens.length - k) + 16 ≤ fuel)
      (parseBlockLoop tokens fuel children k)
  block : ∀ k, k ≤ tokens.length →
    Good tokens.length (k + 1) (32 * (tokens.length - k) + 17 ≤ fuel)
      (parseBlock tokens fuel k)

/-- The condition or increment clause of a `for` statement (source lines
489-492 and 501-504): no child when the cursor stands on the token that ends
the clause, the expression read by `parseExpression` otherwise. -/
def forClause (tokens : List Token) (fuel : Nat) (terminator : String) (k : Nat) :
    Except Failure (List (Option ASTNode) × Nat) :=
  if checkAt tokens k "PUNCTUATION" terminator then .ok ([], k)
  else andThen (parseExpression tokens fuel k) fun expr k' => .ok ([some expr], k')

/-- The node that the parser builds from a single operand token: `LITERAL`
for a `NUMBER`, `IDENTIFIER` otherwise. -/
def operandNode (t : Token) : ASTNode :=
  if t.type == "NUMBER" then .mk "LITERAL" t.value [] else .mk "IDENTIFIER" t.value []

/-- The node `BINARY(op)[left, right]`. -/
def binaryNode (op : String) (left right : ASTNode) : ASTNode :=
  .mk "BINARY" op [some left, some right]

/-- The binary operators of the expression grammar. -/
def binaryOperators : List String :=
  ["==", "!=", ">", ">=", "<", "<=", "+", "-", "*", "/", "%"]

/-- The level of a binary operator in the precedence chain: equality 1,
comparison 2, term 3, factor 4. -/
def precedenceLevel (op : String) : Nat :=
  if ["==", "!="].contains op then 1
  else if [">", ">=", "<", "<="].contains op then 2
  else if ["+", "-"].contains op then 3
  else 4

/-- The result of the rule of level `X` started on the first operand of
`a o1 b o2 c ;`, the levels of `o1` and `o2` being `p1` and `p2`. -/
def foldFirst (X p1 p2 : Nat) (a b c : ASTNode) (o1 o2 : String) : ASTNode × Nat :=
  if p1 < X then (a, 1)
  else if p1 < p2 then (binaryNode o1 a (binaryNode o2 b c), 5)
  else if X ≤ p2 then (binaryNode o2 (binaryNode o1 a b) c, 5)
  else (binaryNode o1 a b, 3)

/-- The result of the rule of level `X` started on the second operand of
`a o1 b o2 c ;`. -/
def foldSecond (X p2 : Nat) (b c : ASTNode) (o2 : String) : ASTNode × Nat :=
  if X ≤ p2 then (binaryNode o2 b c, 5) else (b, 3)

/-- The closed set of the twenty kinds of syntax nodes. -/
def nodeKinds : List String :=
  ["PROGRAM", "FUNCTION_DECLARATION", "PARAMETERS", "VARIABLE_DECLARATION", "TYPE",
    "INITIALIZATION", "IF_STATEMENT", "WHILE_STATEMENT", "FOR_STATEMENT", "FOR_INIT",
    "FOR_CONDITION", "FOR_INCREMENT", "RETURN_STATEMENT", "BLOCK", "ASSIGNMENT", "BINARY",
    "UNARY", "LITERAL", "IDENTIFIER", "GROUPING"]

/-- The unary operators of the expression grammar. -/
def unaryOperators : List String := ["!", "-"]

/-- The conditions of well-formedness on one node: its kind is in the closed
set, and its value and the number of its children fit its kind. -/
def shapeOk (type value : String) (children : List (Option ASTNode)) : Bool :=
  nodeKinds.contains type &&
  (if type == "BINARY" then children.length == 2 && binaryOperators.contains value
  else if type == "UNARY" then children.length == 1 && unaryOperators.contains value
  else if type == "ASSIGNMENT" || type == "GROUPING" then children.length == 1
  else if type == "LITERAL" || type == "IDENTIFIER" || type == "TYPE" ||
      type == "PARAMETERS" then children.length == 0
  else true)

mutual
/-- Well-formedness of a tree: every node of it satisfies `shapeOk`. -/
def ASTNode.wellFormed : ASTNode → Bool
  | .mk type value children => shapeOk type value children && wellFormedChildren children
/-- Well-formedness of the trees of a list of children; a null child is not a
node and is passed over. -/
def wellFormedChildren : List (Option ASTNode) → Bool
  | [] => true
  | none :: rest => wellFormedChildren rest
  | some node :: rest => node.wellFormed && wellFormedChildren rest
end

/-- A property of the value that a parser step returns, when it returns. -/
def Yields {α : Type} (P : α → Prop) : Except Failure (α × Nat) → Prop
  | .ok (a, _) => P a
  | .error _ => True

/-- Well-formedness of every tree that a function of the parser returns on the
fuel `fuel`. -/
structure AllWellFormed (tokens : List Token) (fuel : Nat) : Prop where
  primary : ∀ k, Yields (fun n => n.wellFormed = true) (parsePrimary tokens fuel k)
  unary : ∀ k, Yields (fun n => n.wellFormed = true) (parseUnary tokens fuel k)
  factorLoop : ∀ e k, e.wellFormed = true →
    Yields (fun n => n.wellFormed = true) (parseFactorLoop tokens fuel e k)
  factor : ∀ k, Yields (fun n => n.wellFormed = true) (parseFactor tokens fuel k)
  termLoop : ∀ e k, e.wellFormed = true →
    Yields (fun n => n.wellFormed = true) (parseTermLoop tokens fuel e k)
  term : ∀ k, Yields (fun n => n.wellFormed = true) (parseTerm tokens fuel k)
  comparisonLoop : ∀ e k, e.wellFormed = true →
    Yields (fun n => n.wellFormed = true) (parseComparisonLoop tokens fuel e k)
  comparison : ∀ k, Yields (fun n => n.wellFormed = true) (parseComparison tokens fuel k)
  equalityLoop : ∀ e k, e.wellFormed = true →
    Yields (fun n => n.wellFormed = true) (parseEqualityLoop tokens fuel e k)
  equality : ∀ k, Yields (fun n => n.wellFormed = true) (parseEquality tokens fuel k)
  assignment : ∀ k, Yields (fun n => n.wellFormed = true) (parseAssignment tokens fuel k)
  expression : ∀ k, Yields (fun n => n.wellFormed = true) (parseExpression tokens fuel k)
  expressionStatement : ∀ k,
    Yields (fun n => n.wellFormed = true) (parseExpressionStatement tokens fuel k)
  returnStatement : ∀ k,
    Yields (fun n => n.wellFormed = true) (parseReturnStatement tokens fuel k)
  variableDeclaration : ∀ typeToken nameToken k,
    Yields (fun n => n.wellFormed = true)
      (parseVariableDeclaration tokens fuel typeToken nameToken k)
  ifStatement : ∀ k, Yields (fun n => n.wellFormed = true) (parseIfStatement tokens fuel k)
  whileStatement : ∀ k,
    Yields (fun n => n.wellFormed = true) (parseWhileStatement tokens fuel k)
  forInit : ∀ k, Yields (fun c => wellFormedChildren c = true) (parseForInit tokens fuel k)
  forStatement : ∀ k, Yields (fun n => n.wellFormed = true) (parseForStatement tokens fuel k)
  statement : ∀ k,
    Yields (fun o => wellFormedChildren [o] = true) (parseStatement tokens fuel k)
  declaration : ∀ k,
    Yields (fun o => wellFormedChildren [o] = true) (parseDeclaration tokens fuel k)
  functionDeclaration : ∀ typeToken nameToken k,
    Yields (fun n => n.wellFormed = true)
      (parseFunctionDeclaration tokens fuel typeToken nameToken k)
  blockLoop : ∀ children k, wellFormedChildren children = true →
    Yields (fun c => wellFormedChildren c = true) (parseBlockLoop tokens fuel children k)
  block : ∀ k, Yields (fun n => n.wellFormed = true) (parseBlock tokens fuel k)

mutual
/-- The tree has no null child: every element of every list of children is a
node. -/
def ASTNode.noNullChild : ASTNode → Bool
  | .mk _ _ children => noNullChildren children
/-- No element of the list is null, and no node below has a null child. -/
def noNullChildren : List (Option ASTNode) → Bool
  | [] => true
  | none :: _ => false
  | some node :: rest => node.noNullChild && noNullChildren rest
end

/-! ## Character classes -/

theorem char_le_iff (a b : Char) : a ≤ b ↔ a.toNat ≤ b.toNat := Iff.rfl

theorem isspace_iff (c : Char) : isspace c = true ↔
    c = ' ' ∨ c = '\t' ∨ c = '\n' ∨ c = '\x0b' ∨ c = '\x0c' ∨ c = '\r' := by
  simp [isspace, or_assoc]

theorem isalpha_iff (c : Char) : isalpha c = true ↔
    (97 ≤ c.toNat ∧ c.toNat ≤ 122) ∨ (65 ≤ c.toNat ∧ c.toNat ≤ 90) := by
  simp only [isalpha, Bool.or_eq_true, Bool.and_eq_true, decide_eq_true_eq, char_le_iff]
  rfl

theorem isdigit_iff (c : Char) : isdigit c = true ↔ 48 ≤ c.toNat ∧ c.toNat ≤ 57 := by
  simp only [isdigit, Bool.and_eq_true, decide_eq_true_eq, char_le_iff]
  rfl

theorem isspace_eq_false_of_word {c : Char} (h : (isalnum c || c == '_') = true) :
    isspace c = false := by
  cases hs : isspace c with
  | false => rfl
  | true =>
    rw [isspace_iff] at hs
    rcases hs with rfl | rfl | rfl | rfl | rfl | rfl <;> revert h <;> decide

theorem isspace_eq_false_of_numeric {c : Char} (h : (isdigit c || c == '.') = true) :
    isspace c = false := by
  cases hs : isspace c with
  | false => rfl
  | true =>
    rw [isspace_iff] at hs
    rcases hs with rfl | rfl | rfl | rfl | rfl | rfl <;> revert h <;> decide

theorem ne_newline_of_not_isspace {c : Char} (h : isspace c = false) : c ≠ '\n' := by
  rintro rfl; revert h; decide

theorem isalpha_eq (c : Char) : isalpha c = c.isAlpha := by
  simp only [isalpha, Char.isAlpha, Char.isUpper, Char.isLower, Char.le_def, ge_iff_le,
    Bool.or_comm]
  rfl

theorem isdigit_eq (c : Char) : isdigit c = c.isDigit := by
  simp only [isdigit, Char.isDigit, Char.le_def, ge_iff_le]
  rfl

theorem isalpha_of_isdigit {c : Char} (h : isdigit c = true) : isalpha c = false := by
  rw [isdigit_iff] at h
  cases ha : isalpha c with
  | false => rfl
  | true => rw [isalpha_iff] at ha; omega

theorem ne_of_isdigit {c d : Char} (h : isdigit c = true) (hd : isdigit d = false) : c ≠ d := by
  rintro rfl
  rw [h] at hd
  exact absurd hd (by decide)

theorem ne_of_isalpha {c d : Char} (h : isalpha c = true) (hd : isalpha d = false) : c ≠ d := by
  rintro rfl
  rw [h] at hd
  exact absurd hd (by decide)

/-! ## Positions -/

theorem posAfter_snoc (pre : List Char) (c : Char) :
    (lineAfter (pre ++ [c]), columnAfter (pre ++ [c])) =
      advancePos (lineAfter pre, columnAfter pre) c := by
  by_cases hc : c = '\n'
  · subst hc
    simp [lineAfter, columnAfter, advancePos]
    omega
  · have hc' : ¬ ('\n' = c) := fun h => hc h.symm
    simp [lineAfter, columnAfter, advancePos, hc, hc', List.count_cons, List.takeWhile_cons]
    omega

theorem posAfter_append (pre s : List Char) :
    (lineAfter (pre ++ s), columnAfter (pre ++ s)) =
      s.foldl advancePos (lineAfter pre, columnAfter pre) := by
  induction s generalizing pre with
  | nil => simp
  | cons c s ih =>
    have := ih (pre ++ [c])
    rw [List.append_assoc, List.singleton_append] at this
    rw [this, posAfter_snoc, List.foldl_cons]

theorem foldl_advancePos_of_no_newline (s : List Char) (hs : ∀ x ∈ s, x ≠ '\n') (p : Nat × Nat) :
    s.foldl advancePos p = (p.1, p.2 + s.length) := by
  induction s generalizing p with
  | nil => rfl
  | cons c s ih =>
    have hc : c ≠ '\n' := hs c (by simp)
    rw [List.foldl_cons, ih (fun x hx => hs x (List.mem_cons_of_mem _ hx))]
    simp [advancePos, hc]
    omega

/-! ## Multi-line comments -/

theorem scanMultiLine_cons_cons (c d : Char) (rest : List Char) (line column : Nat) :
    scanMultiLine (c :: d :: rest) line column =
      if c == '*' && d == '/' then
        some (['*', '/'], rest, line, column + 2)
      else if c == '\n' then
        (scanMultiLine (d :: rest) (line + 1) 1).map fun r => (c :: r.1, r.2)
      else
        (scanMultiLine (d :: rest) line (column + 1)).map fun r => (c :: r.1, r.2) := rfl

theorem scanMultiLine_some (s : List Char) (line column : Nat) (body rest : List Char)
    (line' column' : Nat) (h : scanMultiLine s line column = some (body, rest, line', column')) :
    s = body ++ rest ∧ (line', column') = body.foldl advancePos (line, column) := by
  induction s generalizing line column body line' column' with
  | nil => simp [scanMultiLine] at h
  | cons c s ih =>
    cases s with
    | nil => simp [scanMultiLine] at h
    | cons d s =>
      rw [scanMultiLine_cons_cons] at h
      split at h
      · rename_i hcd
        simp only [Bool.and_eq_true, beq_iff_eq] at hcd
        simp only [Option.some.injEq, Prod.mk.injEq] at h
        obtain ⟨rfl, rfl, rfl, rfl⟩ := h
        obtain ⟨rfl, rfl⟩ := hcd
        simp [advancePos]
      · split at h
        · rename_i hc
          simp only [beq_iff_eq] at hc
          subst hc
          simp only [Option.map_eq_some', Prod.mk.injEq] at h
          obtain ⟨⟨b, r, l, k⟩, hrec, rfl, rfl, rfl, rfl⟩ := h
          obtain ⟨h1, h2⟩ := ih _ _ _ _ _ hrec
          simp only at h1 h2 ⊢
          refine ⟨by rw [h1]; rfl, ?_⟩
          rw [h2]; simp [advancePos]
        · rename_i hc
          simp only [beq_iff_eq] at hc
          simp only [Option.map_eq_some', Prod.mk.injEq] at h
          obtain ⟨⟨b, r, l, k⟩, hrec, rfl, rfl, rfl, rfl⟩ := h
          obtain ⟨h1, h2⟩ := ih _ _ _ _ _ hrec
          simp only at h1 h2 ⊢
          refine ⟨by rw [h1]; rfl, ?_⟩
          rw [h2]; simp [advancePos, hc]

theorem scanMultiLine_closed (s : List Char) (hs : ¬ ['*', '/'] <:+: s) (line column : Nat) :
    ∃ column', scanMultiLine (s ++ ['*', '/']) line column =
      some (s ++ ['*', '/'], [], line + s.count '\n', column') := by
  induction s generalizing line column with
  | nil => exact ⟨column + 2, by simp [scanMultiLine]⟩
  | cons c s ih =>
    have hs' : ¬ ['*', '/'] <:+: s := fun h => hs (h.trans (List.suffix_cons c s).isInfix)
    have hstep : ∀ l c', scanMultiLine (c :: (s ++ ['*', '/'])) l c' =
        (scanMultiLine (s ++ ['*', '/']) (if c = '\n' then l + 1 else l)
          (if c = '\n' then 1 else c' + 1)).map fun r => (c :: r.1, r.2) := by
      intro l c'
      cases s with
      | nil =>
        by_cases hc : c = '\n'
        · subst hc; simp [scanMultiLine]
        · simp [scanMultiLine, hc]
      | cons d s =>
        have hcd : ¬ (c = '*' ∧ d = '/') := by
          rintro ⟨rfl, rfl⟩
          exact hs ((List.prefix_append ['*', '/'] s).isInfix)
        by_cases hc : c = '\n'
        · subst hc
          simp [scanMultiLine]
        · have : (c == '*' && d == '/') = false := by
            simpa using hcd
          simp only [List.cons_append, scanMultiLine, this, hc, if_false, Bool.false_eq_true]
          simp [hc]
    obtain ⟨col', h⟩ := ih hs' (if c = '\n' then line + 1 else line) (if c = '\n' then 1 else column + 1)
    refine ⟨col', ?_⟩
    rw [List.cons_append, hstep, h]
    by_cases hc : c = '\n'
    · subst hc; simp; omega
    · simp [hc, List.count_cons]

theorem scanMultiLine_unclosed (s : List Char) (hs : ¬ ['*', '/'] <:+: s) (line column : Nat) :
    scanMultiLine s line column = none := by
  induction s generalizing line column with
  | nil => rfl
  | cons c s ih =>
    have hs' : ¬ ['*', '/'] <:+: s := fun h => hs (h.trans (List.suffix_cons c s).isInfix)
    cases s with
    | nil => rfl
    | cons d s =>
      have hcd : ¬ (c = '*' ∧ d = '/') := by
        rintro ⟨rfl, rfl⟩
        exact hs ((List.prefix_append ['*', '/'] s).isInfix)
      have : (c == '*' && d == '/') = false := by simpa using hcd
      rw [scanMultiLine_cons_cons]
      simp only [this, Bool.false_eq_true, if_false]
      split <;> simp [ih hs']

/-- C4: for a text `s` that does not contain `*/`, the source `/*` ++ `s` ++
`*/` yields exactly one token, a `COMMENT` whose text is the whole source, and
the source `/*` ++ `s` fails with the unclosed-comment error. -/
theorem tokenize_multiLineComment (s : List Char) (hs : ¬ ['*', '/'] <:+: s) :
    tokenize (String.mk ('/' :: '*' :: s ++ ['*', '/'])) =
      .ok [⟨"COMMENT", String.mk ('/' :: '*' :: s ++ ['*', '/']), 1 + s.count '\n', 1⟩] ∧
    tokenize (String.mk ('/' :: '*' :: s)) =
      .error (.runtimeError "Unclosed multi-line comment") := by
  constructor
  · obtain ⟨col', h⟩ := scanMultiLine_closed s hs 1 (1 + 2)
    simp [tokenize, tokenizeLoop, scanToken, isspace, h]
  · have h := scanMultiLine_unclosed s hs 1 (1 + 2)
    simp [tokenize, tokenizeLoop, scanToken, isspace, h]

/-- C4, at the sources `/* a */` and `/* a`. -/
theorem tokenize_multiLineComment_witness :
    tokenize "/* a */" = .ok [⟨"COMMENT", "/* a */", 1, 1⟩] ∧
    tokenize "/* a" = .error (.runtimeError "Unclosed multi-line comment") :=
  tokenize_multiLineComment " a ".data (by decide)

/-- C3: the `COMMENT` token of a multi-line comment carries the line on which
the comment ends, not the line on which its `/*` began: the source consisting
of `/*`, a line feed and `*/` yields one `COMMENT` token with line 2. -/
theorem tokenize_multiLineComment_line :
    tokenize "/*\n*/" = .ok [⟨"COMMENT", "/*\n*/", 2, 1⟩] := by
  decide

/-! ## Single tokens -/

/-- C5: at an operator character `c` followed by a character `d`, where `cd`
does not open a comment, one iteration of the scan loop emits the operator
`cd` and resumes after `d` if `cd` is one of `== != <= >= ++ --`; otherwise it
emits the operator `c` and resumes at `d`.  In particular `x==5` yields the
three tokens `x`, `==`, `5`. -/
theorem scanToken_operator (c d : Char) (rest : List Char) (line column : Nat)
    (hc : c ∈ ['+', '-', '*', '/', '%', '=', '<', '>', '!'])
    (hd : ¬ (c = '/' ∧ (d = '/' ∨ d = '*'))) :
    scanToken c (d :: rest) line column =
      (if String.mk [c, d] ∈ ["==", "!=", "<=", ">=", "++", "--"] then
        .ok (some ⟨"OPERATOR", String.mk [c, d], line, column⟩, rest, line, column + 2)
      else
        .ok (some ⟨"OPERATOR", String.mk [c], line, column⟩, d :: rest, line, column + 1)) ∧
    tokenize "x==5" = .ok [⟨"IDENTIFIER", "x", 1, 1⟩, ⟨"OPERATOR", "==", 1, 2⟩,
      ⟨"NUMBER", "5", 1, 4⟩] := by
  refine ⟨?_, by decide⟩
  simp only [List.mem_cons, List.mem_singleton, List.not_mem_nil, or_false] at hc
  rcases hc with rfl | rfl | rfl | rfl | rfl | rfl | rfl | rfl | rfl
  · simp [scanToken, isspace, isalpha, isdigit, strchr, isTwoCharOperator, String.ext_iff]
  · simp [scanToken, isspace, isalpha, isdigit, strchr, isTwoCharOperator, String.ext_iff]
  · simp [scanToken, isspace, isalpha, isdigit, strchr, isTwoCharOperator, String.ext_iff]
  · simp at hd
    simp [scanToken, isspace, isalpha, isdigit, strchr, isTwoCharOperator, String.ext_iff, hd]
  all_goals simp [scanToken, isspace, isalpha, isdigit, strchr, isTwoCharOperator, String.ext_iff]

/-- C5, at the inputs `<=` and `<5`: the pair `<=` is one operator, and `<`
before `5` is a one-character operator after which the scan resumes at `5`. -/
theorem scanToken_operator_witness :
    (scanToken '<' ['='] 1 1 =
      (if String.mk ['<', '='] ∈ ["==", "!=", "<=", ">=", "++", "--"] then
        .ok (some ⟨"OPERATOR", String.mk ['<', '='], 1, 1⟩, [], 1, 1 + 2)
      else
        .ok (some ⟨"OPERATOR", String.mk ['<'], 1, 1⟩, ['='], 1, 1 + 1)) ∧
      tokenize "x==5" = .ok [⟨"IDENTIFIER", "x", 1, 1⟩, ⟨"OPERATOR", "==", 1, 2⟩,
        ⟨"NUMBER", "5", 1, 4⟩]) ∧
    scanToken '<' ['5'] 1 1 = .ok (some ⟨"OPERATOR", "<", 1, 1⟩, ['5'], 1, 2) :=
  ⟨scanToken_operator '<' '=' [] 1 1 (by decide) (by decide), by decide⟩

/-- C6: a word `c :: tail` of letters, digits and underscores that starts with
a letter or an underscore is one token with the whole word as text; its kind
is `KEYWORD` exactly when the word is one of the eleven keywords, and
`IDENTIFIER` otherwise. -/
theorem tokenize_word (c : Char) (tail : List Char)
    (hfirst : c.isAlpha = true ∨ c = '_')
    (htail : ∀ x ∈ tail, x.isAlpha = true ∨ x.isDigit = true ∨ x = '_') :
    tokenize (String.mk (c :: tail)) =
      .ok [⟨if String.mk (c :: tail) ∈ ["int", "char", "float", "double", "void", "if",
              "else", "while", "for", "return", "printf"] then "KEYWORD" else "IDENTIFIER",
            String.mk (c :: tail), 1, 1⟩] := by
  have hc : isalpha c = true ∨ c = '_' := by rwa [isalpha_eq]
  have hword : (isalnum c || c == '_') = true := by
    rcases hc with h | h <;> simp [isalnum, h]
  have hsp : isspace c = false := isspace_eq_false_of_word hword
  have hslash : (c == '/') = false := by
    cases hs : c == '/' with
    | false => rfl
    | true =>
      have : c = '/' := by simpa using hs
      subst this
      revert hword; decide
  have hp : ∀ x ∈ c :: tail, (isalnum x || x == '_') = true := by
    intro x hx
    rcases List.mem_cons.mp hx with rfl | hx
    · exact hword
    · rcases htail x hx with h | h | h
      · simp [isalnum, isalpha_eq, h]
      · simp [isalnum, isdigit_eq, h]
      · simp [h]
  have htake : (c :: tail).takeWhile (fun x => isalnum x || x == '_') = c :: tail :=
    List.takeWhile_eq_self_iff.mpr hp
  have hdrop : (c :: tail).dropWhile (fun x => isalnum x || x == '_') = [] :=
    List.dropWhile_eq_nil_iff.mpr hp
  have hcond : (isalpha c || c == '_') = true := by
    rcases hc with h | h <;> simp [h]
  have hkw : isKeyword (String.mk (c :: tail)) = true ↔
      String.mk (c :: tail) ∈ ["int", "char", "float", "double", "void", "if", "else",
        "while", "for", "return", "printf"] := by
    simp [isKeyword]
  simp only [tokenize, String.length, List.length_cons, tokenizeLoop, scanToken, hsp, hslash,
    Bool.false_and, Bool.false_eq_true, if_false, hcond, if_true, htake, hdrop]
  by_cases hk : isKeyword (String.mk (c :: tail)) = true
  · rw [if_pos hk, if_pos (hkw.mp hk)]
    cases tail <;> rfl
  · rw [if_neg hk, if_neg (fun h => hk (hkw.mpr h))]
    cases tail <;> rfl

/-- C6, at the words `integer`, `Int` and `int`: the first two are single
`IDENTIFIER` tokens, the third is a `KEYWORD`. -/
theorem tokenize_word_witness :
    tokenize "integer" = .ok [⟨"IDENTIFIER", "integer", 1, 1⟩] ∧
    tokenize "Int" = .ok [⟨"IDENTIFIER", "Int", 1, 1⟩] ∧
    tokenize "int" = .ok [⟨"KEYWORD", "int", 1, 1⟩] :=
  ⟨tokenize_word 'i' "nteger".data (by decide) (by decide),
    tokenize_word 'I' "nt".data (by decide) (by decide),
    tokenize_word 'i' "nt".data (by decide) (by decide)⟩

/-- C7: a string `c :: tail` of digits and dots that starts with a digit is
one `NUMBER` token with the whole string as text, however many dots it
contains. -/
theorem tokenize_number (c : Char) (tail : List Char) (hc : c.isDigit = true)
    (htail : ∀ x ∈ tail, x.isDigit = true ∨ x = '.') :
    tokenize (String.mk (c :: tail)) = .ok [⟨"NUMBER", String.mk (c :: tail), 1, 1⟩] := by
  have hd : isdigit c = true := by rwa [isdigit_eq]
  have hnum : (isdigit c || c == '.') = true := by simp [hd]
  have hsp : isspace c = false := isspace_eq_false_of_numeric hnum
  have hal : isalpha c = false := isalpha_of_isdigit hd
  have hslash : (c == '/') = false := by
    simpa using ne_of_isdigit hd (by decide : isdigit '/' = false)
  have hus : (c == '_') = false := by
    simpa using ne_of_isdigit hd (by decide : isdigit '_' = false)
  have hp : ∀ x ∈ c :: tail, (isdigit x || x == '.') = true := by
    intro x hx
    rcases List.mem_cons.mp hx with rfl | hx
    · exact hnum
    · rcases htail x hx with h | h
      · simp [isdigit_eq, h]
      · simp [h]
  have htake : (c :: tail).takeWhile (fun x => isdigit x || x == '.') = c :: tail :=
    List.takeWhile_eq_self_iff.mpr hp
  have hdrop : (c :: tail).dropWhile (fun x => isdigit x || x == '.') = [] :=
    List.dropWhile_eq_nil_iff.mpr hp
  simp only [tokenize, String.length, List.length_cons, tokenizeLoop, scanToken, hsp, hslash,
    Bool.false_and, Bool.false_eq_true, if_false, hal, hus, Bool.or_false, hd, if_true, htake,
    hdrop]
  cases tail <;> rfl

/-- C7, at the strings `1.2.3` and `1.`: each is one `NUMBER` token. -/
theorem tokenize_number_witness :
    tokenize "1.2.3" = .ok [⟨"NUMBER", "1.2.3", 1, 1⟩] ∧
    tokenize "1." = .ok [⟨"NUMBER", "1.", 1, 1⟩] :=
  ⟨tokenize_number '1' ".2.3".data (by decide) (by decide),
    tokenize_number '1' ".".data (by decide) (by decide)⟩

/-! ## The token sequence tiles the source -/

theorem mem_takeWhile_sat (p : Char → Bool) (x : Char) :
    ∀ l : List Char, x ∈ l.takeWhile p → p x = true
  | [], h => by simp at h
  | a :: l, h => by
    rw [List.takeWhile_cons] at h
    cases hp : p a with
    | false => rw [hp] at h; simp at h
    | true =>
      rw [hp] at h
      rcases List.mem_cons.mp h with rfl | h'
      · exact hp
      · exact mem_takeWhile_sat p x l h'

theorem mem_takeWhile_word {x : Char} {l : List Char}
    (hx : x ∈ l.takeWhile (fun c => isalnum c || c == '_')) :
    (isalnum x || x == '_') = true :=
  mem_takeWhile_sat _ x l hx

theorem mem_takeWhile_numeric {x : Char} {l : List Char}
    (hx : x ∈ l.takeWhile (fun c => isdigit c || c == '.')) :
    (isdigit x || x == '.') = true :=
  mem_takeWhile_sat _ x l hx

theorem mem_takeWhile_line {x : Char} {l : List Char}
    (hx : x ∈ l.takeWhile (fun c => c != '\n')) : x ≠ '\n' := by
  have := mem_takeWhile_sat _ x l hx
  simpa using this

theorem scanToken_ok (c : Char) (tail : List Char) (line column : Nat) (tok : Option Token)
    (rest : List Char) (line' column' : Nat)
    (h : scanToken c tail line column = .ok (tok, rest, line', column')) :
    ∃ consumed, c :: tail = consumed ++ rest ∧ consumed ≠ [] ∧
      (line', column') = consumed.foldl advancePos (line, column) ∧
      (tok = none → ∀ x ∈ consumed, isspace x = true) ∧
      ∀ t, tok = some t → t.value.data = consumed ∧ t.line = line' ∧ t.column = column ∧
          (t.type = "COMMENT" ∨ ∀ x ∈ consumed, isspace x = false) := by
  unfold scanToken at h
  by_cases hsp : isspace c = true
  · -- whitespace
    rw [if_pos hsp] at h
    refine ⟨[c], ?_⟩
    by_cases hc : (c == '\n') = true
    · rw [if_pos hc] at h
      simp only [Except.ok.injEq, Prod.mk.injEq] at h
      obtain ⟨rfl, rfl, rfl, rfl⟩ := h
      simp [advancePos, hc, hsp]
    · rw [if_neg hc] at h
      simp only [Except.ok.injEq, Prod.mk.injEq] at h
      obtain ⟨rfl, rfl, rfl, rfl⟩ := h
      simp [advancePos, hc, hsp]
  rw [if_neg hsp] at h
  have hsp : isspace c = false := by simpa using hsp
  have hcn : c ≠ '\n' := ne_newline_of_not_isspace hsp
  by_cases hsl : (c == '/' && tail.head? == some '/') = true
  · -- single-line comment
    rw [if_pos hsl] at h
    simp only [Bool.and_eq_true, beq_iff_eq] at hsl
    obtain ⟨rfl, hhead⟩ := hsl
    obtain ⟨tail', rfl⟩ : ∃ tail', tail = '/' :: tail' := by
      cases tail with
      | nil => simp at hhead
      | cons d tail' => simp at hhead; exact ⟨tail', by rw [hhead]⟩
    simp only [Except.ok.injEq, Prod.mk.injEq, List.drop_one, List.tail_cons] at h
    obtain ⟨rfl, rfl, rfl, rfl⟩ := h
    refine ⟨'/' :: '/' :: tail'.takeWhile (· != '\n'), by simp, by simp, ?_, by simp, ?_⟩
    · rw [foldl_advancePos_of_no_newline]
      · simp; omega
      · intro x hx
        simp only [List.mem_cons] at hx
        rcases hx with rfl | rfl | hx
        · decide
        · decide
        · exact mem_takeWhile_line hx
    · rintro t ⟨rfl⟩; exact ⟨rfl, rfl, rfl, Or.inl rfl⟩
  rw [if_neg hsl] at h
  by_cases hml : (c == '/' && tail.head? == some '*') = true
  · -- multi-line comment
    rw [if_pos hml] at h
    simp only [Bool.and_eq_true, beq_iff_eq] at hml
    obtain ⟨rfl, hhead⟩ := hml
    obtain ⟨tail', rfl⟩ : ∃ tail', tail = '*' :: tail' := by
      cases tail with
      | nil => simp at hhead
      | cons d tail' => simp at hhead; exact ⟨tail', by rw [hhead]⟩
    simp only [List.drop_one, List.tail_cons] at h
    cases hscan : scanMultiLine tail' line (column + 2) with
    | none => rw [hscan] at h; simp at h
    | some r =>
      obtain ⟨body, rest0, l0, c0⟩ := r
      rw [hscan] at h
      simp only [Except.ok.injEq, Prod.mk.injEq] at h
      obtain ⟨rfl, rfl, rfl, rfl⟩ := h
      obtain ⟨h1, h2⟩ := scanMultiLine_some _ _ _ _ _ _ _ hscan
      refine ⟨'/' :: '*' :: body, by simp [h1], by simp, ?_, by simp, ?_⟩
      · rw [h2]; simp [advancePos]
      · rintro t ⟨rfl⟩; exact ⟨rfl, rfl, rfl, Or.inl rfl⟩
  rw [if_neg hml] at h
  by_cases hid : (isalpha c || c == '_') = true
  · -- identifier or keyword
    rw [if_pos hid] at h
    have hno : ∀ x ∈ (c :: tail).takeWhile (fun c => isalnum c || c == '_'),
        isspace x = false := fun x hx =>
      isspace_eq_false_of_word (mem_takeWhile_word hx)
    have hne : (c :: tail).takeWhile (fun c => isalnum c || c == '_') ≠ [] := by
      rw [List.takeWhile_cons]
      have : (isalnum c || c == '_') = true := by
        simp only [Bool.or_eq_true] at hid ⊢
        rcases hid with h | h
        · left; simp [isalnum, h]
        · right; exact h
      simp [this]
    have hpos : (line, column +
          ((c :: tail).takeWhile (fun c => isalnum c || c == '_')).length) =
        ((c :: tail).takeWhile (fun c => isalnum c || c == '_')).foldl advancePos
          (line, column) := by
      rw [foldl_advancePos_of_no_newline]
      exact fun x hx => ne_newline_of_not_isspace (hno x hx)
    by_cases hk : isKeyword (String.mk ((c :: tail).takeWhile (fun c => isalnum c || c == '_'))) = true
    · rw [if_pos hk] at h
      simp only [Except.ok.injEq, Prod.mk.injEq] at h
      obtain ⟨rfl, rfl, rfl, rfl⟩ := h
      exact ⟨_, (List.takeWhile_append_dropWhile _ _).symm, hne, hpos, by simp, by rintro t ⟨rfl⟩; exact ⟨rfl, rfl, rfl, Or.inr hno⟩⟩
    · rw [if_neg hk] at h
      simp only [Except.ok.injEq, Prod.mk.injEq] at h
      obtain ⟨rfl, rfl, rfl, rfl⟩ := h
      exact ⟨_, (List.takeWhile_append_dropWhile _ _).symm, hne, hpos, by simp, by rintro t ⟨rfl⟩; exact ⟨rfl, rfl, rfl, Or.inr hno⟩⟩
  rw [if_neg hid] at h
  by_cases hnum : isdigit c = true
  · -- number
    rw [if_pos hnum] at h
    have hno : ∀ x ∈ (c :: tail).takeWhile (fun c => isdigit c || c == '.'),
        isspace x = false := fun x hx =>
      isspace_eq_false_of_numeric (mem_takeWhile_numeric hx)
    have hne : (c :: tail).takeWhile (fun c => isdigit c || c == '.') ≠ [] := by
      rw [List.takeWhile_cons]
      simp [hnum]
    have hpos : (line, column +
          ((c :: tail).takeWhile (fun c => isdigit c || c == '.')).length) =
        ((c :: tail).takeWhile (fun c => isdigit c || c == '.')).foldl advancePos
          (line, column) := by
      rw [foldl_advancePos_of_no_newline]
      exact fun x hx => ne_newline_of_not_isspace (hno x hx)
    simp only [Except.ok.injEq, Prod.mk.injEq] at h
    obtain ⟨rfl, rfl, rfl, rfl⟩ := h
    exact ⟨_, (List.takeWhile_append_dropWhile _ _).symm, hne, hpos, by simp, by rintro t ⟨rfl⟩; exact ⟨rfl, rfl, rfl, Or.inr hno⟩⟩
  rw [if_neg hnum] at h
  have hone : ∀ x ∈ [c], isspace x = false := by simpa using hsp
  have hpos1 : (line, column + 1) = [c].foldl advancePos (line, column) := by
    simp [advancePos, hcn]
  by_cases hop : strchr "+-*/%=<>!" c = true
  · -- operator
    rw [if_pos hop] at h
    cases tail with
    | nil =>
      simp only [Except.ok.injEq, Prod.mk.injEq] at h
      obtain ⟨rfl, rfl, rfl, rfl⟩ := h
      exact ⟨[c], rfl, by simp, hpos1, by simp, by rintro t ⟨rfl⟩; exact ⟨rfl, rfl, rfl, Or.inr hone⟩⟩
    | cons next rest0 =>
      simp only at h
      by_cases htwo : isTwoCharOperator c next = true
      · rw [if_pos htwo] at h
        simp only [Except.ok.injEq, Prod.mk.injEq] at h
        obtain ⟨rfl, rfl, rfl, rfl⟩ := h
        have hnext : isspace next = false := by
          simp only [isTwoCharOperator, Bool.or_eq_true, Bool.and_eq_true,
            beq_iff_eq] at htwo
          rcases htwo with ((((⟨-, rfl⟩ | ⟨-, rfl⟩) | ⟨-, rfl⟩) | ⟨-, rfl⟩) | ⟨-, rfl⟩) |
            ⟨-, rfl⟩ <;> decide
        refine ⟨[c, next], rfl, by simp, ?_, by simp, ?_⟩
        · simp [advancePos, hcn, ne_newline_of_not_isspace hnext]
        · rintro t ⟨rfl⟩
          refine ⟨rfl, rfl, rfl, Or.inr ?_⟩
          intro x hx
          simp only [List.mem_cons, List.mem_singleton, List.not_mem_nil,
            or_false] at hx
          rcases hx with rfl | rfl <;> assumption
      · rw [if_neg htwo] at h
        simp only [Except.ok.injEq, Prod.mk.injEq] at h
        obtain ⟨rfl, rfl, rfl, rfl⟩ := h
        exact ⟨[c], rfl, by simp, hpos1, by simp, by rintro t ⟨rfl⟩; exact ⟨rfl, rfl, rfl, Or.inr hone⟩⟩
  rw [if_neg hop] at h
  by_cases hpu : strchr ";,(){}[]" c = true
  · -- punctuation
    rw [if_pos hpu] at h
    simp only [Except.ok.injEq, Prod.mk.injEq] at h
    obtain ⟨rfl, rfl, rfl, rfl⟩ := h
    exact ⟨[c], rfl, by simp, hpos1, by simp, by rintro t ⟨rfl⟩; exact ⟨rfl, rfl, rfl, Or.inr hone⟩⟩
  rw [if_neg hpu] at h
  simp at h

theorem scanToken_some_not_isspace {c : Char} {tail : List Char} {line column : Nat}
    {t : Token} {rest : List Char} {line' column' : Nat}
    (h : scanToken c tail line column = .ok (some t, rest, line', column')) :
    isspace c = false := by
  cases hsp : isspace c with
  | false => rfl
  | true =>
    unfold scanToken at h
    rw [if_pos hsp] at h
    split at h <;> simp at h

theorem Tiled.skip {pre rest : List Char} {toks : List Token} (ws : List Char)
    (hws : ∀ x ∈ ws, isspace x = true) (h : Tiled (pre ++ ws) rest toks) :
    Tiled pre (ws ++ rest) toks := by
  cases h with
  | nil _ _ hgap =>
    exact Tiled.nil pre (ws ++ rest) (by
      intro x hx
      rcases List.mem_append.mp hx with hx | hx
      · exact hws x hx
      · exact hgap x hx)
  | cons _ gap post t ts hgap hcol hline hkind hhead htail =>
    have e : pre ++ ws ++ gap = pre ++ (ws ++ gap) := by simp
    rw [e] at hcol hline htail
    have := Tiled.cons pre (ws ++ gap) post t ts (by
      intro x hx
      rcases List.mem_append.mp hx with hx | hx
      · exact hws x hx
      · exact hgap x hx) hcol hline hkind hhead htail
    simpa using this

theorem tokenizeLoop_tiled (fuel : Nat) (pre rest : List Char) (toks : List Token)
    (h : tokenizeLoop fuel rest (lineAfter pre) (columnAfter pre) = .ok toks) :
    Tiled pre rest toks := by
  induction fuel generalizing pre rest toks with
  | zero =>
    cases rest with
    | nil =>
      simp only [tokenizeLoop, Except.ok.injEq] at h
      subst h
      exact Tiled.nil pre [] (by simp)
    | cons c tail => simp [tokenizeLoop] at h
  | succ fuel ih =>
    cases rest with
    | nil =>
      simp only [tokenizeLoop, Except.ok.injEq] at h
      subst h
      exact Tiled.nil pre [] (by simp)
    | cons c tail =>
      simp only [tokenizeLoop] at h
      cases hscan : scanToken c tail (lineAfter pre) (columnAfter pre) with
      | error e => rw [hscan] at h; simp at h
      | ok r =>
        obtain ⟨tok, rest', line', column'⟩ := r
        rw [hscan] at h
        simp only at h
        obtain ⟨consumed, hsplit, hne, hpos, hnone, hsome⟩ := scanToken_ok _ _ _ _ _ _ _ _ hscan
        rw [← posAfter_append, Prod.mk.injEq] at hpos
        obtain ⟨rfl, rfl⟩ := hpos
        cases hrec : tokenizeLoop fuel rest' (lineAfter (pre ++ consumed))
            (columnAfter (pre ++ consumed)) with
        | error e => rw [hrec] at h; simp at h
        | ok toks' =>
          rw [hrec] at h
          simp only [Except.ok.injEq] at h
          subst h
          have htiled := ih _ _ _ hrec
          rw [hsplit]
          cases tok with
          | none => exact Tiled.skip consumed (hnone rfl) htiled
          | some t =>
            obtain ⟨hval, hline, hcol, hkind⟩ := hsome t rfl
            subst hval
            have hhead : ∃ a l, t.value.data = a :: l ∧ isspace a = false := by
              cases hd : t.value.data with
              | nil => exact absurd hd hne
              | cons a l =>
                rw [hd, List.cons_append, List.cons.injEq] at hsplit
                exact ⟨a, l, rfl, hsplit.1 ▸ scanToken_some_not_isspace hscan⟩
            have := Tiled.cons pre [] rest' t toks' (by simp) (by simpa using hcol)
              (by simpa using hline) hkind hhead (by simpa using htiled)
            simpa using this

theorem deleteSpace_append (a b : List Char) :
    deleteSpace (a ++ b) = deleteSpace a ++ deleteSpace b := by
  simp [deleteSpace]

theorem deleteSpace_of_isspace (ws : List Char) (h : ∀ x ∈ ws, isspace x = true) :
    deleteSpace ws = [] := by
  simp only [deleteSpace, List.filter_eq_nil_iff]
  intro x hx
  simp [h x hx]

theorem deleteBlanks_append (a b : List Char) :
    deleteBlanks (a ++ b) = deleteBlanks a ++ deleteBlanks b := by
  simp [deleteBlanks]

theorem countVtFf_append (a b : List Char) : countVtFf (a ++ b) = countVtFf a + countVtFf b := by
  simp [countVtFf]

theorem countVtFf_of_not_isspace (s : List Char) (h : ∀ x ∈ s, isspace x = false) :
    countVtFf s = 0 := by
  simp only [countVtFf, List.countP_eq_zero]
  intro x hx hv
  have := h x hx
  simp only [Bool.or_eq_true, beq_iff_eq] at hv
  rcases hv with rfl | rfl <;> revert this <;> decide

theorem deleteBlanks_of_isspace (ws : List Char) (h : ∀ x ∈ ws, isspace x = true)
    (hv : countVtFf ws = 0) : deleteBlanks ws = [] := by
  simp only [deleteBlanks, List.filter_eq_nil_iff]
  simp only [countVtFf, List.countP_eq_zero] at hv
  intro x hx
  have h1 := (isspace_iff x).mp (h x hx)
  have h2 := hv x hx
  simp only [Bool.or_eq_true, beq_iff_eq, not_or] at h2
  rcases h1 with rfl | rfl | rfl | h1 | h1 | rfl
  · decide
  · decide
  · decide
  · exact absurd h1 h2.1
  · exact absurd h1 h2.2
  · decide

theorem start_unique {text : List Char} {a : Char} {l : List Char} (htext : text = a :: l)
    (ha : isspace a = false) {p p' : List Char} (post post' : List Char)
    (h : p ++ text ++ post = p' ++ text ++ post')
    (hd : deleteSpace p' = deleteSpace p) : p' = p := by
  have key : ∀ (q q' r r' : List Char), q ++ (text ++ r) = q' ++ (text ++ r') →
      deleteSpace q' = deleteSpace q → ∀ d, q' = q ++ d → d = [] := by
    intro q q' r r' hq hdq d hqd
    subst hqd
    rw [deleteSpace_append] at hdq
    have hd0 : deleteSpace d = [] := by simpa using hdq
    cases d with
    | nil => rfl
    | cons x d =>
      have hx : isspace x = true := by
        have := List.filter_eq_nil_iff.mp hd0 x (by simp)
        simpa using this
      rw [List.append_assoc, List.append_cancel_left_eq, htext] at hq
      simp only [List.cons_append, List.cons.injEq] at hq
      rw [hq.1, hx] at ha
      exact absurd ha (by decide)
  rw [List.append_assoc, List.append_assoc] at h
  rcases List.append_eq_append_iff.mp h with ⟨d, hd1, -⟩ | ⟨d, hd1, -⟩
  · have := key p p' post post' h hd d hd1
    rw [hd1, this, List.append_nil]
  · have := key p' p post' post h.symm hd.symm d hd1
    rw [hd1, this, List.append_nil]

theorem Tiled.position {pre rest : List Char} {toks : List Token} (h : Tiled pre rest toks) :
    ∀ (i : Nat) (t : Token), toks[i]? = some t →
      ∃ p post, pre ++ rest = p ++ t.value.data ++ post ∧
        deleteSpace p = deleteSpace (pre ++ concatTexts (toks.take i)) ∧
        ('\n' ∉ t.value.data → t.line = lineAfter p ∧ t.column = columnAfter p) ∧
        ∀ p' post', pre ++ rest = p' ++ t.value.data ++ post' →
          deleteSpace p' = deleteSpace (pre ++ concatTexts (toks.take i)) → p' = p := by
  induction h with
  | nil pre gap hgap => intro i t hi; simp at hi
  | cons pre gap post t ts hgap hcol hline hkind hhead htail ih =>
    intro i u hi
    cases i with
    | zero =>
      simp only [List.getElem?_cons_zero, Option.some.injEq] at hi
      subst hi
      have hds : deleteSpace (pre ++ gap) =
          deleteSpace (pre ++ concatTexts ((t :: ts).take 0)) := by
        simp [deleteSpace_append, deleteSpace_of_isspace gap hgap, concatTexts]
      refine ⟨pre ++ gap, post, by simp, hds, ?_, ?_⟩
      · intro hnl
        refine ⟨?_, hcol⟩
        rw [hline]
        simp only [lineAfter, List.count_append, List.count_eq_zero.mpr hnl]
        omega
      · intro p' post' hsplit hd
        obtain ⟨a, l, htext, ha⟩ := hhead
        refine start_unique htext ha post post' ?_ (hd.trans hds.symm)
        rw [← hsplit]; simp
    | succ j =>
      simp only [List.getElem?_cons_succ] at hi
      obtain ⟨p, post', h1, h2, h3, h4⟩ := ih j u hi
      have hds : deleteSpace (pre ++ gap ++ t.value.data ++ concatTexts (ts.take j)) =
          deleteSpace (pre ++ concatTexts ((t :: ts).take (j + 1))) := by
        simp [deleteSpace_append, deleteSpace_of_isspace gap hgap, concatTexts]
      refine ⟨p, post', ?_, h2.trans hds, h3, ?_⟩
      · rw [← h1]; simp
      · intro p' post'' hsplit hd
        refine h4 p' post'' ?_ (hd.trans hds.symm)
        rw [← hsplit]; simp

theorem concatTexts_filter_cons (t : Token) (ts : List Token) :
    concatTexts ((t :: ts).filter (fun t => t.type == "COMMENT")) =
      (if t.type = "COMMENT" then t.value.data else []) ++
        concatTexts (ts.filter (fun t => t.type == "COMMENT")) := by
  by_cases h : t.type = "COMMENT"
  · simp [List.filter_cons, h, concatTexts]
  · simp [List.filter_cons, h]

theorem Tiled.reconstructs {pre rest : List Char} {toks : List Token} (h : Tiled pre rest toks) :
    countVtFf (concatTexts (toks.filter (fun t => t.type == "COMMENT"))) ≤ countVtFf rest ∧
    (countVtFf rest = countVtFf (concatTexts (toks.filter (fun t => t.type == "COMMENT"))) →
      deleteBlanks (concatTexts toks) = deleteBlanks rest) := by
  induction h with
  | nil pre gap hgap =>
    refine ⟨by simp [concatTexts, countVtFf], ?_⟩
    intro hv
    rw [deleteBlanks_of_isspace gap hgap (by simpa [concatTexts, countVtFf] using hv)]
    simp [concatTexts, deleteBlanks]
  | cons pre gap post t ts hgap hcol hline hkind hhead htail ih =>
    obtain ⟨ih1, ih2⟩ := ih
    have hle : countVtFf (if t.type = "COMMENT" then t.value.data else []) ≤
        countVtFf t.value.data := by
      split
      · exact le_refl _
      · simp [countVtFf]
    have heq : countVtFf (if t.type = "COMMENT" then t.value.data else []) =
        countVtFf t.value.data := by
      by_cases hc : t.type = "COMMENT"
      · rw [if_pos hc]
      · rw [if_neg hc]
        rcases hkind with hk | hk
        · exact absurd hk hc
        · rw [countVtFf_of_not_isspace _ hk]; simp [countVtFf]
    rw [concatTexts_filter_cons]
    simp only [countVtFf_append, heq]
    refine ⟨by omega, ?_⟩
    intro hv
    have hg : countVtFf gap = 0 := by omega
    have hp : countVtFf post =
        countVtFf (concatTexts (ts.filter (fun t => t.type == "COMMENT"))) := by omega
    simp only [concatTexts, deleteBlanks_append, deleteBlanks_of_isspace gap hgap hg, ih2 hp,
      List.nil_append]

/-- C1: when `tokenize` succeeds on a source whose vertical tabs and form feeds
all lie inside comments (they are all accounted for by the texts of the
`COMMENT` tokens), the texts of the returned tokens, concatenated in order and
with space, tab, CR and LF deleted, are exactly the source with those four
characters deleted. -/
theorem tokenize_reconstructs_source (input : String) (toks : List Token)
    (h : tokenize input = .ok toks)
    (hvf : countVtFf input.data =
      countVtFf (concatTexts (toks.filter (fun t => t.type == "COMMENT")))) :
    deleteBlanks (concatTexts toks) = deleteBlanks input.data :=
  (tokenizeLoop_tiled input.length [] input.data toks h).reconstructs.2 hvf

/-- C1, at a source with two comments, one of which holds a vertical tab and a
line feed. -/
theorem tokenize_reconstructs_source_witness :
    deleteBlanks (concatTexts [⟨"KEYWORD", "int", 1, 1⟩, ⟨"IDENTIFIER", "x", 1, 5⟩,
        ⟨"OPERATOR", "=", 1, 6⟩, ⟨"NUMBER", "10", 1, 8⟩, ⟨"PUNCTUATION", ";", 1, 10⟩,
        ⟨"COMMENT", "// c", 1, 12⟩, ⟨"COMMENT", "/*\x0b\n*/", 3, 2⟩,
        ⟨"IDENTIFIER", "x", 3, 4⟩, ⟨"OPERATOR", "==", 3, 5⟩, ⟨"NUMBER", "5", 3, 7⟩]) =
      deleteBlanks "int x= 10; // c\n\t/*\x0b\n*/ x==5\r\n".data :=
  tokenize_reconstructs_source "int x= 10; // c\n\t/*\x0b\n*/ x==5\r\n" _ (by decide) (by decide)

/-- C2: when `tokenize` succeeds, the `i`-th token `t` stands in the source
after the prefix `pre` whose characters other than white space are exactly
those of the earlier tokens (there is only one such place); if the text of `t`
contains no line feed, the line of `t` is 1 plus the number of line feeds in
`pre`, and its column is 1 plus the number of characters of `pre` after its
last line feed. -/
theorem tokenize_positions (input : String) (toks : List Token)
    (h : tokenize input = .ok toks) (i : Nat) (t : Token) (hi : toks[i]? = some t) :
    ∃ pre post, input.data = pre ++ t.value.data ++ post ∧
      deleteSpace pre = deleteSpace (concatTexts (toks.take i)) ∧
      ('\n' ∉ t.value.data →
        t.line = 1 + pre.count '\n' ∧
        t.column = 1 + (pre.reverse.takeWhile (· != '\n')).length) ∧
      ∀ pre' post', input.data = pre' ++ t.value.data ++ post' →
        deleteSpace pre' = deleteSpace (concatTexts (toks.take i)) → pre' = pre := by
  have := (tokenizeLoop_tiled input.length [] input.data toks h).position i t hi
  simpa [lineAfter, columnAfter] using this

/-- C2, at the token `b` of a two-line source: it stands on line 2 at column 3,
a tab counting as one column. -/
theorem tokenize_positions_witness :
    ∃ pre post, "a\n \tb".data = pre ++ "b".data ++ post ∧
      deleteSpace pre = deleteSpace (concatTexts
        ([⟨"IDENTIFIER", "a", 1, 1⟩, (⟨"IDENTIFIER", "b", 2, 3⟩ : Token)].take 1)) ∧
      ('\n' ∉ "b".data →
        2 = 1 + pre.count '\n' ∧
        3 = 1 + (pre.reverse.takeWhile (· != '\n')).length) ∧
      ∀ pre' post', "a\n \tb".data = pre' ++ "b".data ++ post' →
        deleteSpace pre' = deleteSpace (concatTexts
          ([⟨"IDENTIFIER", "a", 1, 1⟩, (⟨"IDENTIFIER", "b", 2, 3⟩ : Token)].take 1)) →
        pre' = pre :=
  tokenize_positions "a\n \tb" [⟨"IDENTIFIER", "a", 1, 1⟩, ⟨"IDENTIFIER", "b", 2, 3⟩]
    (by decide) 1 ⟨"IDENTIFIER", "b", 2, 3⟩ rfl

/-! ## Unexpected characters -/

theorem takeWhile_append_stop (p : Char → Bool) (c : Char) (post : List Char)
    (hc : p c = false) (l : List Char) :
    (l ++ c :: post).takeWhile p = l.takeWhile p ∧
    (l ++ c :: post).dropWhile p = l.dropWhile p ++ c :: post := by
  induction l with
  | nil => simp [List.takeWhile_cons, List.dropWhile_cons, hc]
  | cons a l ih =>
    cases ha : p a with
    | false => simp [List.takeWhile_cons, List.dropWhile_cons, ha]
    | true => simp [List.takeWhile_cons, List.dropWhile_cons, ha, ih.1, ih.2]

theorem takeWhile_append_of_dropWhile_ne_nil (p : Char → Bool) (extra : List Char)
    (l : List Char) (h : l.dropWhile p ≠ []) :
    (l ++ extra).takeWhile p = l.takeWhile p ∧
    (l ++ extra).dropWhile p = l.dropWhile p ++ extra := by
  induction l with
  | nil => simp at h
  | cons a l ih =>
    cases ha : p a with
    | false => simp [List.takeWhile_cons, List.dropWhile_cons, ha]
    | true =>
      rw [List.dropWhile_cons, ha] at h
      simp only [if_true] at h
      simp [List.takeWhile_cons, List.dropWhile_cons, ha, (ih h).1, (ih h).2]

theorem scanMultiLine_append (extra : List Char) (s : List Char) (line column : Nat)
    (body rest : List Char) (line' column' : Nat)
    (h : scanMultiLine s line column = some (body, rest, line', column')) :
    scanMultiLine (s ++ extra) line column = some (body, rest ++ extra, line', column') := by
  induction s generalizing line column body line' column' with
  | nil => simp [scanMultiLine] at h
  | cons c s ih =>
    cases s with
    | nil => simp [scanMultiLine] at h
    | cons d s =>
      rw [scanMultiLine_cons_cons] at h
      rw [List.cons_append, List.cons_append, scanMultiLine_cons_cons]
      by_cases hcd : (c == '*' && d == '/') = true
      · rw [if_pos hcd] at h ⊢
        simp only [Option.some.injEq, Prod.mk.injEq] at h
        obtain ⟨rfl, rfl, rfl, rfl⟩ := h
        rfl
      · rw [if_neg hcd] at h ⊢
        by_cases hc : (c == '\n') = true
        · rw [if_pos hc] at h ⊢
          simp only [Option.map_eq_some', Prod.mk.injEq] at h
          obtain ⟨⟨b, r, l, k⟩, hrec, rfl, rfl, rfl, rfl⟩ := h
          have := ih _ _ _ _ _ hrec
          rw [List.cons_append] at this
          rw [this]; rfl
        · rw [if_neg hc] at h ⊢
          simp only [Option.map_eq_some', Prod.mk.injEq] at h
          obtain ⟨⟨b, r, l, k⟩, hrec, rfl, rfl, rfl, rfl⟩ := h
          have := ih _ _ _ _ _ hrec
          rw [List.cons_append] at this
          rw [this]; rfl

theorem Unexpected.scanToken_error {c : Char} (hc : Unexpected c) (post : List Char)
    (line column : Nat) :
    scanToken c post line column =
      .error (.runtimeError (unexpectedCharacter c line column)) := by
  have hslash : (c == '/') = false := by
    cases hs : c == '/' with
    | false => rfl
    | true =>
      have : c = '/' := by simpa using hs
      subst this
      exact absurd hc.operator (by decide)
  have hus : (c == '_') = false := by simpa using hc.underscore
  simp [scanToken, hc.space, hc.alpha, hc.digit, hus, hslash, hc.operator, hc.punctuation]

theorem Unexpected.ne_of_operator {c d : Char} (hc : Unexpected c)
    (hd : strchr "+-*/%=<>!" d = true) : c ≠ d := by
  rintro rfl
  rw [hc.operator] at hd
  exact absurd hd (by decide)

theorem Unexpected.head_append {c : Char} (hc : Unexpected c) (d : Char)
    (hd : strchr "+-*/%=<>!" d = true) (tail post : List Char) :
    ((tail ++ c :: post).head? == some d) = (tail.head? == some d) := by
  cases tail with
  | nil => simpa using hc.ne_of_operator hd
  | cons a tail => simp

theorem scanToken_append {c : Char} (hc : Unexpected c) (post : List Char)
    (a : Char) (tail : List Char) (line column : Nat) (tok : Option Token)
    (rest : List Char) (line' column' : Nat)
    (h : scanToken a tail line column = .ok (tok, rest, line', column'))
    (hopen : rest = [] → ∀ t, tok = some t →
      ¬ (t.type = "COMMENT" ∧ t.value.data.take 2 = ['/', '/']) ∧
      ¬ (t.type = "NUMBER" ∧ c = '.')) :
    scanToken a (tail ++ c :: post) line column =
      .ok (tok, rest ++ c :: post, line', column') := by
  unfold scanToken at h ⊢
  rw [hc.head_append '/' (by decide), hc.head_append '*' (by decide)]
  by_cases hsp : isspace a = true
  · rw [if_pos hsp] at h ⊢
    by_cases hnl : (a == '\n') = true
    · rw [if_pos hnl] at h ⊢
      simp only [Except.ok.injEq, Prod.mk.injEq] at h
      obtain ⟨rfl, rfl, rfl, rfl⟩ := h
      rfl
    · rw [if_neg hnl] at h ⊢
      simp only [Except.ok.injEq, Prod.mk.injEq] at h
      obtain ⟨rfl, rfl, rfl, rfl⟩ := h
      rfl
  rw [if_neg hsp] at h ⊢
  by_cases hsl : (a == '/' && tail.head? == some '/') = true
  · -- single-line comment
    rw [if_pos hsl] at h ⊢
    simp only [Bool.and_eq_true, beq_iff_eq] at hsl
    obtain ⟨rfl, hhead⟩ := hsl
    obtain ⟨tail', rfl⟩ : ∃ tail', tail = '/' :: tail' := by
      cases tail with
      | nil => simp at hhead
      | cons d tail' => simp at hhead; exact ⟨tail', by rw [hhead]⟩
    simp only [Except.ok.injEq, Prod.mk.injEq, List.drop_one, List.tail_cons,
      List.cons_append] at h ⊢
    obtain ⟨rfl, rfl, rfl, rfl⟩ := h
    have hne : tail'.dropWhile (fun x => x != '\n') ≠ [] := by
      intro he
      exact (hopen he _ rfl).1 ⟨rfl, rfl⟩
    obtain ⟨e1, e2⟩ := takeWhile_append_of_dropWhile_ne_nil (fun x => x != '\n')
      (c :: post) tail' hne
    rw [e1, e2]
    exact ⟨rfl, rfl, rfl, rfl⟩
  rw [if_neg hsl] at h ⊢
  by_cases hml : (a == '/' && tail.head? == some '*') = true
  · -- multi-line comment
    rw [if_pos hml] at h ⊢
    simp only [Bool.and_eq_true, beq_iff_eq] at hml
    obtain ⟨rfl, hhead⟩ := hml
    obtain ⟨tail', rfl⟩ : ∃ tail', tail = '*' :: tail' := by
      cases tail with
      | nil => simp at hhead
      | cons d tail' => simp at hhead; exact ⟨tail', by rw [hhead]⟩
    simp only [List.drop_one, List.tail_cons, List.cons_append] at h ⊢
    cases hscan : scanMultiLine tail' line (column + 2) with
    | none => rw [hscan] at h; simp at h
    | some r =>
      obtain ⟨body, rest0, l0, c0⟩ := r
      rw [hscan] at h
      rw [scanMultiLine_append (c :: post) _ _ _ _ _ _ _ hscan]
      simp only [Except.ok.injEq, Prod.mk.injEq] at h ⊢
      obtain ⟨rfl, rfl, rfl, rfl⟩ := h
      exact ⟨rfl, rfl, rfl, rfl⟩
  rw [if_neg hml] at h ⊢
  by_cases hid : (isalpha a || a == '_') = true
  · -- identifier or keyword
    rw [if_pos hid] at h ⊢
    have hstop : (fun x => isalnum x || x == '_') c = false := by
      have := hc.underscore
      simp [isalnum, hc.alpha, hc.digit, this]
    obtain ⟨e1, e2⟩ := takeWhile_append_stop (fun x => isalnum x || x == '_') c post hstop
      (a :: tail)
    rw [List.cons_append] at e1 e2
    simp only [e1, e2]
    by_cases hk : isKeyword
        (String.mk ((a :: tail).takeWhile (fun c => isalnum c || c == '_'))) = true
    · rw [if_pos hk] at h ⊢
      simp only [Except.ok.injEq, Prod.mk.injEq] at h ⊢
      obtain ⟨rfl, rfl, rfl, rfl⟩ := h
      exact ⟨rfl, rfl, rfl, rfl⟩
    · rw [if_neg hk] at h ⊢
      simp only [Except.ok.injEq, Prod.mk.injEq] at h ⊢
      obtain ⟨rfl, rfl, rfl, rfl⟩ := h
      exact ⟨rfl, rfl, rfl, rfl⟩
  rw [if_neg hid] at h ⊢
  by_cases hnum : isdigit a = true
  · -- number
    rw [if_pos hnum] at h ⊢
    simp only [Except.ok.injEq, Prod.mk.injEq] at h
    obtain ⟨rfl, rfl, rfl, rfl⟩ := h
    have key : ((a :: tail) ++ c :: post).takeWhile (fun x => isdigit x || x == '.') =
          (a :: tail).takeWhile (fun x => isdigit x || x == '.') ∧
        ((a :: tail) ++ c :: post).dropWhile (fun x => isdigit x || x == '.') =
          (a :: tail).dropWhile (fun x => isdigit x || x == '.') ++ c :: post := by
      by_cases hdot : c = '.'
      · apply takeWhile_append_of_dropWhile_ne_nil
        intro he
        exact (hopen he _ rfl).2 ⟨rfl, hdot⟩
      · apply takeWhile_append_stop
        simp [hc.digit, hdot]
    rw [List.cons_append] at key
    simp only [key.1, key.2]
  rw [if_neg hnum] at h ⊢
  by_cases hop : strchr "+-*/%=<>!" a = true
  · -- operator
    rw [if_pos hop] at h ⊢
    cases tail with
    | nil =>
      simp only [Except.ok.injEq, Prod.mk.injEq] at h
      obtain ⟨rfl, rfl, rfl, rfl⟩ := h
      have htwo : isTwoCharOperator a c = false := by
        have h1 : c ≠ '=' := hc.ne_of_operator (by decide)
        have h2 : c ≠ '+' := hc.ne_of_operator (by decide)
        have h3 : c ≠ '-' := hc.ne_of_operator (by decide)
        simp [isTwoCharOperator, h1, h2, h3]
      simp [htwo]
    | cons next rest0 =>
      simp only [List.cons_append] at h ⊢
      by_cases htwo : isTwoCharOperator a next = true
      · rw [if_pos htwo] at h ⊢
        simp only [Except.ok.injEq, Prod.mk.injEq] at h ⊢
        obtain ⟨rfl, rfl, rfl, rfl⟩ := h
        exact ⟨rfl, rfl, rfl, rfl⟩
      · rw [if_neg htwo] at h ⊢
        simp only [Except.ok.injEq, Prod.mk.injEq] at h ⊢
        obtain ⟨rfl, rfl, rfl, rfl⟩ := h
        exact ⟨rfl, rfl, rfl, rfl⟩
  rw [if_neg hop] at h ⊢
  by_cases hpu : strchr ";,()\x7b\x7d[]" a = true
  · rw [if_pos hpu] at h ⊢
    simp only [Except.ok.injEq, Prod.mk.injEq] at h ⊢
    obtain ⟨rfl, rfl, rfl, rfl⟩ := h
    exact ⟨rfl, rfl, rfl, rfl⟩
  rw [if_neg hpu] at h
  simp at h

theorem getLast?_toList_append (tok : Option Token) (toks : List Token) (t : Token)
    (h : toks.getLast? = some t) : (tok.toList ++ toks).getLast? = some t := by
  cases toks with
  | nil => simp at h
  | cons u us =>
    rw [List.getLast?_append, h]
    rfl

theorem tokenizeLoop_append {c : Char} (hc : Unexpected c) (post : List Char) (fuel : Nat) :
    ∀ (done rest : List Char) (toks : List Token),
      tokenizeLoop fuel rest (lineAfter done) (columnAfter done) = .ok toks →
      (∀ t, toks.getLast? = some t → t.value.data <:+ done ++ rest →
        ¬ (t.type = "COMMENT" ∧ t.value.data.take 2 = ['/', '/']) ∧
        ¬ (t.type = "NUMBER" ∧ c = '.')) →
      ∀ fuel', rest.length < fuel' →
        tokenizeLoop fuel' (rest ++ c :: post) (lineAfter done) (columnAfter done) =
          .error (.runtimeError (unexpectedCharacter c (lineAfter (done ++ rest))
            (columnAfter (done ++ rest)))) := by
  induction fuel with
  | zero =>
    intro done rest toks h hopen fuel' hfuel
    cases rest with
    | nil =>
      obtain ⟨f, rfl⟩ : ∃ f, fuel' = f + 1 := ⟨fuel' - 1, by simp at hfuel; omega⟩
      simp [tokenizeLoop, hc.scanToken_error]
    | cons a tail => simp [tokenizeLoop] at h
  | succ fuel ih =>
    intro done rest toks h hopen fuel' hfuel
    cases rest with
    | nil =>
      obtain ⟨f, rfl⟩ : ∃ f, fuel' = f + 1 := ⟨fuel' - 1, by simp at hfuel; omega⟩
      simp [tokenizeLoop, hc.scanToken_error]
    | cons a tail =>
      obtain ⟨f, rfl⟩ : ∃ f, fuel' = f + 1 := ⟨fuel' - 1, by simp at hfuel; omega⟩
      simp only [tokenizeLoop] at h
      cases hscan : scanToken a tail (lineAfter done) (columnAfter done) with
      | error e => rw [hscan] at h; simp at h
      | ok r =>
        obtain ⟨tok, rest', line', column'⟩ := r
        rw [hscan] at h
        simp only at h
        obtain ⟨consumed, hsplit, hne, hpos, hnone, hsome⟩ := scanToken_ok _ _ _ _ _ _ _ _ hscan
        rw [← posAfter_append, Prod.mk.injEq] at hpos
        obtain ⟨rfl, rfl⟩ := hpos
        cases hrec : tokenizeLoop fuel rest' (lineAfter (done ++ consumed))
            (columnAfter (done ++ consumed)) with
        | error e => rw [hrec] at h; simp at h
        | ok toks' =>
          rw [hrec] at h
          simp only [Except.ok.injEq] at h
          subst h
          have hlen : rest'.length < f := by
            have := congrArg List.length hsplit
            have hpos : 0 < consumed.length := List.length_pos.mpr hne
            simp only [List.length_cons, List.length_append] at this hfuel
            omega
          have hstable := scanToken_append hc post a tail _ _ tok rest' _ _ hscan (by
            rintro rfl t rfl
            have htoks : toks' = [] := by
              cases fuel <;> simpa [tokenizeLoop] using hrec.symm
            subst htoks
            apply hopen t (by simp)
            obtain ⟨hval, -⟩ := hsome t rfl
            rw [hsplit, hval]
            simp)
          have hih := ih (done ++ consumed) rest' toks' hrec (by
            intro t ht hsuf
            apply hopen t (getLast?_toList_append tok toks' t ht)
            rw [hsplit]
            simpa using hsuf) f hlen
          rw [List.cons_append]
          simp only [tokenizeLoop, hstable, hih]
          rw [hsplit]
          simp

/-- C8 (amended): let the source be `pre ++ c :: post`, where `tokenize`
succeeds on `pre`, the last token of `pre` does not take `c` in (it is not a
`//` comment that runs to the end of `pre`, nor, when `c` is a dot, a number
that runs to the end of `pre`), and `c` is none of: an `isspace` character
(space, tab, LF, VT, FF, CR), a letter, a digit, an underscore, an operator
character, a punctuation character, NUL.  Then `tokenize` fails with the
message that reports `c`, its line and its column, and returns no tokens. -/
theorem tokenize_unexpected_character (pre : List Char) (c : Char) (post : List Char)
    (toks : List Token) (hpre : tokenize (String.mk pre) = .ok toks)
    (hopen : ∀ t, toks.getLast? = some t → t.value.data <:+ pre →
      ¬ (t.type = "COMMENT" ∧ t.value.data.take 2 = ['/', '/']) ∧
      ¬ (t.type = "NUMBER" ∧ c = '.'))
    (hspace : c ∉ [' ', '\t', '\n', '\x0b', '\x0c', '\r'])
    (hletter : c.isAlpha = false) (hdigit : c.isDigit = false) (hunder : c ≠ '_')
    (hop : c ∉ ['+', '-', '*', '/', '%', '=', '<', '>', '!'])
    (hpunct : c ∉ [';', ',', '(', ')', '{', '}', '[', ']'])
    (hnul : c ≠ '\x00') :
    tokenize (String.mk (pre ++ c :: post)) =
      .error (.runtimeError ("Unexpected character '" ++ String.singleton c ++ "' at line " ++
        toString (1 + pre.count '\n') ++ ", column " ++
        toString (1 + (pre.reverse.takeWhile (· != '\n')).length))) := by
  have hc : Unexpected c := by
    refine ⟨?_, by rw [isalpha_eq]; exact hletter, by rw [isdigit_eq]; exact hdigit, hunder,
      ?_, ?_⟩
    · cases hs : isspace c with
      | false => rfl
      | true =>
        rw [isspace_iff] at hs
        exact absurd (by simpa using hs) hspace
    · simp only [List.mem_cons, List.mem_singleton, List.not_mem_nil, or_false, not_or] at hop
      simp [strchr, hnul, hop]
    · simp only [List.mem_cons, List.mem_singleton, List.not_mem_nil, or_false,
        not_or] at hpunct
      simp [strchr, hnul, hpunct]
  have h := tokenizeLoop_append hc post pre.length [] pre toks hpre
    (by simpa using hopen) (pre ++ c :: post).length (by simp)
  simpa [tokenize, unexpectedCharacter, lineAfter, columnAfter] using h

/-- C8 (amended), at the source `@` and at the first double quote of a program
that calls `printf` with a string literal: the failures report `@` at line 1,
column 1 and the quote at line 2, column 10. -/
theorem tokenize_unexpected_character_witness :
    tokenize "@" = .error (.runtimeError "Unexpected character '@' at line 1, column 1") ∧
    tokenize "int main() \x7b\n  printf(\"x is greater than 5\");\n\x7d" =
      .error (.runtimeError "Unexpected character '\"' at line 2, column 10") :=
  ⟨tokenize_unexpected_character [] '@' [] [] (by decide) (fun t ht _ => by simp at ht)
      (by decide) (by decide) (by decide) (by decide) (by decide) (by decide) (by decide),
    tokenize_unexpected_character "int main() \x7b\n  printf(".data '"'
      "x is greater than 5\");\n\x7d".data
      [⟨"KEYWORD", "int", 1, 1⟩, ⟨"IDENTIFIER", "main", 1, 5⟩, ⟨"PUNCTUATION", "(", 1, 9⟩,
        ⟨"PUNCTUATION", ")", 1, 10⟩, ⟨"PUNCTUATION", "\x7b", 1, 12⟩,
        ⟨"KEYWORD", "printf", 2, 3⟩, ⟨"PUNCTUATION", "(", 2, 9⟩]
      (by decide)
      (fun t ht _ => by
        have : t = ⟨"PUNCTUATION", "(", 2, 9⟩ := by simpa using ht.symm
        subst this
        decide)
      (by decide) (by decide) (by decide) (by decide) (by decide) (by decide) (by decide)⟩

/-- C8, as stated, fails: a vertical tab is skipped as white space, a dot after
digits is taken into the number, and NUL passes the `strchr` test of the
operator branch; in none of the three cases does `tokenize` fail. -/
theorem tokenize_unexpected_character_counterexample :
    tokenize "\x0b" = .ok [] ∧
    tokenize "1." = .ok [⟨"NUMBER", "1.", 1, 1⟩] ∧
    tokenize "\x00" = .ok [⟨"OPERATOR", "\x00", 1, 1⟩] := by
  decide

/-! ## Parser primitives -/

theorem Parse.bind_apply {α β : Type} (x : Parse α) (f : α → Parse β) (current : Nat) :
    (x >>= f) current =
      match x current with
      | .ok (a, current') => f a current'
      | .error e => .error e := by
  simp only [bind, StateT.bind, Except.bind]
  cases x current <;> rfl

theorem Parse.pure_apply {α : Type} (a : α) (current : Nat) :
    (pure a : Parse α) current = .ok (a, current) := rfl

theorem Parse.throw_apply {α : Type} (e : Failure) (current : Nat) :
    (throw e : Parse α) current = .error e := rfl

theorem isAtEnd_eq (tokens : List Token) (current : Nat) :
    isAtEnd tokens current = .ok (decide (current ≥ tokens.length), current) := rfl

theorem getElem?_lt {tokens : List Token} {current : Nat} {t : Token}
    (h : tokens[current]? = some t) : current < tokens.length := by
  by_contra hge
  rw [List.getElem?_eq_none (by omega)] at h
  simp at h

theorem check_of_getElem? {tokens : List Token} {current : Nat} {t : Token}
    (h : tokens[current]? = some t) (type value : String) :
    check tokens type value current = .ok (t.matches type value, current) := by
  have hlt := getElem?_lt h
  simp only [check, Parse.bind_apply, isAtEnd_eq, ge_iff_le, decide_eq_true_eq,
    Nat.not_le.mpr hlt, if_false, Token.matches]
  show (match tokens[current]? with
    | none => throw Failure.outOfRange
    | some token => if value.isEmpty = true then pure (token.type == type)
        else pure (token.type == type && token.value == value) : Parse Bool) current = _
  rw [h]
  split <;> rfl

theorem check_of_atEnd {tokens : List Token} {current : Nat}
    (h : tokens.length ≤ current) (type value : String) :
    check tokens type value current = .ok (false, current) := by
  simp only [check, Parse.bind_apply, isAtEnd_eq, ge_iff_le, decide_eq_true_eq, h, if_true,
    Parse.pure_apply]

theorem advance_of_getElem? {tokens : List Token} {current : Nat} {t : Token}
    (h : tokens[current]? = some t) :
    advance tokens current = .ok (t, current + 1) := by
  have hlt := getElem?_lt h
  simp only [advance, Parse.bind_apply, isAtEnd_eq, ge_iff_le, Nat.not_le.mpr hlt,
    decide_False, Bool.not_false, if_true]
  show previous tokens (current + 1) = _
  simp only [previous, Parse.bind_apply]
  show (match tokens[current]? with
    | some token => pure token
    | none => throw Failure.outOfRange : Parse Token) (current + 1) = _
  rw [h]
  rfl

theorem matchToken_of_getElem? {tokens : List Token} {current : Nat} {t : Token}
    (h : tokens[current]? = some t) (type value : String) :
    matchToken tokens type value current =
      .ok (t.matches type value, if t.matches type value then current + 1 else current) := by
  simp only [matchToken, Parse.bind_apply, check_of_getElem? h]
  cases hm : t.matches type value
  · rfl
  · simp only [if_true, Parse.bind_apply, advance_of_getElem? h, Parse.pure_apply]

theorem matchToken_of_atEnd {tokens : List Token} {current : Nat}
    (h : tokens.length ≤ current) (type value : String) :
    matchToken tokens type value current = .ok (false, current) := by
  simp only [matchToken, Parse.bind_apply, check_of_atEnd h]
  rfl

theorem consume_of_matches {tokens : List Token} {current : Nat} {t : Token}
    (h : tokens[current]? = some t) {type value : String} (hm : t.matches type value = true)
    (message : String) :
    consume tokens type value message current = .ok (t, current + 1) := by
  simp only [consume, Parse.bind_apply, check_of_getElem? h, hm, if_true, advance_of_getElem? h]

theorem previous_succ {tokens : List Token} {current : Nat} {t : Token}
    (h : tokens[current]? = some t) :
    previous tokens (current + 1) = .ok (t, current + 1) := by
  simp only [previous, Parse.bind_apply]
  show (match tokens[current]? with
    | some token => pure token
    | none => throw Failure.outOfRange : Parse Token) (current + 1) = _
  rw [h]
  rfl

theorem skipComments_of_not_comment {tokens : List Token} {current : Nat} {t : Token}
    (h : tokens[current]? = some t) (ht : t.type ≠ "COMMENT") (fuel : Nat) :
    skipComments tokens (fuel + 1) current = .ok ((), current) := by
  have hm : t.matches "COMMENT" "" = false := by
    simp [Token.matches, ht]
  simp only [skipComments, Parse.bind_apply, matchToken_of_getElem? h, hm]
  rfl

theorem matchAny_of_getElem? {tokens : List Token} {current : Nat} {t : Token}
    (h : tokens[current]? = some t) (type : String) (values : List String) :
    matchAny tokens type values current =
      .ok (values.any (fun v => t.matches type v),
        if values.any (fun v => t.matches type v) then current + 1 else current) := by
  induction values with
  | nil => rfl
  | cons v vs ih =>
    simp only [matchAny, Parse.bind_apply, matchToken_of_getElem? h, List.any_cons]
    by_cases hm : t.matches type v = true
    · simp only [hm, if_true, Bool.true_or]
      rfl
    · simp only [hm, Bool.false_eq_true, if_false, ih, Bool.false_or]

theorem matchAny_of_atEnd {tokens : List Token} {current : Nat}
    (h : tokens.length ≤ current) (type : String) (values : List String) :
    matchAny tokens type values current = .ok (false, current) := by
  induction values with
  | nil => rfl
  | cons v vs ih =>
    simp only [matchAny, Parse.bind_apply, matchToken_of_atEnd h, Bool.false_eq_true, if_false,
      ih]

theorem matchAny_typeKeyword {tokens : List Token} {current : Nat} {T : String}
    {line column : Nat} (h : tokens[current]? = some ⟨"KEYWORD", T, line, column⟩)
    (hT : T ∈ ["int", "char", "float", "double", "void"]) :
    matchAny tokens "KEYWORD" ["int", "char", "float", "double", "void"] current =
      .ok (true, current + 1) := by
  rw [matchAny_of_getElem? h]
  simp only [List.mem_cons, List.mem_singleton, List.not_mem_nil, or_false] at hT
  rcases hT with rfl | rfl | rfl | rfl | rfl <;> rfl

theorem skipParameters_skip (tokens : List Token) (m : Nat) :
    ∀ (k fuel : Nat), m + 1 ≤ fuel →
      (∀ j < m, ∃ t, tokens[k + j]? = some t ∧ t.matches "PUNCTUATION" ")" = false) →
      (∃ t, tokens[k + m]? = some t ∧ t.matches "PUNCTUATION" ")" = true) →
      skipParameters tokens fuel k = .ok ((), k + m + 1) := by
  induction m with
  | zero =>
    intro k fuel hfuel _ hclose
    obtain ⟨t, ht, hm⟩ := hclose
    obtain ⟨f, rfl⟩ : ∃ f, fuel = f + 1 := ⟨fuel - 1, by omega⟩
    rw [Nat.add_zero] at ht
    simp only [skipParameters, Parse.bind_apply, matchToken_of_getElem? ht, hm]
    rfl
  | succ m ih =>
    intro k fuel hfuel hskip hclose
    obtain ⟨f, rfl⟩ : ∃ f, fuel = f + 1 := ⟨fuel - 1, by omega⟩
    obtain ⟨t, ht, hm⟩ := hskip 0 (by omega)
    rw [Nat.add_zero] at ht
    have hlt := getElem?_lt ht
    have hrec := ih (k + 1) f (by omega)
      (fun j hj => by
        obtain ⟨u, hu, hum⟩ := hskip (j + 1) (by omega)
        exact ⟨u, by rw [← hu]; congr 1; omega, hum⟩)
      (by
        obtain ⟨u, hu, hum⟩ := hclose
        exact ⟨u, by rw [← hu]; congr 1; omega, hum⟩)
    simp only [skipParameters, Parse.bind_apply, matchToken_of_getElem? ht, hm, isAtEnd_eq,
      ge_iff_le, Nat.not_le.mpr hlt, decide_False, Bool.false_eq_true, if_false,
      advance_of_getElem? ht, hrec]
    congr 2; omega

theorem parseDeclaration_function_at (tokens : List Token) (k m fuel : Nat) (T f : String)
    (hT : T ∈ ["int", "char", "float", "double", "void"])
    (l1 c1 l2 c2 l3 c3 l4 c4 l5 c5 : Nat)
    (h0 : tokens[k]? = some ⟨"KEYWORD", T, l1, c1⟩)
    (h1 : tokens[k + 1]? = some ⟨"IDENTIFIER", f, l2, c2⟩)
    (h2 : tokens[k + 2]? = some ⟨"PUNCTUATION", "(", l3, c3⟩)
    (hparams : ∀ j < m, ∃ t, tokens[k + 3 + j]? = some t ∧
      t.matches "PUNCTUATION" ")" = false)
    (h3 : tokens[k + 3 + m]? = some ⟨"PUNCTUATION", ")", l4, c4⟩)
    (h4 : tokens[k + 3 + m + 1]? = some ⟨"PUNCTUATION", "\x7b", l5, c5⟩)
    (hfuel : m + 1 ≤ fuel) (block : ASTNode) (current' : Nat)
    (hbody : parseBlock tokens fuel (k + 3 + m + 1 + 1) = .ok (block, current')) :
    parseDeclaration tokens (fuel + 2) k =
      .ok (some (.mk "FUNCTION_DECLARATION" f
        [some (.mk "TYPE" T []), some (.mk "PARAMETERS" "" []), some block]), current') := by
  have hlt := getElem?_lt h0
  have hskip := skipParameters_skip tokens m (k + 3) fuel hfuel hparams ⟨_, h3, rfl⟩
  have e1 : (⟨"IDENTIFIER", f, l2, c2⟩ : Token).matches "IDENTIFIER" "" = true := rfl
  have e2 : (⟨"PUNCTUATION", "(", l3, c3⟩ : Token).matches "PUNCTUATION" "(" = true := rfl
  have e4 : (⟨"PUNCTUATION", "\x7b", l5, c5⟩ : Token).matches "PUNCTUATION" "\x7b" = true := rfl
  simp only [parseDeclaration, parseFunctionDeclaration, Parse.bind_apply,
    skipComments_of_not_comment h0 (show "KEYWORD" ≠ "COMMENT" by decide), isAtEnd_eq,
    ge_iff_le, Nat.not_le.mpr hlt, decide_False, Bool.false_eq_true, if_false,
    matchAny_typeKeyword h0 hT, if_true, previous_succ h0, matchToken_of_getElem? h1, e1,
    previous_succ h1, matchToken_of_getElem? h2, e2, hskip, matchToken_of_getElem? h4, e4,
    hbody, Parse.pure_apply]


/-! ## Declarations -/

/-- C9: for a type keyword `T`, a name `n` and a number text `v`, the tokens
of `T n = v ;` parse to `PROGRAM` with the single child
`VARIABLE_DECLARATION(n)` whose children are `TYPE(T)` and an
`INITIALIZATION` node holding `LITERAL(v)`; without `= v` the declaration has
the single child `TYPE(T)`.  In particular for the source `int x = 10;`. -/
theorem parse_variableDeclaration (T n v : String)
    (hT : T ∈ ["int", "char", "float", "double", "void"])
    (l1 c1 l2 c2 l3 c3 l4 c4 l5 c5 : Nat) :
    parse [⟨"KEYWORD", T, l1, c1⟩, ⟨"IDENTIFIER", n, l2, c2⟩, ⟨"OPERATOR", "=", l3, c3⟩,
        ⟨"NUMBER", v, l4, c4⟩, ⟨"PUNCTUATION", ";", l5, c5⟩] =
      .ok (.mk "PROGRAM" ""
        [some (.mk "VARIABLE_DECLARATION" n [some (.mk "TYPE" T []),
          some (.mk "INITIALIZATION" "" [some (.mk "LITERAL" v [])])])]) ∧
    parse [⟨"KEYWORD", T, l1, c1⟩, ⟨"IDENTIFIER", n, l2, c2⟩, ⟨"PUNCTUATION", ";", l5, c5⟩] =
      .ok (.mk "PROGRAM" "" [some (.mk "VARIABLE_DECLARATION" n [some (.mk "TYPE" T [])])]) ∧
    compile "int x = 10;" = .ok (.mk "PROGRAM" ""
      [some (.mk "VARIABLE_DECLARATION" "x" [some (.mk "TYPE" "int" []),
        some (.mk "INITIALIZATION" "" [some (.mk "LITERAL" "10" [])])])]) := by
  simp only [List.mem_cons, List.mem_singleton, List.not_mem_nil, or_false] at hT
  rcases hT with rfl | rfl | rfl | rfl | rfl <;> exact ⟨rfl, rfl, rfl⟩

/-- C9, at the declarations `double ratio = 1.5;` and `double ratio;`. -/
theorem parse_variableDeclaration_witness :
    parse [⟨"KEYWORD", "double", 1, 1⟩, ⟨"IDENTIFIER", "ratio", 1, 8⟩,
        ⟨"OPERATOR", "=", 1, 14⟩, ⟨"NUMBER", "1.5", 1, 16⟩, ⟨"PUNCTUATION", ";", 1, 19⟩] =
      .ok (.mk "PROGRAM" ""
        [some (.mk "VARIABLE_DECLARATION" "ratio" [some (.mk "TYPE" "double" []),
          some (.mk "INITIALIZATION" "" [some (.mk "LITERAL" "1.5" [])])])]) ∧
    parse [⟨"KEYWORD", "double", 1, 1⟩, ⟨"IDENTIFIER", "ratio", 1, 8⟩,
        ⟨"PUNCTUATION", ";", 1, 19⟩] =
      .ok (.mk "PROGRAM" ""
        [some (.mk "VARIABLE_DECLARATION" "ratio" [some (.mk "TYPE" "double" [])])]) ∧
    compile "int x = 10;" = .ok (.mk "PROGRAM" ""
      [some (.mk "VARIABLE_DECLARATION" "x" [some (.mk "TYPE" "int" []),
        some (.mk "INITIALIZATION" "" [some (.mk "LITERAL" "10" [])])])]) :=
  parse_variableDeclaration "double" "ratio" "1.5" (by decide) 1 1 1 8 1 14 1 16 1 19

theorem getElem?_append_add (before l : List Token) (j : Nat) :
    (before ++ l)[before.length + j]? = l[j]? := by
  rw [List.getElem?_append_right (by omega)]
  congr 1; omega

/-- C10 (amended): if, at the cursor, the tokens are a type keyword `T`, an
identifier `f`, `(`, then tokens `params` none of which is `)`, then `)` and
`{`, and the block that follows parses to `block`, then the declaration rule
yields `FUNCTION_DECLARATION(f)` with the children `TYPE(T)`, an empty
`PARAMETERS` node and `block`, in this order.  In particular the source
`int main(){return 0;}` parses to the tree of the claim. -/
theorem parseDeclaration_function (before params rest tokens : List Token) (T f : String)
    (l1 c1 l2 c2 l3 c3 l4 c4 l5 c5 : Nat)
    (htokens : tokens = before ++ (⟨"KEYWORD", T, l1, c1⟩ :: ⟨"IDENTIFIER", f, l2, c2⟩ ::
      ⟨"PUNCTUATION", "(", l3, c3⟩ :: (params ++ (⟨"PUNCTUATION", ")", l4, c4⟩ ::
      ⟨"PUNCTUATION", "\x7b", l5, c5⟩ :: rest))))
    (hT : T ∈ ["int", "char", "float", "double", "void"])
    (hparams : ∀ p ∈ params, ¬ (p.type = "PUNCTUATION" ∧ p.value = ")"))
    (fuel : Nat) (hfuel : params.length + 1 ≤ fuel) (block : ASTNode) (current' : Nat)
    (hbody : parseBlock tokens fuel (before.length + 3 + params.length + 1 + 1) =
      .ok (block, current')) :
    parseDeclaration tokens (fuel + 2) before.length =
      .ok (some (.mk "FUNCTION_DECLARATION" f
        [some (.mk "TYPE" T []), some (.mk "PARAMETERS" "" []), some block]), current') ∧
    compile "int main()\x7breturn 0;\x7d" = .ok (.mk "PROGRAM" ""
      [some (.mk "FUNCTION_DECLARATION" "main" [some (.mk "TYPE" "int" []),
        some (.mk "PARAMETERS" "" []),
        some (.mk "BLOCK" "" [some (.mk "RETURN_STATEMENT" ""
          [some (.mk "LITERAL" "0" [])])])])]) := by
  refine ⟨?_, rfl⟩
  subst htokens
  refine parseDeclaration_function_at _ before.length params.length fuel T f hT
    l1 c1 l2 c2 l3 c3 l4 c4 l5 c5 ?_ ?_ ?_ ?_ ?_ ?_ hfuel block current' hbody
  · exact getElem?_append_add before _ 0
  · rw [getElem?_append_add]; simp
  · rw [getElem?_append_add]; simp
  · intro j hj
    refine ⟨params[j], ?_, ?_⟩
    · rw [Nat.add_assoc, getElem?_append_add]
      simp only [Nat.add_comm 3 j, List.getElem?_cons_succ]
      rw [List.getElem?_append_left hj, List.getElem?_eq_getElem hj]
    · have := hparams params[j] (List.getElem_mem hj)
      simp only [Token.matches]
      rw [if_neg (by decide)]
      simpa using this
  · rw [Nat.add_assoc, getElem?_append_add]
    simp only [Nat.add_comm 3 params.length, List.getElem?_cons_succ]
    rw [List.getElem?_append_right (le_refl _)]
    simp
  · rw [Nat.add_assoc, Nat.add_assoc, getElem?_append_add]
    simp only [Nat.add_comm 3 (params.length + 1), List.getElem?_cons_succ]
    rw [List.getElem?_append_right (by omega)]
    simp

/-- C10 (amended), at the tokens of `int add(int a, int b){return a;}`: the
five tokens of the parameter list leave no trace in the tree. -/
theorem parseDeclaration_function_witness :
    parseDeclaration
        [⟨"KEYWORD", "int", 1, 1⟩, ⟨"IDENTIFIER", "add", 1, 5⟩, ⟨"PUNCTUATION", "(", 1, 8⟩,
          ⟨"KEYWORD", "int", 1, 9⟩, ⟨"IDENTIFIER", "a", 1, 13⟩, ⟨"PUNCTUATION", ",", 1, 14⟩,
          ⟨"KEYWORD", "int", 1, 16⟩, ⟨"IDENTIFIER", "b", 1, 20⟩, ⟨"PUNCTUATION", ")", 1, 21⟩,
          ⟨"PUNCTUATION", "\x7b", 1, 22⟩, ⟨"KEYWORD", "return", 1, 23⟩,
          ⟨"IDENTIFIER", "a", 1, 30⟩, ⟨"PUNCTUATION", ";", 1, 31⟩,
          ⟨"PUNCTUATION", "\x7d", 1, 32⟩] (20 + 2) 0 =
      .ok (some (.mk "FUNCTION_DECLARATION" "add"
        [some (.mk "TYPE" "int" []), some (.mk "PARAMETERS" "" []),
          some (.mk "BLOCK" "" [some (.mk "RETURN_STATEMENT" ""
            [some (.mk "IDENTIFIER" "a" [])])])]), 14) ∧
    compile "int main()\x7breturn 0;\x7d" = .ok (.mk "PROGRAM" ""
      [some (.mk "FUNCTION_DECLARATION" "main" [some (.mk "TYPE" "int" []),
        some (.mk "PARAMETERS" "" []),
        some (.mk "BLOCK" "" [some (.mk "RETURN_STATEMENT" ""
          [some (.mk "LITERAL" "0" [])])])])]) :=
  parseDeclaration_function []
    [⟨"KEYWORD", "int", 1, 9⟩, ⟨"IDENTIFIER", "a", 1, 13⟩, ⟨"PUNCTUATION", ",", 1, 14⟩,
      ⟨"KEYWORD", "int", 1, 16⟩, ⟨"IDENTIFIER", "b", 1, 20⟩]
    [⟨"KEYWORD", "return", 1, 23⟩, ⟨"IDENTIFIER", "a", 1, 30⟩, ⟨"PUNCTUATION", ";", 1, 31⟩,
      ⟨"PUNCTUATION", "\x7d", 1, 32⟩]
    _ "int" "add" 1 1 1 5 1 8 1 21 1 22 rfl (by decide) (by decide) 20 (by decide)
    (.mk "BLOCK" "" [some (.mk "RETURN_STATEMENT" "" [some (.mk "IDENTIFIER" "a" [])])]) 14 rfl

/-- C10, as stated, fails when a `)` stands between the parentheses: the
parameter list of `int f((a))` ends at the first `)`, the second `)` is then
read as the start of a statement, and the parse fails. -/
theorem parse_function_counterexample :
    compile "int f((a))\x7b\x7d" = .error (.runtimeError "Expected expression") := by
  rfl

/-! ## Parser primitives, as equations -/

theorem Parse.bind_run {α β : Type} (x : Parse α) (f : α → Parse β) (k : Nat) :
    (x >>= f) k = andThen (x k) (fun a k' => f a k') := by
  rw [Parse.bind_apply]
  rfl

theorem andThen_ok {α β : Type} (a : α) (k : Nat) (f : α → Nat → Except Failure (β × Nat)) :
    andThen (.ok (a, k)) f = f a k := rfl

theorem andThen_error {α β : Type} (e : Failure) (f : α → Nat → Except Failure (β × Nat)) :
    andThen (.error e) f = .error e := rfl

theorem andThen_eq_ok {α β : Type} {r : Except Failure (α × Nat)}
    {f : α → Nat → Except Failure (β × Nat)} {b : β} {k' : Nat}
    (h : andThen r f = .ok (b, k')) : ∃ a k, r = .ok (a, k) ∧ f a k = .ok (b, k') := by
  cases r with
  | error e => simp [andThen] at h
  | ok p => exact ⟨p.1, p.2, rfl, h⟩

theorem checkAt_lt {tokens : List Token} {k : Nat} {type value : String}
    (h : checkAt tokens k type value = true) : k < tokens.length := by
  unfold checkAt at h
  cases ht : tokens[k]? with
  | none => rw [ht] at h; simp at h
  | some t => exact getElem?_lt ht

theorem checkAt_of_getElem? {tokens : List Token} {k : Nat} {t : Token}
    (h : tokens[k]? = some t) (type value : String) :
    checkAt tokens k type value = t.matches type value := by
  simp only [checkAt, h]

theorem checkAt_of_atEnd {tokens : List Token} {k : Nat} (h : tokens.length ≤ k)
    (type value : String) : checkAt tokens k type value = false := by
  simp only [checkAt, List.getElem?_eq_none h]

theorem checkAnyAt_lt {tokens : List Token} {k : Nat} {type : String} {values : List String}
    (h : checkAnyAt tokens k type values = true) : k < tokens.length := by
  simp only [checkAnyAt, List.any_eq_true] at h
  obtain ⟨v, -, hv⟩ := h
  exact checkAt_lt hv

theorem check_eq (tokens : List Token) (type value : String) (k : Nat) :
    check tokens type value k = .ok (checkAt tokens k type value, k) := by
  cases ht : tokens[k]? with
  | none =>
    have hge : tokens.length ≤ k := by
      by_contra hlt
      rw [List.getElem?_eq_getElem (by omega)] at ht
      simp at ht
    rw [check_of_atEnd hge, checkAt_of_atEnd hge]
  | some t => rw [check_of_getElem? ht, checkAt_of_getElem? ht]

theorem matchToken_eq (tokens : List Token) (type value : String) (k : Nat) :
    matchToken tokens type value k =
      .ok (checkAt tokens k type value, if checkAt tokens k type value then k + 1 else k) := by
  cases ht : tokens[k]? with
  | none =>
    have hge : tokens.length ≤ k := by
      by_contra hlt
      rw [List.getElem?_eq_getElem (by omega)] at ht
      simp at ht
    rw [matchToken_of_atEnd hge, checkAt_of_atEnd hge]
    rfl
  | some t => rw [matchToken_of_getElem? ht, checkAt_of_getElem? ht]

theorem matchAny_eq (tokens : List Token) (type : String) (values : List String) (k : Nat) :
    matchAny tokens type values k =
      .ok (checkAnyAt tokens k type values,
        if checkAnyAt tokens k type values then k + 1 else k) := by
  cases ht : tokens[k]? with
  | none =>
    have hge : tokens.length ≤ k := by
      by_contra hlt
      rw [List.getElem?_eq_getElem (by omega)] at ht
      simp at ht
    rw [matchAny_of_atEnd hge]
    have : checkAnyAt tokens k type values = false := by
      simp [checkAnyAt, checkAt_of_atEnd hge]
    rw [this]
    rfl
  | some t =>
    rw [matchAny_of_getElem? ht]
    have : checkAnyAt tokens k type values = values.any (fun v => t.matches type v) := by
      simp only [checkAnyAt, checkAt_of_getElem? ht]
    rw [this]

theorem consume_of_checkAt {tokens : List Token} {k : Nat} {type value : String}
    (h : checkAt tokens k type value = true) (message : String) :
    ∃ t, tokens[k]? = some t ∧ consume tokens type value message k = .ok (t, k + 1) := by
  cases ht : tokens[k]? with
  | none => simp [checkAt, ht] at h
  | some t =>
    refine ⟨t, rfl, consume_of_matches ht ?_ message⟩
    rwa [checkAt_of_getElem? ht] at h

theorem peek_ok {tokens : List Token} (hne : tokens ≠ []) (k : Nat) :
    ∃ t, peek tokens k = .ok (t, k) := by
  simp only [peek, Parse.bind_apply]
  show ∃ t, (if k ≥ tokens.length then
      match tokens.getLast? with
      | some back => pure ⟨"EOF", "", back.line, back.column⟩
      | none => throw Failure.outOfRange
    else
      match tokens[k]? with
      | some token => pure token
      | none => throw Failure.outOfRange : Parse Token) k = _
  by_cases hk : k ≥ tokens.length
  · rw [if_pos hk]
    cases hl : tokens.getLast? with
    | none => exact absurd (List.getLast?_eq_none_iff.mp hl) hne
    | some back => exact ⟨_, rfl⟩
  · rw [if_neg hk, List.getElem?_eq_getElem (by omega)]
    exact ⟨_, rfl⟩

theorem consume_of_not_checkAt {tokens : List Token} (hne : tokens ≠ []) {k : Nat}
    {type value : String} (h : checkAt tokens k type value = false) (message : String) :
    ∃ what, consume tokens type value message k = .error (.runtimeError what) := by
  obtain ⟨t, ht⟩ := peek_ok hne k
  simp only [consume, Parse.bind_apply, check_eq, h, Bool.false_eq_true, if_false, ht]
  exact ⟨_, rfl⟩

theorem consume_eq_ok {tokens : List Token} {k : Nat} {type value message : String}
    {t : Token} {k' : Nat} (h : consume tokens type value message k = .ok (t, k')) :
    checkAt tokens k type value = true ∧ tokens[k]? = some t ∧ k' = k + 1 := by
  cases hc : checkAt tokens k type value with
  | true =>
    obtain ⟨u, hu, hcons⟩ := consume_of_checkAt hc message
    rw [hcons] at h
    simp only [Except.ok.injEq, Prod.mk.injEq] at h
    exact ⟨rfl, by rw [hu, h.1], h.2.symm⟩
  | false =>
    simp only [consume, Parse.bind_apply, check_eq, hc, Bool.false_eq_true, if_false] at h
    cases hp : peek tokens k with
    | error e => rw [hp] at h; simp at h
    | ok p => rw [hp] at h; simp [throw, throwThe, MonadExceptOf.throw, StateT.lift, liftM, monadLift, MonadLift.monadLift, bind, Except.bind] at h

theorem checkAt_type_ne {tokens : List Token} {k : Nat} {t : Token} {type value : String}
    (ht : tokens[k]? = some t) (hne : t.type ≠ type) : checkAt tokens k type value = false := by
  rw [checkAt_of_getElem? ht]
  unfold Token.matches
  split <;> simp [hne]

theorem checkAnyAt_type_ne {tokens : List Token} {k : Nat} {t : Token} {type : String}
    (values : List String) (ht : tokens[k]? = some t) (hne : t.type ≠ type) :
    checkAnyAt tokens k type values = false := by
  unfold checkAnyAt
  rw [List.any_eq_false]
  intro v _
  simp [checkAt_type_ne ht hne]

/-! ## The top-level loop -/

theorem parseLoop_of_atEnd (tokens : List Token) (fuel : Nat)
    (children : List (Option ASTNode)) {k : Nat} (hk : tokens.length ≤ k) :
    parseLoop tokens (fuel + 1) children k = .ok (children, k) := by
  have h : tokens[k]? = none := List.getElem?_eq_none hk
  simp only [parseLoop, Parse.bind_apply, get, getThe, MonadStateOf.get, StateT.get, pure,
    Except.pure, h]
  rfl

theorem parseLoop_of_comment (tokens : List Token) (fuel : Nat)
    (children : List (Option ASTNode)) {k : Nat} {t : Token} (ht : tokens[k]? = some t)
    (hc : t.type = "COMMENT") :
    parseLoop tokens (fuel + 1) children k = parseLoop tokens fuel children (k + 1) := by
  have hb : (t.type == "COMMENT") = true := by simpa using hc
  simp only [parseLoop, Parse.bind_apply, get, getThe, MonadStateOf.get, StateT.get, pure,
    Except.pure, ht, hb, if_true]
  rfl

theorem parseLoop_of_not_comment (tokens : List Token) (fuel : Nat)
    (children : List (Option ASTNode)) {k : Nat} {t : Token} (ht : tokens[k]? = some t)
    (hc : t.type ≠ "COMMENT") :
    parseLoop tokens (fuel + 1) children k =
      andThen (parseDeclaration tokens fuel k) fun node k' =>
        parseLoop tokens fuel (pushIfNotNull children node) k' := by
  have hb : (t.type == "COMMENT") = false := by simpa using hc
  simp only [parseLoop, Parse.bind_apply, get, getThe, MonadStateOf.get, StateT.get, pure,
    Except.pure, ht, hb, Bool.false_eq_true, if_false]
  rfl

/-- A failure of the expression statement with which a program starts is the
failure of `parse`. -/
theorem parse_of_expressionStatement_error (tokens : List Token) (fuel : Nat) (t : Token)
    (e : Failure)
    (ht : tokens[0]? = some t) (hc : t.type ≠ "COMMENT") (hk : t.type ≠ "KEYWORD")
    (hbrace : checkAt tokens 0 "PUNCTUATION" "\x7b" = false)
    (hfuel : parseFuel tokens = fuel + 6)
    (h : parseExpressionStatement tokens (fuel + 3) 0 = .error e) :
    parse tokens = .error e := by
  have hlen : ¬ tokens.length ≤ 0 := by
    have := getElem?_lt ht
    omega
  have hskip : ∀ f, skipComments tokens (f + 1) 0 = .ok ((), 0) := by
    intro f
    simp only [skipComments, Parse.bind_run, matchToken_eq, checkAt_type_ne ht hc,
      andThen_ok, Bool.false_eq_true, if_false]
    rfl
  have hstmt : parseStatement tokens (fuel + 4) 0 = .error e := by
    simp only [parseStatement, Parse.bind_run, hskip, andThen_ok, isAtEnd_eq, hlen,
      decide_False, Bool.false_eq_true, if_false, matchToken_eq, checkAt_type_ne ht hk,
      hbrace, h, andThen_error]
  have hdecl : parseDeclaration tokens (fuel + 5) 0 = .error e := by
    simp only [parseDeclaration, Parse.bind_run, hskip, andThen_ok, isAtEnd_eq, hlen,
      decide_False, Bool.false_eq_true, if_false, matchAny_eq, checkAnyAt_type_ne _ ht hk,
      hstmt]
  rw [parse, hfuel, parseLoop_of_not_comment tokens (fuel + 5) [] ht hc, hdecl]
  rfl

/-! ## The `if` statement -/

/-- C11: When the tokens after `if` are `(`, an expression, `)` and a
statement, `parseIfStatement` returns the node `IF_STATEMENT` whose children
are the condition and the then-branch, in this order, when no `else` follows,
and these two followed by the statement after `else` when one follows. The
text `if (x > 5) { x = x + 1; }` compiles to `PROGRAM` with the one child
`IF_STATEMENT[BINARY(">")[IDENTIFIER("x"), LITERAL("5")],
BLOCK[ASSIGNMENT("x")[BINARY("+")[IDENTIFIER("x"), LITERAL("1")]]]]`, and in
the tree of `if (x) y; else z;` the statement `z` is the third child. -/
theorem parseIfStatement_children (tokens : List Token) (fuel k k1 k2 : Nat)
    (condition : ASTNode) (thenBranch : Option ASTNode)
    (hopen : checkAt tokens k "PUNCTUATION" "(" = true)
    (hcond : parseExpression tokens fuel (k + 1) = .ok (condition, k1))
    (hclose : checkAt tokens k1 "PUNCTUATION" ")" = true)
    (hthen : parseStatement tokens fuel (k1 + 1) = .ok (thenBranch, k2)) :
    (checkAt tokens k2 "KEYWORD" "else" = false →
      parseIfStatement tokens (fuel + 1) k =
        .ok (.mk "IF_STATEMENT" "" [some condition, thenBranch], k2)) ∧
    (checkAt tokens k2 "KEYWORD" "else" = true →
      ∀ (elseBranch : Option ASTNode) (k3 : Nat),
        parseStatement tokens fuel (k2 + 1) = .ok (elseBranch, k3) →
        parseIfStatement tokens (fuel + 1) k =
          .ok (.mk "IF_STATEMENT" "" [some condition, thenBranch, elseBranch], k3)) ∧
    compile "if (x > 5) \x7b x = x + 1; \x7d" = .ok (.mk "PROGRAM" ""
      [some (.mk "IF_STATEMENT" ""
        [some (.mk "BINARY" ">" [some (.mk "IDENTIFIER" "x" []), some (.mk "LITERAL" "5" [])]),
          some (.mk "BLOCK" "" [some (.mk "ASSIGNMENT" "x"
            [some (.mk "BINARY" "+" [some (.mk "IDENTIFIER" "x" []),
              some (.mk "LITERAL" "1" [])])])])])]) ∧
    compile "if (x) y; else z;" = .ok (.mk "PROGRAM" ""
      [some (.mk "IF_STATEMENT" "" [some (.mk "IDENTIFIER" "x" []),
        some (.mk "IDENTIFIER" "y" []), some (.mk "IDENTIFIER" "z" [])])]) := by
  obtain ⟨t1, -, h1⟩ := consume_of_checkAt hopen "Expected '(' after 'if'"
  obtain ⟨t2, -, h2⟩ := consume_of_checkAt hclose "Expected ')' after if condition"
  refine ⟨?_, ?_, rfl, rfl⟩
  · intro helse
    simp only [parseIfStatement, Parse.bind_run, h1, andThen_ok, hcond, h2, hthen,
      matchToken_eq, helse, Bool.false_eq_true, if_false]
    rfl
  · intro helse elseBranch k3 hstmt
    simp only [parseIfStatement, Parse.bind_run, h1, andThen_ok, hcond, h2, hthen,
      matchToken_eq, helse, if_true, hstmt]
    rfl

/-- The rule of C11 on the tokens of `(x) y; else z;`, which follow an `if`:
the three children are `x`, `y` and `z`. -/
theorem parseIfStatement_children_witness :
    parseIfStatement [⟨"PUNCTUATION", "(", 1, 4⟩, ⟨"IDENTIFIER", "x", 1, 5⟩,
        ⟨"PUNCTUATION", ")", 1, 6⟩, ⟨"IDENTIFIER", "y", 1, 8⟩, ⟨"PUNCTUATION", ";", 1, 9⟩,
        ⟨"KEYWORD", "else", 1, 11⟩, ⟨"IDENTIFIER", "z", 1, 16⟩,
        ⟨"PUNCTUATION", ";", 1, 17⟩] (20 + 1) 0 =
      .ok (.mk "IF_STATEMENT" "" [some (.mk "IDENTIFIER" "x" []),
        some (.mk "IDENTIFIER" "y" []), some (.mk "IDENTIFIER" "z" [])], 8) :=
  (parseIfStatement_children
    [⟨"PUNCTUATION", "(", 1, 4⟩, ⟨"IDENTIFIER", "x", 1, 5⟩, ⟨"PUNCTUATION", ")", 1, 6⟩,
      ⟨"IDENTIFIER", "y", 1, 8⟩, ⟨"PUNCTUATION", ";", 1, 9⟩, ⟨"KEYWORD", "else", 1, 11⟩,
      ⟨"IDENTIFIER", "z", 1, 16⟩, ⟨"PUNCTUATION", ";", 1, 17⟩]
    20 0 2 5 (.mk "IDENTIFIER" "x" []) (some (.mk "IDENTIFIER" "y" []))
    rfl rfl rfl rfl).2.1 rfl (some (.mk "IDENTIFIER" "z" [])) 8 rfl

/-! ## Assignment -/

/-- C12: When the equality rule parses the left side `L` to the node `left`,
an `=` follows and the assignment rule parses the right side `R`, then, if
`left` is not an `IDENTIFIER` node, `parseAssignment` and the expression
statement fail with "Invalid assignment target", and so does `parse` when the
statement starts the program; if `left` is an `IDENTIFIER` node, the result
is `ASSIGNMENT` with the value of `left` and the tree of `R` as its only
child. The texts `1 = 2;`, `(x) = 1;` and `a + b = 1;` fail in this way, and
`x = 1;` yields `ASSIGNMENT("x")[LITERAL("1")]`. -/
theorem parseAssignment_target (tokens : List Token) (fuel k k1 k2 : Nat)
    (left right : ASTNode)
    (hleft : parseEquality tokens fuel k = .ok (left, k1))
    (heq : checkAt tokens k1 "OPERATOR" "=" = true)
    (hright : parseAssignment tokens fuel (k1 + 1) = .ok (right, k2)) :
    (left.type ≠ "IDENTIFIER" →
      parseAssignment tokens (fuel + 1) k =
        .error (.runtimeError "Invalid assignment target") ∧
      parseExpressionStatement tokens (fuel + 3) k =
        .error (.runtimeError "Invalid assignment target") ∧
      (k = 0 → parseFuel tokens = fuel + 6 →
        ∀ t, tokens[0]? = some t → t.type ≠ "COMMENT" → t.type ≠ "KEYWORD" →
          checkAt tokens 0 "PUNCTUATION" "\x7b" = false →
          parse tokens = .error (.runtimeError "Invalid assignment target"))) ∧
    (left.type = "IDENTIFIER" →
      parseAssignment tokens (fuel + 1) k =
        .ok (.mk "ASSIGNMENT" left.value [some right], k2)) ∧
    compile "1 = 2;" = .error (.runtimeError "Invalid assignment target") ∧
    compile "(x) = 1;" = .error (.runtimeError "Invalid assignment target") ∧
    compile "a + b = 1;" = .error (.runtimeError "Invalid assignment target") ∧
    compile "x = 1;" = .ok (.mk "PROGRAM" ""
      [some (.mk "ASSIGNMENT" "x" [some (.mk "LITERAL" "1" [])])]) := by
  have hrun : parseAssignment tokens (fuel + 1) k =
      if left.type == "IDENTIFIER" then .ok (.mk "ASSIGNMENT" left.value [some right], k2)
      else .error (.runtimeError "Invalid assignment target") := by
    simp only [parseAssignment, Parse.bind_run, hleft, andThen_ok, matchToken_eq, heq, if_true,
      hright]
    split <;> rfl
  refine ⟨?_, ?_, rfl, rfl, rfl, rfl⟩
  · intro hne
    have hb : (left.type == "IDENTIFIER") = false := by simpa using hne
    rw [hb] at hrun
    have hstmt : parseExpressionStatement tokens (fuel + 3) k =
        .error (.runtimeError "Invalid assignment target") := by
      simp only [parseExpressionStatement, parseExpression, Parse.bind_run, hrun]
      rfl
    refine ⟨hrun, hstmt, ?_⟩
    intro hk hfuel t ht hc hkw hbrace
    subst hk
    exact parse_of_expressionStatement_error tokens fuel t _ ht hc hkw hbrace hfuel hstmt
  · intro he
    have hb : (left.type == "IDENTIFIER") = true := by simpa using he
    rw [hb] at hrun
    exact hrun

/-- The rule of C12 on the tokens of `a + b = 1;`: the left side is a
`BINARY` node, and the assignment, the statement and `parse` fail. -/
theorem parseAssignment_target_witness :
    parseAssignment [⟨"IDENTIFIER", "a", 1, 1⟩, ⟨"OPERATOR", "+", 1, 3⟩,
        ⟨"IDENTIFIER", "b", 1, 5⟩, ⟨"OPERATOR", "=", 1, 7⟩, ⟨"NUMBER", "1", 1, 9⟩,
        ⟨"PUNCTUATION", ";", 1, 10⟩] (218 + 1) 0 =
        .error (.runtimeError "Invalid assignment target") ∧
      parse [⟨"IDENTIFIER", "a", 1, 1⟩, ⟨"OPERATOR", "+", 1, 3⟩,
        ⟨"IDENTIFIER", "b", 1, 5⟩, ⟨"OPERATOR", "=", 1, 7⟩, ⟨"NUMBER", "1", 1, 9⟩,
        ⟨"PUNCTUATION", ";", 1, 10⟩] =
        .error (.runtimeError "Invalid assignment target") :=
  have h := (parseAssignment_target
    [⟨"IDENTIFIER", "a", 1, 1⟩, ⟨"OPERATOR", "+", 1, 3⟩, ⟨"IDENTIFIER", "b", 1, 5⟩,
      ⟨"OPERATOR", "=", 1, 7⟩, ⟨"NUMBER", "1", 1, 9⟩, ⟨"PUNCTUATION", ";", 1, 10⟩]
    218 0 3 5
    (.mk "BINARY" "+" [some (.mk "IDENTIFIER" "a" []), some (.mk "IDENTIFIER" "b" [])])
    (.mk "LITERAL" "1" []) rfl rfl rfl).1 (by decide)
  ⟨h.1, h.2.2 rfl rfl ⟨"IDENTIFIER", "a", 1, 1⟩ rfl (by decide) (by decide) (by decide)⟩

/-! ## A type keyword without a name -/

/-- C13: The declaration rule does not require an identifier after a type
keyword. The text `int 5;` compiles, and its tree is that of `5;`: the keyword
`int` is consumed and leaves no trace; the text `int` alone compiles to the
empty `PROGRAM`. -/
theorem parse_typeKeyword_dropped :
    compile "int 5;" = .ok (.mk "PROGRAM" "" [some (.mk "LITERAL" "5" [])]) ∧
    compile "5;" = .ok (.mk "PROGRAM" "" [some (.mk "LITERAL" "5" [])]) ∧
    compile "int" = .ok (.mk "PROGRAM" "" []) :=
  ⟨rfl, rfl, rfl⟩

/-! ## Parameter lists -/

/-- C14, amended: In a function declaration the parameter list is skipped up
to and including the first `)`: when the `m` tokens from the cursor on are not
`)` and the next one is, `parseFunctionDeclaration` continues at the token
after this `)`, with a body if it is a `{` and without one otherwise. A `(`
inside the list is skipped like any other token: `int f(a){}` and `int f((a){}`
have the same tree. -/
theorem parseFunctionDeclaration_parameters (tokens : List Token) (k m fuel : Nat)
    (typeToken nameToken : Token)
    (hparams : ∀ j < m, checkAt tokens (k + j) "PUNCTUATION" ")" = false)
    (hclose : checkAt tokens (k + m) "PUNCTUATION" ")" = true)
    (hfuel : m + 1 ≤ fuel) :
    parseFunctionDeclaration tokens (fuel + 1) typeToken nameToken k =
      (if checkAt tokens (k + m + 1) "PUNCTUATION" "\x7b" then
        andThen (parseBlock tokens fuel (k + m + 1 + 1)) fun body k' =>
          .ok (.mk "FUNCTION_DECLARATION" nameToken.value
            [some (.mk "TYPE" typeToken.value []), some (.mk "PARAMETERS" "" []), some body], k')
      else
        .ok (.mk "FUNCTION_DECLARATION" nameToken.value
          [some (.mk "TYPE" typeToken.value []), some (.mk "PARAMETERS" "" [])], k + m + 1)) ∧
    compile "int f(a)\x7b\x7d" = .ok (.mk "PROGRAM" ""
      [some (.mk "FUNCTION_DECLARATION" "f" [some (.mk "TYPE" "int" []),
        some (.mk "PARAMETERS" "" []), some (.mk "BLOCK" "" [])])]) ∧
    compile "int f((a)\x7b\x7d" = .ok (.mk "PROGRAM" ""
      [some (.mk "FUNCTION_DECLARATION" "f" [some (.mk "TYPE" "int" []),
        some (.mk "PARAMETERS" "" []), some (.mk "BLOCK" "" [])])]) := by
  refine ⟨?_, rfl, rfl⟩
  have hlt : k + m < tokens.length := checkAt_lt hclose
  have hskip : skipParameters tokens fuel k = .ok ((), k + m + 1) := by
    refine skipParameters_skip tokens m k fuel hfuel ?_ ?_
    · intro j hj
      have hj' : k + j < tokens.length := by omega
      refine ⟨tokens[k + j], List.getElem?_eq_getElem hj', ?_⟩
      rw [← checkAt_of_getElem? (List.getElem?_eq_getElem hj')]
      exact hparams j hj
    · refine ⟨tokens[k + m], List.getElem?_eq_getElem hlt, ?_⟩
      rw [← checkAt_of_getElem? (List.getElem?_eq_getElem hlt)]
      exact hclose
  simp only [parseFunctionDeclaration, Parse.bind_run, hskip, andThen_ok, matchToken_eq]
  by_cases hb : checkAt tokens (k + m + 1) "PUNCTUATION" "\x7b" = true
  · simp only [hb, if_true, Parse.bind_run]
    rfl
  · simp only [hb, Bool.false_eq_true, if_false]
    rfl

/-- The rule of C14 on the tokens of `int f((a)){}` with the cursor after the
first `(`: two tokens are skipped, the declaration ends at the first `)` and
has no body, because the token after it is the second `)`. -/
theorem parseFunctionDeclaration_parameters_witness :
    parseFunctionDeclaration
        [⟨"KEYWORD", "int", 1, 1⟩, ⟨"IDENTIFIER", "f", 1, 5⟩, ⟨"PUNCTUATION", "(", 1, 6⟩,
          ⟨"PUNCTUATION", "(", 1, 7⟩, ⟨"IDENTIFIER", "a", 1, 8⟩, ⟨"PUNCTUATION", ")", 1, 9⟩,
          ⟨"PUNCTUATION", ")", 1, 10⟩, ⟨"PUNCTUATION", "\x7b", 1, 11⟩,
          ⟨"PUNCTUATION", "\x7d", 1, 12⟩] (20 + 1)
        ⟨"KEYWORD", "int", 1, 1⟩ ⟨"IDENTIFIER", "f", 1, 5⟩ 3 =
      .ok (.mk "FUNCTION_DECLARATION" "f"
        [some (.mk "TYPE" "int" []), some (.mk "PARAMETERS" "" [])], 3 + 2 + 1) :=
  (parseFunctionDeclaration_parameters
    [⟨"KEYWORD", "int", 1, 1⟩, ⟨"IDENTIFIER", "f", 1, 5⟩, ⟨"PUNCTUATION", "(", 1, 6⟩,
      ⟨"PUNCTUATION", "(", 1, 7⟩, ⟨"IDENTIFIER", "a", 1, 8⟩, ⟨"PUNCTUATION", ")", 1, 9⟩,
      ⟨"PUNCTUATION", ")", 1, 10⟩, ⟨"PUNCTUATION", "\x7b", 1, 11⟩,
      ⟨"PUNCTUATION", "\x7d", 1, 12⟩]
    3 2 20 ⟨"KEYWORD", "int", 1, 1⟩ ⟨"IDENTIFIER", "f", 1, 5⟩ (by decide) (by decide)
    (by decide)).1

/-- C14 as stated fails: on the tokens of `int f((a)){}` the declaration ends
at the first `)` (cursor 6) with the children `TYPE` and `PARAMETERS` and
without a `BLOCK`, and `parse` fails on the second `)`. -/
theorem parse_nested_parentheses_counterexample :
    tokenize "int f((a))\x7b\x7d" = .ok
        [⟨"KEYWORD", "int", 1, 1⟩, ⟨"IDENTIFIER", "f", 1, 5⟩, ⟨"PUNCTUATION", "(", 1, 6⟩,
          ⟨"PUNCTUATION", "(", 1, 7⟩, ⟨"IDENTIFIER", "a", 1, 8⟩, ⟨"PUNCTUATION", ")", 1, 9⟩,
          ⟨"PUNCTUATION", ")", 1, 10⟩, ⟨"PUNCTUATION", "\x7b", 1, 11⟩,
          ⟨"PUNCTUATION", "\x7d", 1, 12⟩] ∧
    parseDeclaration
        [⟨"KEYWORD", "int", 1, 1⟩, ⟨"IDENTIFIER", "f", 1, 5⟩, ⟨"PUNCTUATION", "(", 1, 6⟩,
          ⟨"PUNCTUATION", "(", 1, 7⟩, ⟨"IDENTIFIER", "a", 1, 8⟩, ⟨"PUNCTUATION", ")", 1, 9⟩,
          ⟨"PUNCTUATION", ")", 1, 10⟩, ⟨"PUNCTUATION", "\x7b", 1, 11⟩,
          ⟨"PUNCTUATION", "\x7d", 1, 12⟩] 40 0 =
      .ok (some (.mk "FUNCTION_DECLARATION" "f"
        [some (.mk "TYPE" "int" []), some (.mk "PARAMETERS" "" [])]), 6) ∧
    parse
        [⟨"KEYWORD", "int", 1, 1⟩, ⟨"IDENTIFIER", "f", 1, 5⟩, ⟨"PUNCTUATION", "(", 1, 6⟩,
          ⟨"PUNCTUATION", "(", 1, 7⟩, ⟨"IDENTIFIER", "a", 1, 8⟩, ⟨"PUNCTUATION", ")", 1, 9⟩,
          ⟨"PUNCTUATION", ")", 1, 10⟩, ⟨"PUNCTUATION", "\x7b", 1, 11⟩,
          ⟨"PUNCTUATION", "\x7d", 1, 12⟩] =
      .error (.runtimeError "Expected expression") :=
  ⟨by decide, rfl, rfl⟩

/-! ## Errors and positions -/

/-- C17: Four failures carry no line and no column: the unclosed multi-line
comment of `/* a`, the missing expression of `;`, the assignment target of
`1 = 2;` and the end of input inside the parameters of `int f(`. The failure
of `consume` on `x` and the unexpected character of `@` do carry them. -/
theorem errors_without_position :
    compile "/* a" = .error (.runtimeError "Unclosed multi-line comment") ∧
    compile ";" = .error (.runtimeError "Expected expression") ∧
    compile "1 = 2;" = .error (.runtimeError "Invalid assignment target") ∧
    compile "int f(" = .error (.runtimeError
      "Unexpected end of file while parsing function parameters") ∧
    compile "x" = .error (.runtimeError "Expected ';' after expression at line 1, column 1") ∧
    compile "@" = .error (.runtimeError "Unexpected character '@' at line 1, column 1") :=
  ⟨rfl, rfl, rfl, rfl, rfl, rfl⟩

/-! ## Comments inside blocks -/

/-- C18: A comment directly before the closing `}` of a block makes `parse`
fail with "Expected expression", while the same text without the comment
parses: `{ /* c */ }` against `{ }`, and `int main(){return 0; // c` followed
by a line break and `}` against `int main(){return 0;}`. A comment directly
after the `{` and before a statement is skipped. -/
theorem parse_comment_before_closing_brace :
    compile "\x7b /* c */ \x7d" = .error (.runtimeError "Expected expression") ∧
    compile "\x7b \x7d" = .ok (.mk "PROGRAM" "" [some (.mk "BLOCK" "" [])]) ∧
    compile "int main()\x7breturn 0; // c\n\x7d" =
      .error (.runtimeError "Expected expression") ∧
    compile "int main()\x7breturn 0;\x7d" = .ok (.mk "PROGRAM" ""
      [some (.mk "FUNCTION_DECLARATION" "main" [some (.mk "TYPE" "int" []),
        some (.mk "PARAMETERS" "" []),
        some (.mk "BLOCK" "" [some (.mk "RETURN_STATEMENT" ""
          [some (.mk "LITERAL" "0" [])])])])]) ∧
    compile "\x7b /* c */ x; \x7d" = .ok (.mk "PROGRAM" ""
      [some (.mk "BLOCK" "" [some (.mk "IDENTIFIER" "x" [])])]) ∧
    compile "\x7b x; \x7d" = .ok (.mk "PROGRAM" ""
      [some (.mk "BLOCK" "" [some (.mk "IDENTIFIER" "x" [])])]) :=
  ⟨rfl, rfl, rfl, rfl, rfl, rfl⟩

/-! ## Termination and progress -/

theorem good_ok {α : Type} {n lo : Nat} {s : Prop} {a : α} {k : Nat}
    (hlo : lo ≤ k) (hn : k ≤ n) : Good n lo s (.ok (a, k)) := ⟨hlo, hn⟩

theorem good_thrown {α : Type} {n lo : Nat} {s : Prop} (what : String) :
    Good n lo s (.error (.runtimeError what) : Except Failure (α × Nat)) := trivial

theorem good_exhausted {α : Type} {n lo : Nat} {s : Prop} (hs : ¬ s) :
    Good n lo s (.error .fuelExhausted : Except Failure (α × Nat)) := hs

theorem good_mono {α : Type} {n lo lo' : Nat} {s s' : Prop} {r : Except Failure (α × Nat)}
    (h : Good n lo s r) (hlo : lo' ≤ lo) (hs : s' → s) : Good n lo' s' r := by
  match r, h with
  | .ok (_, k), h => exact ⟨le_trans hlo h.1, h.2⟩
  | .error (.runtimeError _), _ => trivial
  | .error .fuelExhausted, h => exact fun h' => h (hs h')

theorem good_andThen {α β : Type} {n lo lo1 : Nat} {s s1 : Prop}
    {r : Except Failure (α × Nat)} {f : α → Nat → Except Failure (β × Nat)}
    (h : Good n lo1 s1 r) (hs : s → s1)
    (hf : ∀ a k, lo1 ≤ k → k ≤ n → Good n lo s (f a k)) :
    Good n lo s (andThen r f) := by
  match r, h with
  | .ok (a, k), h => exact hf a k h.1 h.2
  | .error (.runtimeError _), _ => trivial
  | .error .fuelExhausted, h => exact fun h' => h (hs h')

theorem andThen_assoc {α β γ : Type} (r : Except Failure (α × Nat))
    (f : α → Nat → Except Failure (β × Nat)) (g : β → Nat → Except Failure (γ × Nat)) :
    andThen (andThen r f) g = andThen r fun a k => andThen (f a k) g := by
  match r with
  | .ok (a, k) => rfl
  | .error e => rfl

theorem good_matchToken {β : Type} {tokens : List Token} {lo : Nat} {s : Prop}
    {type value : String} {k : Nat} {f : Bool → Nat → Except Failure (β × Nat)}
    (ht : k < tokens.length → Good tokens.length lo s (f true (k + 1)))
    (hf : Good tokens.length lo s (f false k)) :
    Good tokens.length lo s (andThen (matchToken tokens type value k) f) := by
  rw [matchToken_eq]
  cases hc : checkAt tokens k type value with
  | true => exact ht (checkAt_lt hc)
  | false => exact hf

theorem good_matchAny {β : Type} {tokens : List Token} {lo : Nat} {s : Prop}
    {type : String} {values : List String} {k : Nat}
    {f : Bool → Nat → Except Failure (β × Nat)}
    (ht : k < tokens.length → Good tokens.length lo s (f true (k + 1)))
    (hf : Good tokens.length lo s (f false k)) :
    Good tokens.length lo s (andThen (matchAny tokens type values k) f) := by
  rw [matchAny_eq]
  cases hc : checkAnyAt tokens k type values with
  | true => exact ht (checkAnyAt_lt hc)
  | false => exact hf

theorem good_check {β : Type} {tokens : List Token} {lo : Nat} {s : Prop}
    {type value : String} {k : Nat} {f : Bool → Nat → Except Failure (β × Nat)}
    (ht : k < tokens.length → Good tokens.length lo s (f true k))
    (hf : Good tokens.length lo s (f false k)) :
    Good tokens.length lo s (andThen (check tokens type value k) f) := by
  rw [check_eq]
  cases hc : checkAt tokens k type value with
  | true => exact ht (checkAt_lt hc)
  | false => exact hf

theorem good_isAtEnd {β : Type} {tokens : List Token} {lo : Nat} {s : Prop}
    {k : Nat} {f : Bool → Nat → Except Failure (β × Nat)}
    (ht : tokens.length ≤ k → Good tokens.length lo s (f true k))
    (hf : k < tokens.length → Good tokens.length lo s (f false k)) :
    Good tokens.length lo s (andThen (isAtEnd tokens k) f) := by
  rw [isAtEnd_eq]
  by_cases hk : tokens.length ≤ k
  · simpa [andThen, hk] using ht hk
  · simpa [andThen, hk] using hf (by omega)

theorem good_consume {β : Type} {tokens : List Token} (hne : tokens ≠ []) {lo : Nat}
    {s : Prop} {type value message : String} {k : Nat}
    {f : Token → Nat → Except Failure (β × Nat)}
    (h : ∀ t, k < tokens.length → Good tokens.length lo s (f t (k + 1))) :
    Good tokens.length lo s (andThen (consume tokens type value message k) f) := by
  cases hc : checkAt tokens k type value with
  | true =>
    obtain ⟨t, -, ht⟩ := consume_of_checkAt hc message
    rw [ht]
    exact h t (checkAt_lt hc)
  | false =>
    obtain ⟨what, hw⟩ := consume_of_not_checkAt hne hc message
    rw [hw]
    trivial

theorem good_previous {β : Type} {tokens : List Token} {lo : Nat} {s : Prop} {k : Nat}
    {f : Token → Nat → Except Failure (β × Nat)} (hk : k < tokens.length)
    (h : ∀ t, Good tokens.length lo s (f t (k + 1))) :
    Good tokens.length lo s (andThen (previous tokens (k + 1)) f) := by
  rw [previous_succ (List.getElem?_eq_getElem hk)]
  exact h _

theorem good_advance {β : Type} {tokens : List Token} {lo : Nat} {s : Prop} {k : Nat}
    {f : Token → Nat → Except Failure (β × Nat)} (hk : k < tokens.length)
    (h : ∀ t, Good tokens.length lo s (f t (k + 1))) :
    Good tokens.length lo s (andThen (advance tokens k) f) := by
  rw [advance_of_getElem? (List.getElem?_eq_getElem hk)]
  exact h _

theorem skipComments_good (tokens : List Token) (fuel : Nat) :
    ∀ k, k ≤ tokens.length →
      Good tokens.length k (32 * (tokens.length - k) + 1 ≤ fuel) (skipComments tokens fuel k) := by
  induction fuel with
  | zero => intro k _; exact good_exhausted (by omega)
  | succ fuel ih =>
    intro k hk
    simp only [skipComments, Parse.bind_run]
    refine good_matchToken (fun hlt => ?_) ?_
    · simp only [if_true]
      exact good_mono (ih (k + 1) hlt) (by omega) (by omega)
    · simp only [Bool.false_eq_true, if_false]
      exact good_ok (le_refl _) hk

theorem skipParameters_good (tokens : List Token) (fuel : Nat) :
    ∀ k, k ≤ tokens.length →
      Good tokens.length k (32 * (tokens.length - k) + 1 ≤ fuel)
        (skipParameters tokens fuel k) := by
  induction fuel with
  | zero => intro k _; exact good_exhausted (by omega)
  | succ fuel ih =>
    intro k hk
    simp only [skipParameters, Parse.bind_run]
    refine good_matchToken (fun hlt => ?_) ?_
    · simp only [if_true]
      exact good_ok (by omega) hlt
    · simp only [Bool.false_eq_true, if_false, Parse.bind_run]
      refine good_isAtEnd (fun _ => ?_) (fun hlt => ?_)
      · simp only [if_true]
        exact good_thrown _
      · simp only [Bool.false_eq_true, if_false, Parse.bind_run]
        refine good_advance hlt (fun t => ?_)
        exact good_mono (ih (k + 1) hlt) (by omega) (by omega)


theorem parsePrimary_good {tokens : List Token} (hne : tokens ≠ []) {fuel : Nat}
    (ih : AllGood tokens fuel) (k : Nat) (_ : k ≤ tokens.length) :
    Good tokens.length (k + 1) (32 * (tokens.length - k) + 1 ≤ fuel + 1)
      (parsePrimary tokens (fuel + 1) k) := by
  simp only [parsePrimary, Parse.bind_run]
  refine good_matchToken (fun hlt => ?_) ?_
  · simp only [if_true, Parse.bind_run]
    exact good_previous hlt fun t => good_ok (le_refl _) hlt
  · simp only [Bool.false_eq_true, if_false, Parse.bind_run]
    refine good_matchToken (fun hlt => ?_) ?_
    · simp only [if_true, Parse.bind_run]
      exact good_previous hlt fun t => good_ok (le_refl _) hlt
    · simp only [Bool.false_eq_true, if_false, Parse.bind_run]
      refine good_matchToken (fun hlt => ?_) ?_
      · simp only [if_true, Parse.bind_run]
        refine good_andThen (ih.expression (k + 1) hlt) (by omega) fun e k1 h1 hn1 => ?_
        refine good_consume hne fun t hlt1 => ?_
        exact good_ok (by omega) hlt1
      · simp only [Bool.false_eq_true, if_false]
        exact good_thrown _

theorem parseUnary_good {tokens : List Token} {fuel : Nat}
    (ih : AllGood tokens fuel) (k : Nat) (hk : k ≤ tokens.length) :
    Good tokens.length (k + 1) (32 * (tokens.length - k) + 2 ≤ fuel + 1)
      (parseUnary tokens (fuel + 1) k) := by
  simp only [parseUnary, Parse.bind_run]
  refine good_matchAny (fun hlt => ?_) ?_
  · simp only [if_true, Parse.bind_run]
    refine good_previous hlt fun t => ?_
    refine good_andThen (ih.unary (k + 1) hlt) (by omega) fun e k1 h1 hn1 => ?_
    exact good_ok (by omega) hn1
  · simp only [Bool.false_eq_true, if_false]
    exact good_mono (ih.primary k hk) (le_refl _) (by omega)

theorem parseFactorLoop_good {tokens : List Token} {fuel : Nat}
    (ih : AllGood tokens fuel) (e : ASTNode) (k : Nat) (hk : k ≤ tokens.length) :
    Good tokens.length k (32 * (tokens.length - k) + 3 ≤ fuel + 1)
      (parseFactorLoop tokens (fuel + 1) e k) := by
  simp only [parseFactorLoop, Parse.bind_run]
  refine good_matchAny (fun hlt => ?_) ?_
  · simp only [if_true, Parse.bind_run]
    refine good_previous hlt fun t => ?_
    refine good_andThen (ih.unary (k + 1) hlt) (by omega) fun r k1 h1 hn1 => ?_
    exact good_mono (ih.factorLoop _ k1 hn1) (by omega) (by omega)
  · simp only [Bool.false_eq_true, if_false]
    exact good_ok (le_refl _) hk

theorem parseFactor_good {tokens : List Token} {fuel : Nat}
    (ih : AllGood tokens fuel) (k : Nat) (hk : k ≤ tokens.length) :
    Good tokens.length (k + 1) (32 * (tokens.length - k) + 4 ≤ fuel + 1)
      (parseFactor tokens (fuel + 1) k) := by
  simp only [parseFactor, Parse.bind_run]
  refine good_andThen (ih.unary k hk) (by omega) fun r k1 h1 hn1 => ?_
  exact good_mono (ih.factorLoop _ k1 hn1) (by omega) (by omega)


theorem parseTermLoop_good {tokens : List Token} {fuel : Nat}
    (ih : AllGood tokens fuel) (e : ASTNode) (k : Nat) (hk : k ≤ tokens.length) :
    Good tokens.length k (32 * (tokens.length - k) + 5 ≤ fuel + 1)
      (parseTermLoop tokens (fuel + 1) e k) := by
  simp only [parseTermLoop, Parse.bind_run]
  refine good_matchAny (fun hlt => ?_) ?_
  · simp only [if_true, Parse.bind_run]
    refine good_previous hlt fun t => ?_
    refine good_andThen (ih.factor (k + 1) hlt) (by omega) fun r k1 h1 hn1 => ?_
    exact good_mono (ih.termLoop _ k1 hn1) (by omega) (by omega)
  · simp only [Bool.false_eq_true, if_false]
    exact good_ok (le_refl _) hk

theorem parseTerm_good {tokens : List Token} {fuel : Nat}
    (ih : AllGood tokens fuel) (k : Nat) (hk : k ≤ tokens.length) :
    Good tokens.length (k + 1) (32 * (tokens.length - k) + 6 ≤ fuel + 1)
      (parseTerm tokens (fuel + 1) k) := by
  simp only [parseTerm, Parse.bind_run]
  refine good_andThen (ih.factor k hk) (by omega) fun r k1 h1 hn1 => ?_
  exact good_mono (ih.termLoop _ k1 hn1) (by omega) (by omega)

theorem parseComparisonLoop_good {tokens : List Token} {fuel : Nat}
    (ih : AllGood tokens fuel) (e : ASTNode) (k : Nat) (hk : k ≤ tokens.length) :
    Good tokens.length k (32 * (tokens.length - k) + 7 ≤ fuel + 1)
      (parseComparisonLoop tokens (fuel + 1) e k) := by
  simp only [parseComparisonLoop, Parse.bind_run]
  refine good_matchAny (fun hlt => ?_) ?_
  · simp only [if_true, Parse.bind_run]
    refine good_previous hlt fun t => ?_
    refine good_andThen (ih.term (k + 1) hlt) (by omega) fun r k1 h1 hn1 => ?_
    exact good_mono (ih.comparisonLoop _ k1 hn1) (by omega) (by omega)
  · simp only [Bool.false_eq_true, if_false]
    exact good_ok (le_refl _) hk

theorem parseComparison_good {tokens : List Token} {fuel : Nat}
    (ih : AllGood tokens fuel) (k : Nat) (hk : k ≤ tokens.length) :
    Good tokens.length (k + 1) (32 * (tokens.length - k) + 8 ≤ fuel + 1)
      (parseComparison tokens (fuel + 1) k) := by
  simp only [parseComparison, Parse.bind_run]
  refine good_andThen (ih.term k hk) (by omega) fun r k1 h1 hn1 => ?_
  exact good_mono (ih.comparisonLoop _ k1 hn1) (by omega) (by omega)

theorem parseEqualityLoop_good {tokens : List Token} {fuel : Nat}
    (ih : AllGood tokens fuel) (e : ASTNode) (k : Nat) (hk : k ≤ tokens.length) :
    Good tokens.length k (32 * (tokens.length - k) + 9 ≤ fuel + 1)
      (parseEqualityLoop tokens (fuel + 1) e k) := by
  simp only [parseEqualityLoop, Parse.bind_run]
  refine good_matchAny (fun hlt => ?_) ?_
  · simp only [if_true, Parse.bind_run]
    refine good_previous hlt fun t => ?_
    refine good_andThen (ih.comparison (k + 1) hlt) (by omega) fun r k1 h1 hn1 => ?_
    exact good_mono (ih.equalityLoop _ k1 hn1) (by omega) (by omega)
  · simp only [Bool.false_eq_true, if_false]
    exact good_ok (le_refl _) hk

theorem parseEquality_good {tokens : List Token} {fuel : Nat}
    (ih : AllGood tokens fuel) (k : Nat) (hk : k ≤ tokens.length) :
    Good tokens.length (k + 1) (32 * (tokens.length - k) + 10 ≤ fuel + 1)
      (parseEquality tokens (fuel + 1) k) := by
  simp only [parseEquality, Parse.bind_run]
  refine good_andThen (ih.comparison k hk) (by omega) fun r k1 h1 hn1 => ?_
  exact good_mono (ih.equalityLoop _ k1 hn1) (by omega) (by omega)

theorem parseAssignment_good {tokens : List Token} {fuel : Nat}
    (ih : AllGood tokens fuel) (k : Nat) (hk : k ≤ tokens.length) :
    Good tokens.length (k + 1) (32 * (tokens.length - k) + 11 ≤ fuel + 1)
      (parseAssignment tokens (fuel + 1) k) := by
  simp only [parseAssignment, Parse.bind_run]
  refine good_andThen (ih.equality k hk) (by omega) fun left k1 h1 hn1 => ?_
  refine good_matchToken (fun hlt => ?_) ?_
  · simp only [if_true, Parse.bind_run]
    refine good_andThen (ih.assignment (k1 + 1) hlt) (by omega) fun right k2 h2 hn2 => ?_
    split
    · exact good_ok (by omega) hn2
    · exact good_thrown _
  · simp only [Bool.false_eq_true, if_false]
    exact good_ok h1 hn1

theorem parseExpression_good {tokens : List Token} {fuel : Nat}
    (ih : AllGood tokens fuel) (k : Nat) (hk : k ≤ tokens.length) :
    Good tokens.length (k + 1) (32 * (tokens.length - k) + 12 ≤ fuel + 1)
      (parseExpression tokens (fuel + 1) k) := by
  simp only [parseExpression]
  exact good_mono (ih.assignment k hk) (le_refl _) (by omega)

theorem parseExpressionStatement_good {tokens : List Token} (hne : tokens ≠ []) {fuel : Nat}
    (ih : AllGood tokens fuel) (k : Nat) (hk : k ≤ tokens.length) :
    Good tokens.length (k + 1) (32 * (tokens.length - k) + 13 ≤ fuel + 1)
      (parseExpressionStatement tokens (fuel + 1) k) := by
  simp only [parseExpressionStatement, Parse.bind_run]
  refine good_andThen (ih.expression k hk) (by omega) fun e k1 h1 hn1 => ?_
  refine good_consume hne fun t hlt => ?_
  exact good_ok (by omega) hlt

theorem parseReturnStatement_good {tokens : List Token} (hne : tokens ≠ []) {fuel : Nat}
    (ih : AllGood tokens fuel) (k : Nat) (hk : k ≤ tokens.length) :
    Good tokens.length (k + 1) (32 * (tokens.length - k) + 13 ≤ fuel + 1)
      (parseReturnStatement tokens (fuel + 1) k) := by
  simp only [parseReturnStatement, Parse.bind_run]
  refine good_check (fun hlt => ?_) ?_
  · simp only [Bool.not_true, Bool.false_eq_true, if_false, Parse.bind_run]
    refine good_consume hne fun t hlt1 => ?_
    exact good_ok (le_refl _) hlt1
  · simp only [Bool.not_false, if_true, Parse.bind_run]
    refine good_andThen (ih.expression k hk) (by omega) fun e k1 h1 hn1 => ?_
    refine good_consume hne fun t hlt => ?_
    exact good_ok (by omega) hlt

theorem parseVariableDeclaration_good {tokens : List Token} (hne : tokens ≠ []) {fuel : Nat}
    (ih : AllGood tokens fuel) (typeToken nameToken : Token) (k : Nat)
    (_ : k ≤ tokens.length) :
    Good tokens.length (k + 1) (32 * (tokens.length - k) + 13 ≤ fuel + 1)
      (parseVariableDeclaration tokens (fuel + 1) typeToken nameToken k) := by
  simp only [parseVariableDeclaration, Parse.bind_run]
  refine good_matchToken (fun hlt => ?_) ?_
  · simp only [if_true, Parse.bind_run]
    refine good_andThen (ih.expression (k + 1) hlt) (by omega) fun e k1 h1 hn1 => ?_
    refine good_consume hne fun t hlt1 => ?_
    exact good_ok (by omega) hlt1
  · simp only [Bool.false_eq_true, if_false, Parse.bind_run]
    refine good_consume hne fun t hlt1 => ?_
    exact good_ok (le_refl _) hlt1

theorem parseIfStatement_good {tokens : List Token} (hne : tokens ≠ []) {fuel : Nat}
    (ih : AllGood tokens fuel) (k : Nat) (_ : k ≤ tokens.length) :
    Good tokens.length (k + 1) (32 * (tokens.length - k) + 13 ≤ fuel + 1)
      (parseIfStatement tokens (fuel + 1) k) := by
  simp only [parseIfStatement, Parse.bind_run]
  refine good_consume hne fun t hlt => ?_
  refine good_andThen (ih.expression (k + 1) hlt) (by omega) fun e k1 h1 hn1 => ?_
  refine good_consume hne fun t1 hlt1 => ?_
  refine good_andThen (ih.statement (k1 + 1) hlt1) (by omega) fun b k2 h2 hn2 => ?_
  refine good_matchToken (fun hlt2 => ?_) ?_
  · simp only [if_true, Parse.bind_run]
    refine good_andThen (ih.statement (k2 + 1) hlt2) (by omega) fun b3 k3 h3 hn3 => ?_
    exact good_ok (by omega) hn3
  · simp only [Bool.false_eq_true, if_false]
    exact good_ok (by omega) hn2

theorem parseWhileStatement_good {tokens : List Token} (hne : tokens ≠ []) {fuel : Nat}
    (ih : AllGood tokens fuel) (k : Nat) (_ : k ≤ tokens.length) :
    Good tokens.length (k + 1) (32 * (tokens.length - k) + 13 ≤ fuel + 1)
      (parseWhileStatement tokens (fuel + 1) k) := by
  simp only [parseWhileStatement, Parse.bind_run]
  refine good_consume hne fun t hlt => ?_
  refine good_andThen (ih.expression (k + 1) hlt) (by omega) fun e k1 h1 hn1 => ?_
  refine good_consume hne fun t1 hlt1 => ?_
  refine good_andThen (ih.statement (k1 + 1) hlt1) (by omega) fun b k2 h2 hn2 => ?_
  exact good_ok (by omega) hn2

theorem parseForInit_good {tokens : List Token} (hne : tokens ≠ []) {fuel : Nat}
    (ih : AllGood tokens fuel) (k : Nat) (hk : k ≤ tokens.length) :
    Good tokens.length (k + 1) (32 * (tokens.length - k) + 14 ≤ fuel + 1)
      (parseForInit tokens (fuel + 1) k) := by
  simp only [parseForInit, Parse.bind_run]
  refine good_check (fun hlt => ?_) ?_
  · simp only [Bool.not_true, Bool.false_eq_true, if_false, Parse.bind_run]
    exact good_advance hlt fun t => good_ok (le_refl _) hlt
  · simp only [Bool.not_false, if_true, Parse.bind_run]
    refine good_matchAny (fun hlt => ?_) ?_
    · simp only [if_true, Parse.bind_run]
      refine good_previous hlt fun t => ?_
      refine good_matchToken (fun hlt1 => ?_) ?_
      · simp only [if_true, Parse.bind_run]
        refine good_previous hlt1 fun t1 => ?_
        refine good_andThen (ih.variableDeclaration t t1 (k + 1 + 1) hlt1) (by omega)
          fun v k1 h1 hn1 => ?_
        exact good_ok (by omega) hn1
      · simp only [Bool.false_eq_true, if_false]
        exact good_ok (le_refl _) hlt
    · simp only [Bool.false_eq_true, if_false, Parse.bind_run]
      refine good_andThen (ih.expression k hk) (by omega) fun e k1 h1 hn1 => ?_
      refine good_consume hne fun t hlt => ?_
      exact good_ok (by omega) hlt


theorem parseForStatement_good {tokens : List Token} (hne : tokens ≠ []) {fuel : Nat}
    (ih : AllGood tokens fuel) (k : Nat) (_ : k ≤ tokens.length) :
    Good tokens.length (k + 1) (32 * (tokens.length - k) + 15 ≤ fuel + 1)
      (parseForStatement tokens (fuel + 1) k) := by
  simp only [parseForStatement, Parse.bind_run]
  refine good_consume hne fun t hlt => ?_
  refine good_andThen (ih.forInit (k + 1) hlt) (by omega) fun i k1 h1 hn1 => ?_
  refine good_check (fun hlt1 => ?_) ?_
  · simp only [Bool.not_true, Bool.false_eq_true, if_false, Parse.bind_run, Parse.pure_apply,
      andThen_ok]
    refine good_consume hne fun t1 hlt2 => ?_
    refine good_check (fun hlt3 => ?_) ?_
    · simp only [Bool.not_true, Bool.false_eq_true, if_false, Parse.bind_run, Parse.pure_apply,
        andThen_ok]
      refine good_consume hne fun t3 hlt4 => ?_
      refine good_andThen (ih.statement _ hlt4) (by omega) fun b k5 h5 hn5 => ?_
      exact good_ok (by omega) hn5
    · simp only [Bool.not_false, if_true, Parse.bind_run, andThen_assoc]
      refine good_andThen (ih.expression _ hlt2) (by omega) fun e3 k4 h4 hn4 => ?_
      simp only [Parse.pure_apply, andThen_ok]
      refine good_consume hne fun t3 hlt4 => ?_
      refine good_andThen (ih.statement _ hlt4) (by omega) fun b k5 h5 hn5 => ?_
      exact good_ok (by omega) hn5
  · simp only [Bool.not_false, if_true, Parse.bind_run, andThen_assoc]
    refine good_andThen (ih.expression k1 hn1) (by omega) fun e k2 h2 hn2 => ?_
    simp only [Parse.pure_apply, andThen_ok]
    refine good_consume hne fun t1 hlt2 => ?_
    refine good_check (fun hlt3 => ?_) ?_
    · simp only [Bool.not_true, Bool.false_eq_true, if_false, Parse.bind_run, Parse.pure_apply,
        andThen_ok]
      refine good_consume hne fun t3 hlt4 => ?_
      refine good_andThen (ih.statement _ hlt4) (by omega) fun b k5 h5 hn5 => ?_
      exact good_ok (by omega) hn5
    · simp only [Bool.not_false, if_true, Parse.bind_run, andThen_assoc]
      refine good_andThen (ih.expression _ hlt2) (by omega) fun e3 k4 h4 hn4 => ?_
      simp only [Parse.pure_apply, andThen_ok]
      refine good_consume hne fun t3 hlt4 => ?_
      refine good_andThen (ih.statement _ hlt4) (by omega) fun b k5 h5 hn5 => ?_
      exact good_ok (by omega) hn5

theorem parseStatement_good {tokens : List Token} {fuel : Nat}
    (ih : AllGood tokens fuel) (k : Nat) (hk : k ≤ tokens.length) :
    Good tokens.length (min (k + 1) tokens.length) (32 * (tokens.length - k) + 14 ≤ fuel + 1)
      (parseStatement tokens (fuel + 1) k) := by
  simp only [parseStatement, Parse.bind_run]
  refine good_andThen (skipComments_good tokens fuel k hk) (by omega) fun _ k0 h0 hn0 => ?_
  refine good_isAtEnd (fun hge => ?_) (fun hlt => ?_)
  · simp only [if_true]
    exact good_ok (by omega) hn0
  simp only [Bool.false_eq_true, if_false, Parse.bind_run]
  refine good_matchToken (fun _ => ?_) ?_
  · simp only [if_true, Parse.bind_run]
    refine good_andThen (ih.ifStatement (k0 + 1) hlt) (by omega) fun b k1 h1 hn1 => ?_
    exact good_ok (by omega) hn1
  simp only [Bool.false_eq_true, if_false, Parse.bind_run]
  refine good_matchToken (fun _ => ?_) ?_
  · simp only [if_true, Parse.bind_run]
    refine good_andThen (ih.whileStatement (k0 + 1) hlt) (by omega) fun b k1 h1 hn1 => ?_
    exact good_ok (by omega) hn1
  simp only [Bool.false_eq_true, if_false, Parse.bind_run]
  refine good_matchToken (fun _ => ?_) ?_
  · simp only [if_true, Parse.bind_run]
    refine good_andThen (ih.forStatement (k0 + 1) hlt) (by omega) fun b k1 h1 hn1 => ?_
    exact good_ok (by omega) hn1
  simp only [Bool.false_eq_true, if_false, Parse.bind_run]
  refine good_matchToken (fun _ => ?_) ?_
  · simp only [if_true, Parse.bind_run]
    refine good_andThen (ih.returnStatement (k0 + 1) hlt) (by omega) fun b k1 h1 hn1 => ?_
    exact good_ok (by omega) hn1
  simp only [Bool.false_eq_true, if_false, Parse.bind_run]
  refine good_matchToken (fun _ => ?_) ?_
  · simp only [if_true, Parse.bind_run]
    refine good_andThen (ih.block (k0 + 1) hlt) (by omega) fun b k1 h1 hn1 => ?_
    exact good_ok (by omega) hn1
  simp only [Bool.false_eq_true, if_false, Parse.bind_run]
  refine good_andThen (ih.expressionStatement k0 hn0) (by omega) fun b k1 h1 hn1 => ?_
  exact good_ok (by omega) hn1

theorem parseDeclaration_good {tokens : List Token} {fuel : Nat}
    (ih : AllGood tokens fuel) (k : Nat) (hk : k ≤ tokens.length) :
    Good tokens.length (min (k + 1) tokens.length) (32 * (tokens.length - k) + 15 ≤ fuel + 1)
      (parseDeclaration tokens (fuel + 1) k) := by
  simp only [parseDeclaration, Parse.bind_run]
  refine good_andThen (skipComments_good tokens fuel k hk) (by omega) fun _ k0 h0 hn0 => ?_
  refine good_isAtEnd (fun hge => ?_) (fun hlt => ?_)
  · simp only [if_true]
    exact good_ok (by omega) hn0
  simp only [Bool.false_eq_true, if_false, Parse.bind_run]
  refine good_matchAny (fun _ => ?_) ?_
  · simp only [if_true, Parse.bind_run]
    refine good_previous hlt fun t => ?_
    refine good_matchToken (fun hlt1 => ?_) ?_
    · simp only [if_true, Parse.bind_run]
      refine good_previous hlt1 fun t1 => ?_
      refine good_matchToken (fun hlt2 => ?_) ?_
      · simp only [if_true, Parse.bind_run]
        refine good_andThen (ih.functionDeclaration t t1 _ hlt2) (by omega)
          fun b k1 h1 hn1 => ?_
        exact good_ok (by omega) hn1
      · simp only [Bool.false_eq_true, if_false, Parse.bind_run]
        refine good_andThen (ih.variableDeclaration t t1 _ hlt1) (by omega)
          fun b k1 h1 hn1 => ?_
        exact good_ok (by omega) hn1
    · simp only [Bool.false_eq_true, if_false]
      exact good_mono (ih.statement (k0 + 1) hlt) (by omega) (by omega)
  · simp only [Bool.false_eq_true, if_false]
    exact good_mono (ih.statement k0 hn0) (by omega) (by omega)

theorem parseFunctionDeclaration_good {tokens : List Token} {fuel : Nat}
    (ih : AllGood tokens fuel) (typeToken nameToken : Token) (k : Nat)
    (hk : k ≤ tokens.length) :
    Good tokens.length k (32 * (tokens.length - k) + 2 ≤ fuel + 1)
      (parseFunctionDeclaration tokens (fuel + 1) typeToken nameToken k) := by
  simp only [parseFunctionDeclaration, Parse.bind_run]
  refine good_andThen (skipParameters_good tokens fuel k hk) (by omega) fun _ k0 h0 hn0 => ?_
  refine good_matchToken (fun hlt => ?_) ?_
  · simp only [if_true, Parse.bind_run]
    refine good_andThen (ih.block (k0 + 1) hlt) (by omega) fun b k1 h1 hn1 => ?_
    exact good_ok (by omega) hn1
  · simp only [Bool.false_eq_true, if_false]
    exact good_ok h0 hn0

theorem parseBlockLoop_good {tokens : List Token} {fuel : Nat}
    (ih : AllGood tokens fuel) (children : List (Option ASTNode)) (k : Nat)
    (hk : k ≤ tokens.length) :
    Good tokens.length k (32 * (tokens.length - k) + 16 ≤ fuel + 1)
      (parseBlockLoop tokens (fuel + 1) children k) := by
  simp only [parseBlockLoop, Parse.bind_run]
  refine good_check (fun _ => ?_) ?_
  · simp only [if_true]
    exact good_ok (le_refl _) hk
  simp only [Bool.false_eq_true, if_false, Parse.bind_run]
  refine good_isAtEnd (fun _ => ?_) (fun hlt => ?_)
  · simp only [if_true]
    exact good_ok (le_refl _) hk
  simp only [Bool.false_eq_true, if_false, Parse.bind_run]
  refine good_andThen (ih.declaration k hk) (by omega) fun d k1 h1 hn1 => ?_
  exact good_mono (ih.blockLoop _ k1 hn1) (by omega) (by omega)

theorem parseBlock_good {tokens : List Token} (hne : tokens ≠ []) {fuel : Nat}
    (ih : AllGood tokens fuel) (k : Nat) (hk : k ≤ tokens.length) :
    Good tokens.length (k + 1) (32 * (tokens.length - k) + 17 ≤ fuel + 1)
      (parseBlock tokens (fuel + 1) k) := by
  simp only [parseBlock, Parse.bind_run]
  refine good_andThen (ih.blockLoop [] k hk) (by omega) fun c k1 h1 hn1 => ?_
  refine good_consume hne fun t hlt => ?_
  exact good_ok (by omega) hlt


theorem allGood_zero (tokens : List Token) : AllGood tokens 0 where
  primary := fun _ _ => good_exhausted (by omega)
  unary := fun _ _ => good_exhausted (by omega)
  factorLoop := fun _ _ _ => good_exhausted (by omega)
  factor := fun _ _ => good_exhausted (by omega)
  termLoop := fun _ _ _ => good_exhausted (by omega)
  term := fun _ _ => good_exhausted (by omega)
  comparisonLoop := fun _ _ _ => good_exhausted (by omega)
  comparison := fun _ _ => good_exhausted (by omega)
  equalityLoop := fun _ _ _ => good_exhausted (by omega)
  equality := fun _ _ => good_exhausted (by omega)
  assignment := fun _ _ => good_exhausted (by omega)
  expression := fun _ _ => good_exhausted (by omega)
  expressionStatement := fun _ _ => good_exhausted (by omega)
  returnStatement := fun _ _ => good_exhausted (by omega)
  variableDeclaration := fun _ _ _ _ => good_exhausted (by omega)
  ifStatement := fun _ _ => good_exhausted (by omega)
  whileStatement := fun _ _ => good_exhausted (by omega)
  forInit := fun _ _ => good_exhausted (by omega)
  forStatement := fun _ _ => good_exhausted (by omega)
  statement := fun _ _ => good_exhausted (by omega)
  declaration := fun _ _ => good_exhausted (by omega)
  functionDeclaration := fun _ _ _ _ => good_exhausted (by omega)
  blockLoop := fun _ _ _ => good_exhausted (by omega)
  block := fun _ _ => good_exhausted (by omega)

theorem allGood_succ {tokens : List Token} (hne : tokens ≠ []) {fuel : Nat}
    (ih : AllGood tokens fuel) : AllGood tokens (fuel + 1) where
  primary := parsePrimary_good hne ih
  unary := parseUnary_good ih
  factorLoop := parseFactorLoop_good ih
  factor := parseFactor_good ih
  termLoop := parseTermLoop_good ih
  term := parseTerm_good ih
  comparisonLoop := parseComparisonLoop_good ih
  comparison := parseComparison_good ih
  equalityLoop := parseEqualityLoop_good ih
  equality := parseEquality_good ih
  assignment := parseAssignment_good ih
  expression := parseExpression_good ih
  expressionStatement := parseExpressionStatement_good hne ih
  returnStatement := parseReturnStatement_good hne ih
  variableDeclaration := parseVariableDeclaration_good hne ih
  ifStatement := parseIfStatement_good hne ih
  whileStatement := parseWhileStatement_good hne ih
  forInit := parseForInit_good hne ih
  forStatement := parseForStatement_good hne ih
  statement := parseStatement_good ih
  declaration := parseDeclaration_good ih
  functionDeclaration := parseFunctionDeclaration_good ih
  blockLoop := parseBlockLoop_good ih
  block := parseBlock_good hne ih

theorem allGood {tokens : List Token} (hne : tokens ≠ []) (fuel : Nat) :
    AllGood tokens fuel := by
  induction fuel with
  | zero => exact allGood_zero tokens
  | succ fuel ih => exact allGood_succ hne ih

theorem parseLoop_good {tokens : List Token} (hne : tokens ≠ []) (fuel : Nat) :
    ∀ (children : List (Option ASTNode)) (k : Nat), k ≤ tokens.length →
      Good tokens.length k (32 * (tokens.length - k) + 16 ≤ fuel)
        (parseLoop tokens fuel children k) := by
  induction fuel with
  | zero => intro _ _ _; exact good_exhausted (by omega)
  | succ fuel ih =>
    intro children k hk
    by_cases hlt : k < tokens.length
    · by_cases hc : tokens[k].type = "COMMENT"
      · rw [parseLoop_of_comment tokens fuel children (List.getElem?_eq_getElem hlt) hc]
        exact good_mono (ih children (k + 1) hlt) (by omega) (by omega)
      · rw [parseLoop_of_not_comment tokens fuel children (List.getElem?_eq_getElem hlt) hc]
        refine good_andThen ((allGood hne fuel).declaration k hk) (by omega)
          fun node k1 h1 hn1 => ?_
        exact good_mono (ih _ k1 hn1) (by omega) (by omega)
    · rw [parseLoop_of_atEnd tokens fuel children (by omega)]
      exact good_ok (le_refl _) hk

/-- The function `parse` is total: it returns a tree or a `runtime_error`. -/
theorem parse_total (tokens : List Token) :
    (∃ tree, parse tokens = .ok tree) ∨ ∃ what, parse tokens = .error (.runtimeError what) := by
  by_cases hne : tokens = []
  · subst hne
    exact Or.inl ⟨_, rfl⟩
  · have h := parseLoop_good hne (parseFuel tokens) [] 0 (Nat.zero_le _)
    unfold parse
    match hr : parseLoop tokens (parseFuel tokens) [] 0, h with
    | .ok (children, _), _ => exact Or.inl ⟨_, rfl⟩
    | .error (.runtimeError what), _ => exact Or.inr ⟨what, rfl⟩
    | .error .fuelExhausted, h => exact absurd (by unfold parseFuel; omega) h

theorem parseDeclaration_progress {tokens : List Token} {fuel k : Nat}
    {node : Option ASTNode} {k' : Nat} (hk : k < tokens.length)
    (h : parseDeclaration tokens fuel k = .ok (node, k')) : k < k' ∧ k' ≤ tokens.length := by
  have hne : tokens ≠ [] := by
    intro h0
    rw [h0] at hk
    exact absurd hk (by simp)
  have hg := (allGood hne fuel).declaration k (le_of_lt hk)
  rw [h] at hg
  have := hg.1
  exact ⟨by omega, hg.2⟩

theorem scanToken_failure (c : Char) (tail : List Char) (line column : Nat) (e : Failure)
    (h : scanToken c tail line column = .error e) : ∃ what, e = .runtimeError what := by
  unfold scanToken at h
  split at h
  · split at h <;> simp at h
  split at h
  · simp at h
  split at h
  · split at h
    · simp only [Except.error.injEq] at h
      exact ⟨_, h.symm⟩
    · simp at h
  split at h
  · simp only at h
    split at h <;> simp at h
  split at h
  · simp at h
  split at h
  · split at h
    · split at h <;> simp at h
    · simp at h
  split at h
  · simp at h
  · simp only [Except.error.injEq] at h
    exact ⟨_, h.symm⟩

theorem tokenizeLoop_total (fuel : Nat) :
    ∀ (rest : List Char) (line column : Nat), rest.length ≤ fuel →
      (∃ tokens, tokenizeLoop fuel rest line column = .ok tokens) ∨
      ∃ what, tokenizeLoop fuel rest line column = .error (.runtimeError what) := by
  induction fuel with
  | zero =>
    intro rest line column hlen
    have : rest = [] := List.length_eq_zero.mp (by omega)
    subst this
    exact Or.inl ⟨[], rfl⟩
  | succ fuel ih =>
    intro rest line column hlen
    match rest with
    | [] => exact Or.inl ⟨[], rfl⟩
    | c :: tail =>
      cases hs : scanToken c tail line column with
      | error e =>
        obtain ⟨what, rfl⟩ := scanToken_failure c tail line column e hs
        refine Or.inr ⟨what, ?_⟩
        simp only [tokenizeLoop, hs]
      | ok r =>
        obtain ⟨tok, rest', line', column'⟩ := r
        obtain ⟨consumed, hsplit, hne, -⟩ := scanToken_ok c tail line column tok rest' line'
          column' hs
        have hl : rest'.length ≤ fuel := by
          have h1 := congrArg List.length hsplit
          have h2 : 0 < consumed.length := List.length_pos.mpr hne
          simp only [List.length_cons, List.length_append] at h1 hlen
          omega
        rcases ih rest' line' column' hl with ⟨toks, ht⟩ | ⟨what, hw⟩
        · refine Or.inl ⟨tok.toList ++ toks, ?_⟩
          simp only [tokenizeLoop, hs, ht]
        · refine Or.inr ⟨what, ?_⟩
          simp only [tokenizeLoop, hs, hw]

theorem tokenize_total (input : String) :
    (∃ tokens, tokenize input = .ok tokens) ∨
    ∃ what, tokenize input = .error (.runtimeError what) :=
  tokenizeLoop_total input.length input.data 1 1 (le_refl _)

theorem parseBlockLoop_step (tokens : List Token) (fuel : Nat)
    (children : List (Option ASTNode)) {k : Nat} (hk : k < tokens.length)
    (hb : checkAt tokens k "PUNCTUATION" "\x7d" = false) :
    parseBlockLoop tokens (fuel + 1) children k =
      andThen (parseDeclaration tokens fuel k) fun declaration k' =>
        parseBlockLoop tokens fuel (pushIfNotNull children declaration) k' := by
  have hlen : ¬ tokens.length ≤ k := by omega
  simp only [parseBlockLoop, Parse.bind_run, check_eq, hb, andThen_ok, Bool.false_eq_true,
    if_false, isAtEnd_eq, hlen, decide_False]

/-- C19: The functions `tokenize` and `parse` are total: on every source text
`tokenize` returns a token sequence or a `runtime_error`, and on every token
sequence `parse` returns a tree or a `runtime_error`; the iterations that
`tokenize` is given (one for each character) and the fuel that `parse` is
given (32 units for each token) never run out. An iteration of the top-level
loop at a token skips it if it is a `COMMENT` and calls `parseDeclaration`
otherwise; an iteration of the block loop at a token other than `}` calls
`parseDeclaration`; and a call of `parseDeclaration` at a token that does not
fail returns with the cursor strictly further, within the token sequence. -/
theorem tokenize_parse_total :
    (∀ input : String, (∃ tokens, tokenize input = .ok tokens) ∨
      ∃ what, tokenize input = .error (.runtimeError what)) ∧
    (∀ tokens : List Token, (∃ tree, parse tokens = .ok tree) ∨
      ∃ what, parse tokens = .error (.runtimeError what)) ∧
    (∀ (tokens : List Token) (fuel k : Nat) (node : Option ASTNode) (k' : Nat),
      k < tokens.length → parseDeclaration tokens fuel k = .ok (node, k') →
      k < k' ∧ k' ≤ tokens.length) ∧
    (∀ (tokens : List Token) (fuel : Nat) (children : List (Option ASTNode)) (k : Nat)
      (t : Token), tokens[k]? = some t →
      parseLoop tokens (fuel + 1) children k =
        if t.type = "COMMENT" then parseLoop tokens fuel children (k + 1)
        else andThen (parseDeclaration tokens fuel k) fun node k' =>
          parseLoop tokens fuel (pushIfNotNull children node) k') ∧
    (∀ (tokens : List Token) (fuel : Nat) (children : List (Option ASTNode)) (k : Nat),
      k < tokens.length → checkAt tokens k "PUNCTUATION" "\x7d" = false →
      parseBlockLoop tokens (fuel + 1) children k =
        andThen (parseDeclaration tokens fuel k) fun declaration k' =>
          parseBlockLoop tokens fuel (pushIfNotNull children declaration) k') := by
  refine ⟨tokenize_total, parse_total, ?_, ?_, ?_⟩
  · intro tokens fuel k node k' hk h
    exact parseDeclaration_progress hk h
  · intro tokens fuel children k t ht
    by_cases hc : t.type = "COMMENT"
    · rw [if_pos hc]
      exact parseLoop_of_comment tokens fuel children ht hc
    · rw [if_neg hc]
      exact parseLoop_of_not_comment tokens fuel children ht hc
  · intro tokens fuel children k hk hb
    exact parseBlockLoop_step tokens fuel children hk hb

/-- The progress of C19 on the tokens of `x; y;`: the declaration read at the
cursor 0 ends at the cursor 2. -/
theorem tokenize_parse_total_witness :
    parseDeclaration [⟨"IDENTIFIER", "x", 1, 1⟩, ⟨"PUNCTUATION", ";", 1, 2⟩,
        ⟨"IDENTIFIER", "y", 1, 4⟩, ⟨"PUNCTUATION", ";", 1, 5⟩] 20 0 =
      .ok (some (.mk "IDENTIFIER" "x" []), 2) ∧
    (0 : Nat) < 2 ∧ 2 ≤ [(⟨"IDENTIFIER", "x", 1, 1⟩ : Token), ⟨"PUNCTUATION", ";", 1, 2⟩,
      ⟨"IDENTIFIER", "y", 1, 4⟩, ⟨"PUNCTUATION", ";", 1, 5⟩].length :=
  ⟨rfl, tokenize_parse_total.2.2.1
    [⟨"IDENTIFIER", "x", 1, 1⟩, ⟨"PUNCTUATION", ";", 1, 2⟩, ⟨"IDENTIFIER", "y", 1, 4⟩,
      ⟨"PUNCTUATION", ";", 1, 5⟩]
    20 0 (some (.mk "IDENTIFIER" "x" [])) 2 (by decide) rfl⟩

/-! ## The `for` statement -/

theorem parseForInit_eq (tokens : List Token) (fuel k : Nat) :
    parseForInit tokens (fuel + 1) k =
      if checkAt tokens k "PUNCTUATION" ";" then .ok ([], k + 1)
      else if checkAnyAt tokens k "KEYWORD" ["int", "float", "char"] then
        if checkAt tokens (k + 1) "IDENTIFIER" "" then
          match tokens[k]?, tokens[k + 1]? with
          | some typeToken, some nameToken =>
            andThen (parseVariableDeclaration tokens fuel typeToken nameToken (k + 2))
              fun varNode k' => .ok ([some varNode], k')
          | _, _ => .error .outOfRange
        else .ok ([], k + 1)
      else
        andThen (parseExpression tokens fuel k) fun expr k1 =>
          andThen (consume tokens "PUNCTUATION" ";" "Expected ';' after for initialization" k1)
            fun _ k2 => .ok ([some expr], k2) := by
  simp only [parseForInit, Parse.bind_run, check_eq, andThen_ok]
  by_cases h1 : checkAt tokens k "PUNCTUATION" ";" = true
  · have hlt := checkAt_lt h1
    simp only [h1, Bool.not_true, Bool.false_eq_true, if_false, if_true, Parse.bind_run,
      advance_of_getElem? (List.getElem?_eq_getElem hlt), andThen_ok]
    rfl
  · simp only [h1, Bool.not_false, Bool.false_eq_true, if_false, if_true, Parse.bind_run,
      matchAny_eq, andThen_ok]
    by_cases h2 : checkAnyAt tokens k "KEYWORD" ["int", "float", "char"] = true
    · have hlt := checkAnyAt_lt h2
      simp only [h2, if_true, Parse.bind_run, previous_succ (List.getElem?_eq_getElem hlt),
        andThen_ok, matchToken_eq]
      by_cases h3 : checkAt tokens (k + 1) "IDENTIFIER" "" = true
      · have hlt1 := checkAt_lt h3
        simp only [h3, if_true, Parse.bind_run,
          previous_succ (List.getElem?_eq_getElem hlt1), andThen_ok,
          List.getElem?_eq_getElem hlt, List.getElem?_eq_getElem hlt1]
        rfl
      · simp only [h3, Bool.false_eq_true, if_false]
        rfl
    · simp only [h2, Bool.false_eq_true, if_false, Parse.bind_run]
      rfl

theorem parseForStatement_eq (tokens : List Token) (fuel k : Nat) :
    parseForStatement tokens (fuel + 1) k =
      andThen (consume tokens "PUNCTUATION" "(" "Expected '(' after 'for'" k) fun _ k0 =>
      andThen (parseForInit tokens fuel k0) fun initChildren k1 =>
      andThen (forClause tokens fuel ";" k1) fun condChildren k2 =>
      andThen (consume tokens "PUNCTUATION" ";" "Expected ';' after for condition" k2)
        fun _ k3 =>
      andThen (forClause tokens fuel ")" k3) fun incrChildren k4 =>
      andThen (consume tokens "PUNCTUATION" ")" "Expected ')' after for clauses" k4)
        fun _ k5 =>
      andThen (parseStatement tokens fuel k5) fun body k6 =>
        .ok (.mk "FOR_STATEMENT" "" [some (.mk "FOR_INIT" "" initChildren),
          some (.mk "FOR_CONDITION" "" condChildren),
          some (.mk "FOR_INCREMENT" "" incrChildren), body], k6) := by
  simp only [parseForStatement, Parse.bind_run]
  congr 1
  funext _ k0
  congr 1
  funext i k1
  rw [check_eq, andThen_ok]
  unfold forClause
  by_cases h1 : checkAt tokens k1 "PUNCTUATION" ";" = true
  · simp only [h1, Bool.not_true, Bool.false_eq_true, if_false, if_true, Parse.bind_run,
      Parse.pure_apply, andThen_ok]
    congr 1
    funext _ k3
    rw [check_eq, andThen_ok]
    by_cases h2 : checkAt tokens k3 "PUNCTUATION" ")" = true
    · simp only [h2, Bool.not_true, Bool.false_eq_true, if_false, if_true, Parse.bind_run,
        Parse.pure_apply, andThen_ok]
    · simp only [h2, Bool.not_false, Bool.false_eq_true, if_false, if_true, Parse.bind_run,
        Parse.pure_apply, andThen_ok, andThen_assoc]
  · simp only [h1, Bool.not_false, Bool.false_eq_true, if_false, if_true, Parse.bind_run,
      Parse.pure_apply, andThen_ok, andThen_assoc]
    congr 1
    funext e k2
    congr 1
    funext _ k3
    rw [check_eq, andThen_ok]
    by_cases h2 : checkAt tokens k3 "PUNCTUATION" ")" = true
    · simp only [h2, Bool.not_true, Bool.false_eq_true, if_false, if_true, Parse.bind_run,
        Parse.pure_apply, andThen_ok]
    · simp only [h2, Bool.not_false, Bool.false_eq_true, if_false, if_true, Parse.bind_run,
        Parse.pure_apply, andThen_ok, andThen_assoc]

/-- C15: The rule `parseForStatement` builds `FOR_STATEMENT` with the four
children `FOR_INIT`, `FOR_CONDITION`, `FOR_INCREMENT` and the body, in this
order. `FOR_CONDITION` and `FOR_INCREMENT` have no child when the cursor
stands on the `;` or `)` that ends the clause, and the parsed expression as
their only child otherwise. `FOR_INIT` has no child when the clause is the
`;` alone, the variable declaration when a type keyword and an identifier
start it, and the expression when no type keyword starts it; but a type
keyword that no identifier follows is consumed and leaves `FOR_INIT` without
a child. The two texts of the claim have the trees it gives; the text
`for (int ; ) x;` parses, and its init clause `int` leaves no child. -/
theorem parseForStatement_children :
    (∀ (tokens : List Token) (fuel k : Nat),
      parseForStatement tokens (fuel + 1) k =
        andThen (consume tokens "PUNCTUATION" "(" "Expected '(' after 'for'" k) fun _ k0 =>
        andThen (parseForInit tokens fuel k0) fun initChildren k1 =>
        andThen (forClause tokens fuel ";" k1) fun condChildren k2 =>
        andThen (consume tokens "PUNCTUATION" ";" "Expected ';' after for condition" k2)
          fun _ k3 =>
        andThen (forClause tokens fuel ")" k3) fun incrChildren k4 =>
        andThen (consume tokens "PUNCTUATION" ")" "Expected ')' after for clauses" k4)
          fun _ k5 =>
        andThen (parseStatement tokens fuel k5) fun body k6 =>
          .ok (.mk "FOR_STATEMENT" "" [some (.mk "FOR_INIT" "" initChildren),
            some (.mk "FOR_CONDITION" "" condChildren),
            some (.mk "FOR_INCREMENT" "" incrChildren), body], k6)) ∧
    (∀ (tokens : List Token) (fuel k : Nat),
      parseForInit tokens (fuel + 1) k =
        if checkAt tokens k "PUNCTUATION" ";" then .ok ([], k + 1)
        else if checkAnyAt tokens k "KEYWORD" ["int", "float", "char"] then
          if checkAt tokens (k + 1) "IDENTIFIER" "" then
            match tokens[k]?, tokens[k + 1]? with
            | some typeToken, some nameToken =>
              andThen (parseVariableDeclaration tokens fuel typeToken nameToken (k + 2))
                fun varNode k' => .ok ([some varNode], k')
            | _, _ => .error .outOfRange
          else .ok ([], k + 1)
        else
          andThen (parseExpression tokens fuel k) fun expr k1 =>
            andThen
              (consume tokens "PUNCTUATION" ";" "Expected ';' after for initialization" k1)
              fun _ k2 => .ok ([some expr], k2)) ∧
    compile "for (int i = 0; i < 5; i = i + 1) \x7b x = x + i; \x7d" = .ok (.mk "PROGRAM" ""
      [some (.mk "FOR_STATEMENT" ""
        [some (.mk "FOR_INIT" "" [some (.mk "VARIABLE_DECLARATION" "i"
          [some (.mk "TYPE" "int" []),
            some (.mk "INITIALIZATION" "" [some (.mk "LITERAL" "0" [])])])]),
          some (.mk "FOR_CONDITION" "" [some (.mk "BINARY" "<"
            [some (.mk "IDENTIFIER" "i" []), some (.mk "LITERAL" "5" [])])]),
          some (.mk "FOR_INCREMENT" "" [some (.mk "ASSIGNMENT" "i"
            [some (.mk "BINARY" "+"
              [some (.mk "IDENTIFIER" "i" []), some (.mk "LITERAL" "1" [])])])]),
          some (.mk "BLOCK" "" [some (.mk "ASSIGNMENT" "x"
            [some (.mk "BINARY" "+"
              [some (.mk "IDENTIFIER" "x" []), some (.mk "IDENTIFIER" "i" [])])])])])]) ∧
    compile "for(;;) x;" = .ok (.mk "PROGRAM" ""
      [some (.mk "FOR_STATEMENT" "" [some (.mk "FOR_INIT" "" []),
        some (.mk "FOR_CONDITION" "" []), some (.mk "FOR_INCREMENT" "" []),
        some (.mk "IDENTIFIER" "x" [])])]) ∧
    compile "for (int ; ) x;" = .ok (.mk "PROGRAM" ""
      [some (.mk "FOR_STATEMENT" "" [some (.mk "FOR_INIT" "" []),
        some (.mk "FOR_CONDITION" "" []), some (.mk "FOR_INCREMENT" "" []),
        some (.mk "IDENTIFIER" "x" [])])]) :=
  ⟨parseForStatement_eq, parseForInit_eq, rfl, rfl, rfl⟩

/-! ## The `;` of a variable declaration -/

theorem parseVariableDeclaration_eq_ok {tokens : List Token} {fuel : Nat}
    {typeToken nameToken : Token} {k : Nat} {node : ASTNode} {k' : Nat}
    (h : parseVariableDeclaration tokens fuel typeToken nameToken k = .ok (node, k')) :
    ∃ j, k' = j + 1 ∧ k ≤ j ∧ checkAt tokens j "PUNCTUATION" ";" = true ∧
      ∃ f, fuel = f + 1 ∧
        ((checkAt tokens k "OPERATOR" "=" = false ∧ j = k ∧
            node = .mk "VARIABLE_DECLARATION" nameToken.value
              [some (.mk "TYPE" typeToken.value [])]) ∨
          (checkAt tokens k "OPERATOR" "=" = true ∧
            ∃ e, parseExpression tokens f (k + 1) = .ok (e, j) ∧
              node = .mk "VARIABLE_DECLARATION" nameToken.value
                [some (.mk "TYPE" typeToken.value []),
                  some (.mk "INITIALIZATION" "" [some e])])) := by
  cases fuel with
  | zero => simp [parseVariableDeclaration, Parse.throw_apply] at h
  | succ f =>
    simp only [parseVariableDeclaration, Parse.bind_run, matchToken_eq, andThen_ok] at h
    by_cases hb : checkAt tokens k "OPERATOR" "=" = true
    · simp only [hb, if_true, Parse.bind_run] at h
      obtain ⟨e, j, he, h⟩ := andThen_eq_ok h
      obtain ⟨t, j', hc, h⟩ := andThen_eq_ok h
      obtain ⟨hc1, -, rfl⟩ := consume_eq_ok hc
      simp only [Parse.pure_apply, Except.ok.injEq, Prod.mk.injEq] at h
      obtain ⟨rfl, rfl⟩ := h
      have hlt := checkAt_lt hb
      have hne : tokens ≠ [] := by
        intro h0
        rw [h0] at hlt
        exact absurd hlt (by simp)
      have hg := (allGood hne f).expression (k + 1) hlt
      rw [he] at hg
      have := hg.1
      exact ⟨j, rfl, by omega, hc1, f, rfl, Or.inr ⟨hb, e, he, rfl⟩⟩
    · simp only [hb, Bool.false_eq_true, if_false, Parse.bind_run] at h
      obtain ⟨t, j', hc, h⟩ := andThen_eq_ok h
      obtain ⟨hc1, -, rfl⟩ := consume_eq_ok hc
      simp only [Parse.pure_apply, Except.ok.injEq, Prod.mk.injEq] at h
      obtain ⟨rfl, rfl⟩ := h
      exact ⟨k, rfl, le_refl _, hc1, f, rfl, Or.inl ⟨by simpa using hb, rfl, rfl⟩⟩

/-- C20, amended: When the init clause of a `for` statement is a variable
declaration (the cursor `i` stands on `int`, `float` or `char` and an
identifier follows), the variable-declaration rule, called at the cursor
`i + 2`, consumes the `;` that ends the clause itself: the cursor `k'` that it
returns stands directly after a `;`; the init clause of the `for` rule returns
this cursor unchanged, with the declaration as its only child. On the
expression path the `for` rule consumes the `;` itself, after the expression. -/
theorem parseVariableDeclaration_consumes_semicolon (tokens : List Token) (fuel i : Nat)
    (typeToken nameToken : Token) (node : ASTNode) (k' : Nat)
    (hsemi : checkAt tokens i "PUNCTUATION" ";" = false)
    (hkeyword : checkAnyAt tokens i "KEYWORD" ["int", "float", "char"] = true)
    (htype : tokens[i]? = some typeToken)
    (hname : tokens[i + 1]? = some nameToken)
    (hid : checkAt tokens (i + 1) "IDENTIFIER" "" = true)
    (h : parseVariableDeclaration tokens fuel typeToken nameToken (i + 2) = .ok (node, k')) :
    (∃ j, i + 2 ≤ j ∧ k' = j + 1 ∧ checkAt tokens j "PUNCTUATION" ";" = true) ∧
    parseForInit tokens (fuel + 1) i = .ok ([some node], k') ∧
    ∀ (fuel' k : Nat), checkAt tokens k "PUNCTUATION" ";" = false →
      checkAnyAt tokens k "KEYWORD" ["int", "float", "char"] = false →
      parseForInit tokens (fuel' + 1) k =
        andThen (parseExpression tokens fuel' k) fun expr k1 =>
          andThen
            (consume tokens "PUNCTUATION" ";" "Expected ';' after for initialization" k1)
            fun _ k2 => .ok ([some expr], k2) := by
  refine ⟨?_, ?_, ?_⟩
  · obtain ⟨j, hk, hle, hc, -⟩ := parseVariableDeclaration_eq_ok h
    exact ⟨j, hle, hk, hc⟩
  · rw [parseForInit_eq]
    simp only [hsemi, hkeyword, hid, htype, hname, Bool.false_eq_true, if_false, if_true, h,
      andThen_ok]
  · intro fuel' k h1 h2
    rw [parseForInit_eq]
    simp only [h1, h2, Bool.false_eq_true, if_false]

/-- The variable declaration of `for (int i = 0; i < 5; i = i + 1) x;`, read
at the cursor 4 (the token `=`), returns the cursor 7, directly after the `;`
at index 6, and so does the init clause read at the cursor 2. -/
theorem parseVariableDeclaration_consumes_semicolon_witness :
    (∃ j, 2 + 2 ≤ j ∧ 7 = j + 1 ∧ checkAt
      [⟨"KEYWORD", "for", 1, 1⟩, ⟨"PUNCTUATION", "(", 1, 5⟩, ⟨"KEYWORD", "int", 1, 6⟩,
        ⟨"IDENTIFIER", "i", 1, 10⟩, ⟨"OPERATOR", "=", 1, 12⟩, ⟨"NUMBER", "0", 1, 14⟩,
        ⟨"PUNCTUATION", ";", 1, 15⟩, ⟨"IDENTIFIER", "i", 1, 17⟩, ⟨"OPERATOR", "<", 1, 19⟩,
        ⟨"NUMBER", "5", 1, 21⟩, ⟨"PUNCTUATION", ";", 1, 22⟩, ⟨"IDENTIFIER", "i", 1, 24⟩,
        ⟨"OPERATOR", "=", 1, 26⟩, ⟨"IDENTIFIER", "i", 1, 28⟩, ⟨"OPERATOR", "+", 1, 30⟩,
        ⟨"NUMBER", "1", 1, 32⟩, ⟨"PUNCTUATION", ")", 1, 33⟩, ⟨"IDENTIFIER", "x", 1, 35⟩,
        ⟨"PUNCTUATION", ";", 1, 36⟩] j "PUNCTUATION" ";" = true) ∧
    parseForInit
      [⟨"KEYWORD", "for", 1, 1⟩, ⟨"PUNCTUATION", "(", 1, 5⟩, ⟨"KEYWORD", "int", 1, 6⟩,
        ⟨"IDENTIFIER", "i", 1, 10⟩, ⟨"OPERATOR", "=", 1, 12⟩, ⟨"NUMBER", "0", 1, 14⟩,
        ⟨"PUNCTUATION", ";", 1, 15⟩, ⟨"IDENTIFIER", "i", 1, 17⟩, ⟨"OPERATOR", "<", 1, 19⟩,
        ⟨"NUMBER", "5", 1, 21⟩, ⟨"PUNCTUATION", ";", 1, 22⟩, ⟨"IDENTIFIER", "i", 1, 24⟩,
        ⟨"OPERATOR", "=", 1, 26⟩, ⟨"IDENTIFIER", "i", 1, 28⟩, ⟨"OPERATOR", "+", 1, 30⟩,
        ⟨"NUMBER", "1", 1, 32⟩, ⟨"PUNCTUATION", ")", 1, 33⟩, ⟨"IDENTIFIER", "x", 1, 35⟩,
        ⟨"PUNCTUATION", ";", 1, 36⟩] (40 + 1) 2 =
      .ok ([some (.mk "VARIABLE_DECLARATION" "i" [some (.mk "TYPE" "int" []),
        some (.mk "INITIALIZATION" "" [some (.mk "LITERAL" "0" [])])])], 7) :=
  have h := parseVariableDeclaration_consumes_semicolon
    [⟨"KEYWORD", "for", 1, 1⟩, ⟨"PUNCTUATION", "(", 1, 5⟩, ⟨"KEYWORD", "int", 1, 6⟩,
      ⟨"IDENTIFIER", "i", 1, 10⟩, ⟨"OPERATOR", "=", 1, 12⟩, ⟨"NUMBER", "0", 1, 14⟩,
      ⟨"PUNCTUATION", ";", 1, 15⟩, ⟨"IDENTIFIER", "i", 1, 17⟩, ⟨"OPERATOR", "<", 1, 19⟩,
      ⟨"NUMBER", "5", 1, 21⟩, ⟨"PUNCTUATION", ";", 1, 22⟩, ⟨"IDENTIFIER", "i", 1, 24⟩,
      ⟨"OPERATOR", "=", 1, 26⟩, ⟨"IDENTIFIER", "i", 1, 28⟩, ⟨"OPERATOR", "+", 1, 30⟩,
      ⟨"NUMBER", "1", 1, 32⟩, ⟨"PUNCTUATION", ")", 1, 33⟩, ⟨"IDENTIFIER", "x", 1, 35⟩,
      ⟨"PUNCTUATION", ";", 1, 36⟩]
    40 2 ⟨"KEYWORD", "int", 1, 6⟩ ⟨"IDENTIFIER", "i", 1, 10⟩
    (.mk "VARIABLE_DECLARATION" "i" [some (.mk "TYPE" "int" []),
      some (.mk "INITIALIZATION" "" [some (.mk "LITERAL" "0" [])])]) 7
    (by decide) (by decide) rfl rfl (by decide) rfl
  ⟨h.1, h.2.1⟩

/-- C20 as stated fails: in `for (int i = 0; i < 5; i = i + 1) x;` the `;`
that ends the init clause is the token 6; the variable-declaration rule,
called after the name, returns the cursor 7, which stands on the `i` of the
condition and not on a `;`, and the condition is read from there. -/
theorem parseVariableDeclaration_semicolon_counterexample :
    tokenize "for (int i = 0; i < 5; i = i + 1) x;" = .ok
      [⟨"KEYWORD", "for", 1, 1⟩, ⟨"PUNCTUATION", "(", 1, 5⟩, ⟨"KEYWORD", "int", 1, 6⟩,
        ⟨"IDENTIFIER", "i", 1, 10⟩, ⟨"OPERATOR", "=", 1, 12⟩, ⟨"NUMBER", "0", 1, 14⟩,
        ⟨"PUNCTUATION", ";", 1, 15⟩, ⟨"IDENTIFIER", "i", 1, 17⟩, ⟨"OPERATOR", "<", 1, 19⟩,
        ⟨"NUMBER", "5", 1, 21⟩, ⟨"PUNCTUATION", ";", 1, 22⟩, ⟨"IDENTIFIER", "i", 1, 24⟩,
        ⟨"OPERATOR", "=", 1, 26⟩, ⟨"IDENTIFIER", "i", 1, 28⟩, ⟨"OPERATOR", "+", 1, 30⟩,
        ⟨"NUMBER", "1", 1, 32⟩, ⟨"PUNCTUATION", ")", 1, 33⟩, ⟨"IDENTIFIER", "x", 1, 35⟩,
        ⟨"PUNCTUATION", ";", 1, 36⟩] ∧
    parseVariableDeclaration
      [⟨"KEYWORD", "for", 1, 1⟩, ⟨"PUNCTUATION", "(", 1, 5⟩, ⟨"KEYWORD", "int", 1, 6⟩,
        ⟨"IDENTIFIER", "i", 1, 10⟩, ⟨"OPERATOR", "=", 1, 12⟩, ⟨"NUMBER", "0", 1, 14⟩,
        ⟨"PUNCTUATION", ";", 1, 15⟩, ⟨"IDENTIFIER", "i", 1, 17⟩, ⟨"OPERATOR", "<", 1, 19⟩,
        ⟨"NUMBER", "5", 1, 21⟩, ⟨"PUNCTUATION", ";", 1, 22⟩, ⟨"IDENTIFIER", "i", 1, 24⟩,
        ⟨"OPERATOR", "=", 1, 26⟩, ⟨"IDENTIFIER", "i", 1, 28⟩, ⟨"OPERATOR", "+", 1, 30⟩,
        ⟨"NUMBER", "1", 1, 32⟩, ⟨"PUNCTUATION", ")", 1, 33⟩, ⟨"IDENTIFIER", "x", 1, 35⟩,
        ⟨"PUNCTUATION", ";", 1, 36⟩] 40 ⟨"KEYWORD", "int", 1, 6⟩ ⟨"IDENTIFIER", "i", 1, 10⟩ 4 =
      .ok (.mk "VARIABLE_DECLARATION" "i" [some (.mk "TYPE" "int" []),
        some (.mk "INITIALIZATION" "" [some (.mk "LITERAL" "0" [])])], 7) ∧
    checkAt
      [⟨"KEYWORD", "for", 1, 1⟩, ⟨"PUNCTUATION", "(", 1, 5⟩, ⟨"KEYWORD", "int", 1, 6⟩,
        ⟨"IDENTIFIER", "i", 1, 10⟩, ⟨"OPERATOR", "=", 1, 12⟩, ⟨"NUMBER", "0", 1, 14⟩,
        ⟨"PUNCTUATION", ";", 1, 15⟩, ⟨"IDENTIFIER", "i", 1, 17⟩, ⟨"OPERATOR", "<", 1, 19⟩,
        ⟨"NUMBER", "5", 1, 21⟩, ⟨"PUNCTUATION", ";", 1, 22⟩, ⟨"IDENTIFIER", "i", 1, 24⟩,
        ⟨"OPERATOR", "=", 1, 26⟩, ⟨"IDENTIFIER", "i", 1, 28⟩, ⟨"OPERATOR", "+", 1, 30⟩,
        ⟨"NUMBER", "1", 1, 32⟩, ⟨"PUNCTUATION", ")", 1, 33⟩, ⟨"IDENTIFIER", "x", 1, 35⟩,
        ⟨"PUNCTUATION", ";", 1, 36⟩] 7 "PUNCTUATION" ";" = false :=
  ⟨by decide, rfl, by decide⟩

/-! ## Precedence of the binary operators -/

theorem checkAnyAt_of_getElem? {tokens : List Token} {k : Nat} {t : Token}
    (h : tokens[k]? = some t) (type : String) (values : List String) :
    checkAnyAt tokens k type values = values.any fun v => t.matches type v := by
  unfold checkAnyAt
  congr 1
  funext v
  exact checkAt_of_getElem? h type v

theorem operator_level {tokens : List Token} {k : Nat} {o : String} {l c : Nat}
    (h : tokens[k]? = some ⟨"OPERATOR", o, l, c⟩) (ho : o ∈ binaryOperators) :
    checkAnyAt tokens k "OPERATOR" ["==", "!="] = decide (precedenceLevel o = 1) ∧
    checkAnyAt tokens k "OPERATOR" [">", ">=", "<", "<="] = decide (precedenceLevel o = 2) ∧
    checkAnyAt tokens k "OPERATOR" ["+", "-"] = decide (precedenceLevel o = 3) ∧
    checkAnyAt tokens k "OPERATOR" ["*", "/", "%"] = decide (precedenceLevel o = 4) ∧
    1 ≤ precedenceLevel o ∧ precedenceLevel o ≤ 4 := by
  simp only [checkAnyAt_of_getElem? h]
  simp only [binaryOperators, List.mem_cons, List.mem_singleton, List.not_mem_nil,
    or_false] at ho
  rcases ho with rfl | rfl | rfl | rfl | rfl | rfl | rfl | rfl | rfl | rfl | rfl <;>
    exact ⟨rfl, rfl, rfl, rfl, by decide, by decide⟩


/-- One level of the precedence chain on `a o1 b o2 c ;`: from the results of
the next level `next` on the three operands, the results of the level
`level`, whose loop is `loop` and whose operators are `ops`. -/
theorem precedence_level_step {tokens : List Token} {ops : List String} {X p1 p2 N : Nat}
    {level next : Nat → Nat → Except Failure (ASTNode × Nat)}
    {loop : Nat → ASTNode → Nat → Except Failure (ASTNode × Nat)}
    {a b c : ASTNode} {t1 t2 : Token}
    (hlevel : ∀ f k, level (f + 1) k = andThen (next f k) fun e k' => loop f e k')
    (hstop : ∀ f e k, checkAnyAt tokens k "OPERATOR" ops = false →
      loop (f + 1) e k = .ok (e, k))
    (hstep : ∀ f e k t, checkAnyAt tokens k "OPERATOR" ops = true → tokens[k]? = some t →
      loop (f + 1) e k =
        andThen (next f (k + 1)) fun r k' => loop f (binaryNode t.value e r) k')
    (hN : 1 ≤ N) (h1 : tokens[1]? = some t1) (h3 : tokens[3]? = some t2)
    (c1 : checkAnyAt tokens 1 "OPERATOR" ops = decide (p1 = X))
    (c3 : checkAnyAt tokens 3 "OPERATOR" ops = decide (p2 = X))
    (c5 : checkAnyAt tokens 5 "OPERATOR" ops = false)
    (n0 : ∀ f, N ≤ f → next f 0 = .ok (foldFirst (X + 1) p1 p2 a b c t1.value t2.value))
    (n2 : ∀ f, N ≤ f → next f 2 = .ok (foldSecond (X + 1) p2 b c t2.value))
    (n4 : ∀ f, N ≤ f → next f 4 = .ok (c, 5)) :
    (∀ f, N + 3 ≤ f → level f 0 = .ok (foldFirst X p1 p2 a b c t1.value t2.value)) ∧
    (∀ f, N + 3 ≤ f → level f 2 = .ok (foldSecond X p2 b c t2.value)) ∧
    (∀ f, N + 3 ≤ f → level f 4 = .ok (c, 5)) := by
  -- the loop at the end of the expression
  have l5 : ∀ f e, 1 ≤ f → loop f e 5 = .ok (e, 5) := by
    intro f e hf
    obtain ⟨g, rfl⟩ : ∃ g, f = g + 1 := ⟨f - 1, by omega⟩
    exact hstop g e 5 c5
  -- the loop at the second operator
  have l3 : ∀ f e, N + 1 ≤ f → loop f e 3 =
      if p2 = X then .ok (binaryNode t2.value e c, 5) else .ok (e, 3) := by
    intro f e hf
    obtain ⟨g, rfl⟩ : ∃ g, f = g + 1 := ⟨f - 1, by omega⟩
    by_cases hp : p2 = X
    · rw [if_pos hp, hstep g e 3 t2 (by rw [c3]; exact decide_eq_true hp) h3,
        n4 g (by omega), andThen_ok, l5 _ _ (by omega)]
    · rw [if_neg hp, hstop g e 3 (by rw [c3]; exact decide_eq_false hp)]
  -- the loop at the first operator
  have l1 : ∀ f e, N + 2 ≤ f → loop f e 1 =
      if p1 = X then
        if X + 1 ≤ p2 then .ok (binaryNode t1.value e (binaryNode t2.value b c), 5)
        else if p2 = X then .ok (binaryNode t2.value (binaryNode t1.value e b) c, 5)
        else .ok (binaryNode t1.value e b, 3)
      else .ok (e, 1) := by
    intro f e hf
    obtain ⟨g, rfl⟩ : ∃ g, f = g + 1 := ⟨f - 1, by omega⟩
    by_cases hp : p1 = X
    · rw [if_pos hp, hstep g e 1 t1 (by rw [c1]; exact decide_eq_true hp) h1,
        n2 g (by omega)]
      unfold foldSecond
      by_cases hp2 : X + 1 ≤ p2
      · rw [if_pos hp2, if_pos hp2, andThen_ok, l5 _ _ (by omega)]
      · rw [if_neg hp2, if_neg hp2, andThen_ok, l3 _ _ (by omega)]
    · rw [if_neg hp, hstop g e 1 (by rw [c1]; exact decide_eq_false hp)]
  refine ⟨?_, ?_, ?_⟩
  · intro f hf
    obtain ⟨g, rfl⟩ : ∃ g, f = g + 1 := ⟨f - 1, by omega⟩
    rw [hlevel, n0 g (by omega)]
    unfold foldFirst
    by_cases hlt : p1 < X + 1
    · rw [if_pos hlt, andThen_ok, l1 _ _ (by omega)]
      split_ifs <;> first | rfl | (exfalso; omega)
    · rw [if_neg hlt]
      by_cases hlt2 : p1 < p2
      · rw [if_pos hlt2, if_pos hlt2, andThen_ok, l5 _ _ (by omega)]
        split_ifs <;> first | rfl | (exfalso; omega)
      · rw [if_neg hlt2, if_neg hlt2]
        by_cases hp2 : X + 1 ≤ p2
        · rw [if_pos hp2, andThen_ok, l5 _ _ (by omega)]
          split_ifs <;> first | rfl | (exfalso; omega)
        · rw [if_neg hp2, andThen_ok, l3 _ _ (by omega)]
          split_ifs <;> first | rfl | (exfalso; omega)
  · intro f hf
    obtain ⟨g, rfl⟩ : ∃ g, f = g + 1 := ⟨f - 1, by omega⟩
    rw [hlevel, n2 g (by omega)]
    unfold foldSecond
    by_cases hp2 : X + 1 ≤ p2
    · rw [if_pos hp2, andThen_ok, l5 _ _ (by omega)]
      split_ifs <;> first | rfl | (exfalso; omega)
    · rw [if_neg hp2, andThen_ok, l3 _ _ (by omega)]
      split_ifs <;> first | rfl | (exfalso; omega)
  · intro f hf
    obtain ⟨g, rfl⟩ : ∃ g, f = g + 1 := ⟨f - 1, by omega⟩
    rw [hlevel, n4 g (by omega), andThen_ok, l5 _ _ (by omega)]


theorem parseFactor_eq (tokens : List Token) (f k : Nat) :
    parseFactor tokens (f + 1) k =
      andThen (parseUnary tokens f k) fun e k' => parseFactorLoop tokens f e k' := by
  simp only [parseFactor, Parse.bind_run]

theorem parseFactorLoop_stop (tokens : List Token) (f : Nat) (e : ASTNode) (k : Nat)
    (h : checkAnyAt tokens k "OPERATOR" ["*", "/", "%"] = false) :
    parseFactorLoop tokens (f + 1) e k = .ok (e, k) := by
  simp only [parseFactorLoop, Parse.bind_run, matchAny_eq, h, andThen_ok, Bool.false_eq_true,
    if_false]
  rfl

theorem parseFactorLoop_step (tokens : List Token) (f : Nat) (e : ASTNode) (k : Nat) (t : Token)
    (h : checkAnyAt tokens k "OPERATOR" ["*", "/", "%"] = true) (ht : tokens[k]? = some t) :
    parseFactorLoop tokens (f + 1) e k =
      andThen (parseUnary tokens f (k + 1)) fun r k' =>
        parseFactorLoop tokens f (binaryNode t.value e r) k' := by
  simp only [parseFactorLoop, Parse.bind_run, matchAny_eq, h, andThen_ok, if_true,
    previous_succ ht]
  rfl

theorem parseTerm_eq (tokens : List Token) (f k : Nat) :
    parseTerm tokens (f + 1) k =
      andThen (parseFactor tokens f k) fun e k' => parseTermLoop tokens f e k' := by
  simp only [parseTerm, Parse.bind_run]

theorem parseTermLoop_stop (tokens : List Token) (f : Nat) (e : ASTNode) (k : Nat)
    (h : checkAnyAt tokens k "OPERATOR" ["+", "-"] = false) :
    parseTermLoop tokens (f + 1) e k = .ok (e, k) := by
  simp only [parseTermLoop, Parse.bind_run, matchAny_eq, h, andThen_ok, Bool.false_eq_true,
    if_false]
  rfl

theorem parseTermLoop_step (tokens : List Token) (f : Nat) (e : ASTNode) (k : Nat) (t : Token)
    (h : checkAnyAt tokens k "OPERATOR" ["+", "-"] = true) (ht : tokens[k]? = some t) :
    parseTermLoop tokens (f + 1) e k =
      andThen (parseFactor tokens f (k + 1)) fun r k' =>
        parseTermLoop tokens f (binaryNode t.value e r) k' := by
  simp only [parseTermLoop, Parse.bind_run, matchAny_eq, h, andThen_ok, if_true,
    previous_succ ht]
  rfl

theorem parseComparison_eq (tokens : List Token) (f k : Nat) :
    parseComparison tokens (f + 1) k =
      andThen (parseTerm tokens f k) fun e k' => parseComparisonLoop tokens f e k' := by
  simp only [parseComparison, Parse.bind_run]

theorem parseComparisonLoop_stop (tokens : List Token) (f : Nat) (e : ASTNode) (k : Nat)
    (h : checkAnyAt tokens k "OPERATOR" [">", ">=", "<", "<="] = false) :
    parseComparisonLoop tokens (f + 1) e k = .ok (e, k) := by
  simp only [parseComparisonLoop, Parse.bind_run, matchAny_eq, h, andThen_ok, Bool.false_eq_true,
    if_false]
  rfl

theorem parseComparisonLoop_step (tokens : List Token) (f : Nat) (e : ASTNode) (k : Nat) (t : Token)
    (h : checkAnyAt tokens k "OPERATOR" [">", ">=", "<", "<="] = true) (ht : tokens[k]? = some t) :
    parseComparisonLoop tokens (f + 1) e k =
      andThen (parseTerm tokens f (k + 1)) fun r k' =>
        parseComparisonLoop tokens f (binaryNode t.value e r) k' := by
  simp only [parseComparisonLoop, Parse.bind_run, matchAny_eq, h, andThen_ok, if_true,
    previous_succ ht]
  rfl

theorem parseEquality_eq (tokens : List Token) (f k : Nat) :
    parseEquality tokens (f + 1) k =
      andThen (parseComparison tokens f k) fun e k' => parseEqualityLoop tokens f e k' := by
  simp only [parseEquality, Parse.bind_run]

theorem parseEqualityLoop_stop (tokens : List Token) (f : Nat) (e : ASTNode) (k : Nat)
    (h : checkAnyAt tokens k "OPERATOR" ["==", "!="] = false) :
    parseEqualityLoop tokens (f + 1) e k = .ok (e, k) := by
  simp only [parseEqualityLoop, Parse.bind_run, matchAny_eq, h, andThen_ok, Bool.false_eq_true,
    if_false]
  rfl

theorem parseEqualityLoop_step (tokens : List Token) (f : Nat) (e : ASTNode) (k : Nat) (t : Token)
    (h : checkAnyAt tokens k "OPERATOR" ["==", "!="] = true) (ht : tokens[k]? = some t) :
    parseEqualityLoop tokens (f + 1) e k =
      andThen (parseComparison tokens f (k + 1)) fun r k' =>
        parseEqualityLoop tokens f (binaryNode t.value e r) k' := by
  simp only [parseEqualityLoop, Parse.bind_run, matchAny_eq, h, andThen_ok, if_true,
    previous_succ ht]
  rfl

theorem checkAt_type {tokens : List Token} {k : Nat} {t : Token} (ht : tokens[k]? = some t)
    (type : String) : checkAt tokens k type "" = (t.type == type) := by
  rw [checkAt_of_getElem? ht]
  rfl

theorem parseUnary_operand {tokens : List Token} {k : Nat} {t : Token}
    (ht : tokens[k]? = some t) (hop : t.type = "NUMBER" ∨ t.type = "IDENTIFIER") (f : Nat)
    (hf : 2 ≤ f) : parseUnary tokens f k = .ok (operandNode t, k + 1) := by
  obtain ⟨g, rfl⟩ : ∃ g, f = g + 2 := ⟨f - 2, by omega⟩
  have hne : t.type ≠ "OPERATOR" := by
    rcases hop with h | h <;> rw [h] <;> decide
  simp only [parseUnary, parsePrimary, Parse.bind_run, matchAny_eq,
    checkAnyAt_type_ne _ ht hne, andThen_ok, Bool.false_eq_true, if_false, matchToken_eq,
    checkAt_type ht]
  unfold operandNode
  rcases hop with h | h
  · have hb : (t.type == "NUMBER") = true := by rw [h]; rfl
    simp only [hb, if_true, Parse.bind_run, previous_succ ht, andThen_ok]
    rfl
  · have hb : (t.type == "NUMBER") = false := by rw [h]; rfl
    have hb' : (t.type == "IDENTIFIER") = true := by rw [h]; rfl
    simp only [hb, hb', Bool.false_eq_true, if_false, if_true, Parse.bind_run,
      previous_succ ht, andThen_ok, matchToken_eq, checkAt_type ht]
    rfl

theorem parseExpressionStatement_of_equality {tokens : List Token} {f k k1 : Nat}
    {e : ASTNode} (h : parseEquality tokens f k = .ok (e, k1))
    (hassign : checkAt tokens k1 "OPERATOR" "=" = false)
    (hsemi : checkAt tokens k1 "PUNCTUATION" ";" = true) :
    parseExpressionStatement tokens (f + 3) k = .ok (e, k1 + 1) := by
  obtain ⟨t, -, hcons⟩ := consume_of_checkAt hsemi "Expected ';' after expression"
  simp only [parseExpressionStatement, parseExpression, parseAssignment, Parse.bind_run, h,
    andThen_ok, matchToken_eq, hassign, Bool.false_eq_true, if_false, Parse.pure_apply, hcons]

/-- The success of the expression statement that is the whole program is the
success of `parse`. -/
theorem parse_of_expressionStatement_ok (tokens : List Token) (fuel : Nat) (t : Token)
    (tree : ASTNode)
    (ht : tokens[0]? = some t) (hc : t.type ≠ "COMMENT") (hk : t.type ≠ "KEYWORD")
    (hbrace : checkAt tokens 0 "PUNCTUATION" "\x7b" = false)
    (hfuel : parseFuel tokens = fuel + 6)
    (h : parseExpressionStatement tokens (fuel + 3) 0 = .ok (tree, tokens.length)) :
    parse tokens = .ok (.mk "PROGRAM" "" [some tree]) := by
  have hlen : ¬ tokens.length ≤ 0 := by
    have := getElem?_lt ht
    omega
  have hskip : ∀ f, skipComments tokens (f + 1) 0 = .ok ((), 0) := by
    intro f
    simp only [skipComments, Parse.bind_run, matchToken_eq, checkAt_type_ne ht hc,
      andThen_ok, Bool.false_eq_true, if_false]
    rfl
  have hstmt : parseStatement tokens (fuel + 4) 0 = .ok (some tree, tokens.length) := by
    simp only [parseStatement, Parse.bind_run, hskip, andThen_ok, isAtEnd_eq, hlen,
      decide_False, Bool.false_eq_true, if_false, matchToken_eq, checkAt_type_ne ht hk,
      hbrace, h]
    rfl
  have hdecl : parseDeclaration tokens (fuel + 5) 0 = .ok (some tree, tokens.length) := by
    simp only [parseDeclaration, Parse.bind_run, hskip, andThen_ok, isAtEnd_eq, hlen,
      decide_False, Bool.false_eq_true, if_false, matchAny_eq, checkAnyAt_type_ne _ ht hk,
      hstmt]
  rw [parse, hfuel, parseLoop_of_not_comment tokens (fuel + 5) [] ht hc, hdecl, andThen_ok,
    parseLoop_of_atEnd tokens (fuel + 4) _ (le_refl _)]
  rfl


/-- C16: For all operand tokens `a`, `b`, `c` (of type `NUMBER` or
`IDENTIFIER`, with any text and position) and all binary operators `o1`, `o2`
among `== != > >= < <= + - * / %`, `parse` of the six tokens `a o1 b o2 c ;`
yields `PROGRAM` with the one child `BINARY(o1)[a, BINARY(o2)[b, c]]` when
the level of `o2` is strictly higher than that of `o1`, and
`BINARY(o2)[BINARY(o1)[a, b], c]` otherwise, the levels being equality 1,
comparison 2, term 3 and factor 4. The text `a - b - c;` yields `(a - b) - c`
and `a + b * c;` yields `a + (b * c)`. -/
theorem parse_binary_precedence (a b c : Token) (o1 o2 : String)
    (l1 c1 l2 c2 l3 c3 : Nat)
    (ha : a.type = "NUMBER" ∨ a.type = "IDENTIFIER")
    (hb : b.type = "NUMBER" ∨ b.type = "IDENTIFIER")
    (hc : c.type = "NUMBER" ∨ c.type = "IDENTIFIER")
    (h1 : o1 ∈ binaryOperators) (h2 : o2 ∈ binaryOperators) :
    parse [a, ⟨"OPERATOR", o1, l1, c1⟩, b, ⟨"OPERATOR", o2, l2, c2⟩, c,
        ⟨"PUNCTUATION", ";", l3, c3⟩] =
      .ok (.mk "PROGRAM" ""
        [some (if precedenceLevel o1 < precedenceLevel o2 then
            binaryNode o1 (operandNode a) (binaryNode o2 (operandNode b) (operandNode c))
          else
            binaryNode o2 (binaryNode o1 (operandNode a) (operandNode b)) (operandNode c))]) ∧
    binaryOperators.map precedenceLevel = [1, 1, 2, 2, 2, 2, 3, 3, 4, 4, 4] ∧
    compile "a - b - c;" = .ok (.mk "PROGRAM" ""
      [some (.mk "BINARY" "-" [some (.mk "BINARY" "-"
        [some (.mk "IDENTIFIER" "a" []), some (.mk "IDENTIFIER" "b" [])]),
        some (.mk "IDENTIFIER" "c" [])])]) ∧
    compile "a + b * c;" = .ok (.mk "PROGRAM" ""
      [some (.mk "BINARY" "+" [some (.mk "IDENTIFIER" "a" []),
        some (.mk "BINARY" "*"
          [some (.mk "IDENTIFIER" "b" []), some (.mk "IDENTIFIER" "c" [])])])]) := by
  refine ⟨?_, by decide, rfl, rfl⟩
  generalize hT : [a, (⟨"OPERATOR", o1, l1, c1⟩ : Token), b, ⟨"OPERATOR", o2, l2, c2⟩, c,
    ⟨"PUNCTUATION", ";", l3, c3⟩] = tokens
  have t0 : tokens[0]? = some a := by rw [← hT]; rfl
  have t1 : tokens[1]? = some ⟨"OPERATOR", o1, l1, c1⟩ := by rw [← hT]; rfl
  have t2 : tokens[2]? = some b := by rw [← hT]; rfl
  have t3 : tokens[3]? = some ⟨"OPERATOR", o2, l2, c2⟩ := by rw [← hT]; rfl
  have t4 : tokens[4]? = some c := by rw [← hT]; rfl
  have t5 : tokens[5]? = some ⟨"PUNCTUATION", ";", l3, c3⟩ := by rw [← hT]; rfl
  have hlen : tokens.length = 6 := by rw [← hT]; rfl
  obtain ⟨e1, m1, s1, f1, lo1, hi1⟩ := operator_level t1 h1
  obtain ⟨e3, m3, s3, f3, lo3, hi3⟩ := operator_level t3 h2
  have c5 : ∀ ops, checkAnyAt tokens 5 "OPERATOR" ops = false :=
    fun ops => checkAnyAt_type_ne ops t5 (by show "PUNCTUATION" ≠ "OPERATOR"; decide)
  -- unary
  have u0 : ∀ f, 2 ≤ f → parseUnary tokens f 0 = .ok (foldFirst (4 + 1)
      (precedenceLevel o1) (precedenceLevel o2) (operandNode a) (operandNode b)
      (operandNode c) o1 o2) := by
    intro f hf
    unfold foldFirst
    rw [if_pos (by omega)]
    exact parseUnary_operand t0 ha f hf
  have u2 : ∀ f, 2 ≤ f → parseUnary tokens f 2 = .ok (foldSecond (4 + 1)
      (precedenceLevel o2) (operandNode b) (operandNode c) o2) := by
    intro f hf
    unfold foldSecond
    rw [if_neg (by omega)]
    exact parseUnary_operand t2 hb f hf
  have u4 : ∀ f, 2 ≤ f → parseUnary tokens f 4 = .ok (operandNode c, 5) :=
    fun f hf => parseUnary_operand t4 hc f hf
  -- factor, term, comparison, equality
  obtain ⟨a0, a2, a4⟩ := precedence_level_step (parseFactor_eq tokens)
    (parseFactorLoop_stop tokens) (parseFactorLoop_step tokens) (by decide) t1 t3 f1 f3
    (c5 _) u0 u2 u4
  obtain ⟨b0, b2, b4⟩ := precedence_level_step (parseTerm_eq tokens)
    (parseTermLoop_stop tokens) (parseTermLoop_step tokens) (by decide) t1 t3 s1 s3
    (c5 _) a0 a2 a4
  obtain ⟨d0, d2, d4⟩ := precedence_level_step (parseComparison_eq tokens)
    (parseComparisonLoop_stop tokens) (parseComparisonLoop_step tokens) (by decide) t1 t3
    m1 m3 (c5 _) b0 b2 b4
  obtain ⟨g0, -, -⟩ := precedence_level_step (parseEquality_eq tokens)
    (parseEqualityLoop_stop tokens) (parseEqualityLoop_step tokens) (by decide) t1 t3
    e1 e3 (c5 _) d0 d2 d4
  -- the statement
  have hassign : checkAt tokens 5 "OPERATOR" "=" = false :=
    checkAt_type_ne t5 (by show "PUNCTUATION" ≠ "OPERATOR"; decide)
  have hsemi : checkAt tokens 5 "PUNCTUATION" ";" = true := by
    rw [checkAt_of_getElem? t5]
    rfl
  have h5 : foldFirst 1 (precedenceLevel o1) (precedenceLevel o2) (operandNode a)
      (operandNode b) (operandNode c) o1 o2 =
      (if precedenceLevel o1 < precedenceLevel o2 then
        binaryNode o1 (operandNode a) (binaryNode o2 (operandNode b) (operandNode c))
      else
        binaryNode o2 (binaryNode o1 (operandNode a) (operandNode b)) (operandNode c), 5) := by
    unfold foldFirst
    split_ifs <;> first | rfl | (exfalso; omega)
  have hequality := g0 218 (by omega)
  rw [h5] at hequality
  have hstmt := parseExpressionStatement_of_equality hequality hassign hsemi
  have hfirst : a.type ≠ "COMMENT" ∧ a.type ≠ "KEYWORD" ∧ a.type ≠ "PUNCTUATION" := by
    rcases ha with h | h <;> rw [h] <;> decide
  exact parse_of_expressionStatement_ok tokens 218 a _ t0 hfirst.1 hfirst.2.1
    (checkAt_type_ne t0 hfirst.2.2) (by unfold parseFuel; rw [hlen]) (by rw [hlen]; exact hstmt)


/-- The rule of C16 on the tokens of `a + 2 * c;`: the product is the right
operand of the sum. -/
theorem parse_binary_precedence_witness :
    parse [⟨"IDENTIFIER", "a", 1, 1⟩, ⟨"OPERATOR", "+", 1, 3⟩, ⟨"NUMBER", "2", 1, 5⟩,
        ⟨"OPERATOR", "*", 1, 7⟩, ⟨"IDENTIFIER", "c", 1, 9⟩, ⟨"PUNCTUATION", ";", 1, 10⟩] =
      .ok (.mk "PROGRAM" "" [some (.mk "BINARY" "+" [some (.mk "IDENTIFIER" "a" []),
        some (.mk "BINARY" "*"
          [some (.mk "LITERAL" "2" []), some (.mk "IDENTIFIER" "c" [])])])]) :=
  (parse_binary_precedence ⟨"IDENTIFIER", "a", 1, 1⟩ ⟨"NUMBER", "2", 1, 5⟩
    ⟨"IDENTIFIER", "c", 1, 9⟩ "+" "*" 1 3 1 7 1 10 (Or.inr rfl) (Or.inl rfl) (Or.inr rfl)
    (by decide) (by decide)).1

/-! ## Well-formed trees -/

theorem wellFormed_mk (type value : String) (children : List (Option ASTNode)) :
    (ASTNode.mk type value children).wellFormed =
      (shapeOk type value children && wellFormedChildren children) := by
  rw [ASTNode.wellFormed]

theorem wellFormedChildren_nil : wellFormedChildren [] = true := by
  rw [wellFormedChildren]

theorem wellFormedChildren_none (rest : List (Option ASTNode)) :
    wellFormedChildren (none :: rest) = wellFormedChildren rest := by
  rw [wellFormedChildren]

theorem wellFormedChildren_some (node : ASTNode) (rest : List (Option ASTNode)) :
    wellFormedChildren (some node :: rest) = (node.wellFormed && wellFormedChildren rest) := by
  rw [wellFormedChildren]

theorem wellFormedChildren_append (xs ys : List (Option ASTNode)) :
    wellFormedChildren (xs ++ ys) = (wellFormedChildren xs && wellFormedChildren ys) := by
  induction xs with
  | nil => simp [wellFormedChildren_nil]
  | cons x xs ih =>
    cases x with
    | none => simp only [List.cons_append, wellFormedChildren_none, ih]
    | some n => simp only [List.cons_append, wellFormedChildren_some, ih, Bool.and_assoc]

theorem wellFormedChildren_pushIfNotNull {children : List (Option ASTNode)}
    {node : Option ASTNode} (hc : wellFormedChildren children = true)
    (hn : wellFormedChildren [node] = true) :
    wellFormedChildren (pushIfNotNull children node) = true := by
  cases node with
  | none => exact hc
  | some n =>
    show wellFormedChildren (children ++ [some n]) = true
    rw [wellFormedChildren_append, hc, hn]
    rfl

theorem yields_ok {α : Type} {P : α → Prop} {a : α} {k : Nat} (h : P a) :
    Yields P (.ok (a, k)) := h

theorem yields_error {α : Type} {P : α → Prop} (e : Failure) :
    Yields P (.error e : Except Failure (α × Nat)) := trivial

theorem yields_andThen {α β : Type} {P : β → Prop}
    {r : Except Failure (α × Nat)} {f : α → Nat → Except Failure (β × Nat)}
    (hf : ∀ a k, r = .ok (a, k) → Yields P (f a k)) : Yields P (andThen r f) := by
  match r, hf with
  | .ok (a, k), hf => exact hf a k rfl
  | .error _, _ => trivial

theorem yields_call {α β : Type} {Q : α → Prop} {P : β → Prop}
    {r : Except Failure (α × Nat)} {f : α → Nat → Except Failure (β × Nat)}
    (h : Yields Q r) (hf : ∀ a k, Q a → Yields P (f a k)) : Yields P (andThen r f) := by
  match r, h with
  | .ok (a, k), h => exact hf a k h
  | .error _, _ => trivial

theorem yields_mono {α : Type} {P Q : α → Prop} {r : Except Failure (α × Nat)}
    (h : Yields Q r) (hpq : ∀ a, Q a → P a) : Yields P r := by
  match r, h with
  | .ok (a, k), h => exact hpq a h
  | .error _, _ => trivial

theorem yields_bool {β : Type} {P : β → Prop} {r : Except Failure (Bool × Nat)}
    {f : Bool → Nat → Except Failure (β × Nat)}
    (ht : ∀ k, Yields P (f true k)) (hf : ∀ k, Yields P (f false k)) :
    Yields P (andThen r f) := by
  refine yields_andThen fun a k _ => ?_
  cases a
  · exact hf k
  · exact ht k


theorem previous_eq_ok {tokens : List Token} {k : Nat} {t : Token} {k' : Nat}
    (h : previous tokens (k + 1) = .ok (t, k')) : tokens[k]? = some t ∧ k' = k + 1 := by
  cases ht : tokens[k]? with
  | some u =>
    rw [previous_succ ht] at h
    simp only [Except.ok.injEq, Prod.mk.injEq] at h
    rw [h.1]
    exact ⟨rfl, h.2.symm⟩
  | none =>
    exfalso
    have he : previous tokens (k + 1) = .error .outOfRange := by
      simp only [previous, Parse.bind_apply]
      show (match tokens[k]? with
        | some token => pure token
        | none => throw Failure.outOfRange : Parse Token) (k + 1) = _
      rw [ht]
      rfl
    rw [he] at h
    exact absurd h (by simp)

theorem yields_previous {β : Type} {P : β → Prop} {tokens : List Token} {k : Nat}
    {f : Token → Nat → Except Failure (β × Nat)}
    (h : ∀ t, tokens[k]? = some t → Yields P (f t (k + 1))) :
    Yields P (andThen (previous tokens (k + 1)) f) := by
  refine yields_andThen fun t k' hp => ?_
  obtain ⟨ht, rfl⟩ := previous_eq_ok hp
  exact h t ht

theorem value_mem_of_checkAnyAt {tokens : List Token} {k : Nat} {type : String}
    {values : List String} {t : Token} (hv : ∀ v ∈ values, v.isEmpty = false)
    (hc : checkAnyAt tokens k type values = true) (ht : tokens[k]? = some t) :
    t.value ∈ values := by
  rw [checkAnyAt_of_getElem? ht, List.any_eq_true] at hc
  obtain ⟨v, hmem, hm⟩ := hc
  unfold Token.matches at hm
  rw [hv v hmem] at hm
  simp only [Bool.false_eq_true, if_false, Bool.and_eq_true, beq_iff_eq] at hm
  rw [hm.2]
  exact hmem

theorem yields_matchAny {β : Type} {P : β → Prop} {tokens : List Token} {type : String}
    {values : List String} {k : Nat} {f : Bool → Nat → Except Failure (β × Nat)}
    (hv : ∀ v ∈ values, v.isEmpty = false)
    (ht : ∀ t, tokens[k]? = some t → t.value ∈ values → Yields P (f true (k + 1)))
    (hf : Yields P (f false k)) :
    Yields P (andThen (matchAny tokens type values k) f) := by
  rw [matchAny_eq]
  cases hc : checkAnyAt tokens k type values with
  | true =>
    have hlt := checkAnyAt_lt hc
    exact ht _ (List.getElem?_eq_getElem hlt)
      (value_mem_of_checkAnyAt hv hc (List.getElem?_eq_getElem hlt))
  | false => exact hf

theorem wellFormed_binary {op : String} {left right : ASTNode}
    (hop : op ∈ binaryOperators) (hl : left.wellFormed = true) (hr : right.wellFormed = true) :
    (ASTNode.mk "BINARY" op [some left, some right]).wellFormed = true := by
  have : binaryOperators.contains op = true := by simpa using hop
  simp only [wellFormed_mk, wellFormedChildren_some, wellFormedChildren_nil, hl, hr, shapeOk,
    this]
  rfl

theorem wellFormed_unary {op : String} {right : ASTNode}
    (hop : op ∈ unaryOperators) (hr : right.wellFormed = true) :
    (ASTNode.mk "UNARY" op [some right]).wellFormed = true := by
  have : unaryOperators.contains op = true := by simpa using hop
  simp only [wellFormed_mk, wellFormedChildren_some, wellFormedChildren_nil, hr, shapeOk,
    this]
  rfl

/-- A node of a kind on which `shapeOk` puts no condition is well-formed when
its children are. -/
theorem wellFormed_free {type : String} (value : String) {children : List (Option ASTNode)}
    (ht : type ∈ ["PROGRAM", "FUNCTION_DECLARATION", "VARIABLE_DECLARATION",
      "INITIALIZATION", "IF_STATEMENT", "WHILE_STATEMENT", "FOR_STATEMENT", "FOR_INIT",
      "FOR_CONDITION", "FOR_INCREMENT", "RETURN_STATEMENT", "BLOCK"])
    (hc : wellFormedChildren children = true) :
    (ASTNode.mk type value children).wellFormed = true := by
  rw [wellFormed_mk, hc, Bool.and_true]
  simp only [List.mem_cons, List.mem_singleton, List.not_mem_nil, or_false] at ht
  rcases ht with rfl | rfl | rfl | rfl | rfl | rfl | rfl | rfl | rfl | rfl | rfl | rfl <;> rfl

theorem wellFormed_single {type : String} (value : String) {child : ASTNode}
    (ht : type = "ASSIGNMENT" ∨ type = "GROUPING") (hc : child.wellFormed = true) :
    (ASTNode.mk type value [some child]).wellFormed = true := by
  rw [wellFormed_mk, wellFormedChildren_some, wellFormedChildren_nil, hc]
  rcases ht with rfl | rfl <;> rfl

theorem wellFormed_leaf {type : String} (value : String)
    (ht : type ∈ ["LITERAL", "IDENTIFIER", "TYPE", "PARAMETERS"]) :
    (ASTNode.mk type value []).wellFormed = true := by
  rw [wellFormed_mk, wellFormedChildren_nil]
  simp only [List.mem_cons, List.mem_singleton, List.not_mem_nil, or_false] at ht
  rcases ht with rfl | rfl | rfl | rfl <;> rfl


theorem parsePrimary_wellFormed {tokens : List Token} {fuel : Nat}
    (ih : AllWellFormed tokens fuel) (k : Nat) :
    Yields (fun n => n.wellFormed = true) (parsePrimary tokens (fuel + 1) k) := by
  simp only [parsePrimary, Parse.bind_run]
  refine yields_bool (fun k1 => ?_) (fun k1 => ?_)
  · simp only [if_true, Parse.bind_run]
    exact yields_andThen fun t k2 _ => yields_ok (wellFormed_leaf _ (by decide))
  simp only [Bool.false_eq_true, if_false, Parse.bind_run]
  refine yields_bool (fun k2 => ?_) (fun k2 => ?_)
  · simp only [if_true, Parse.bind_run]
    exact yields_andThen fun t k3 _ => yields_ok (wellFormed_leaf _ (by decide))
  simp only [Bool.false_eq_true, if_false, Parse.bind_run]
  refine yields_bool (fun k3 => ?_) (fun k3 => ?_)
  · simp only [if_true, Parse.bind_run]
    refine yields_call (ih.expression k3) fun e k4 he => ?_
    exact yields_andThen fun t k5 _ => yields_ok (wellFormed_single _ (Or.inr rfl) he)
  · simp only [Bool.false_eq_true, if_false]
    exact yields_error _

theorem parseUnary_wellFormed {tokens : List Token} {fuel : Nat}
    (ih : AllWellFormed tokens fuel) (k : Nat) :
    Yields (fun n => n.wellFormed = true) (parseUnary tokens (fuel + 1) k) := by
  simp only [parseUnary, Parse.bind_run]
  refine yields_matchAny (by decide) (fun t ht hv => ?_) ?_
  · simp only [if_true, Parse.bind_run]
    refine yields_previous fun u hu => ?_
    obtain rfl : u = t := Option.some.inj (hu.symm.trans ht)
    refine yields_call (ih.unary _) fun r k1 hr => ?_
    exact yields_ok (wellFormed_unary hv hr)
  · simp only [Bool.false_eq_true, if_false]
    exact ih.primary k

theorem parseFactorLoop_wellFormed {tokens : List Token} {fuel : Nat}
    (ih : AllWellFormed tokens fuel) (e : ASTNode) (k : Nat) (he : e.wellFormed = true) :
    Yields (fun n => n.wellFormed = true) (parseFactorLoop tokens (fuel + 1) e k) := by
  simp only [parseFactorLoop, Parse.bind_run]
  refine yields_matchAny (by decide) (fun t ht hv => ?_) ?_
  · simp only [if_true, Parse.bind_run]
    refine yields_previous fun u hu => ?_
    obtain rfl : u = t := Option.some.inj (hu.symm.trans ht)
    refine yields_call (ih.unary _) fun r k1 hr => ?_
    have hop : ∀ v ∈ ["*", "/", "%"], v ∈ binaryOperators := by decide
    exact ih.factorLoop _ k1 (wellFormed_binary (hop _ hv) he hr)
  · simp only [Bool.false_eq_true, if_false]
    exact yields_ok he

theorem parseFactor_wellFormed {tokens : List Token} {fuel : Nat}
    (ih : AllWellFormed tokens fuel) (k : Nat) :
    Yields (fun n => n.wellFormed = true) (parseFactor tokens (fuel + 1) k) := by
  simp only [parseFactor, Parse.bind_run]
  exact yields_call (ih.unary k) fun e k1 he => ih.factorLoop e k1 he

theorem parseTermLoop_wellFormed {tokens : List Token} {fuel : Nat}
    (ih : AllWellFormed tokens fuel) (e : ASTNode) (k : Nat) (he : e.wellFormed = true) :
    Yields (fun n => n.wellFormed = true) (parseTermLoop tokens (fuel + 1) e k) := by
  simp only [parseTermLoop, Parse.bind_run]
  refine yields_matchAny (by decide) (fun t ht hv => ?_) ?_
  · simp only [if_true, Parse.bind_run]
    refine yields_previous fun u hu => ?_
    obtain rfl : u = t := Option.some.inj (hu.symm.trans ht)
    refine yields_call (ih.factor _) fun r k1 hr => ?_
    have hop : ∀ v ∈ ["+", "-"], v ∈ binaryOperators := by decide
    exact ih.termLoop _ k1 (wellFormed_binary (hop _ hv) he hr)
  · simp only [Bool.false_eq_true, if_false]
    exact yields_ok he

theorem parseTerm_wellFormed {tokens : List Token} {fuel : Nat}
    (ih : AllWellFormed tokens fuel) (k : Nat) :
    Yields (fun n => n.wellFormed = true) (parseTerm tokens (fuel + 1) k) := by
  simp only [parseTerm, Parse.bind_run]
  exact yields_call (ih.factor k) fun e k1 he => ih.termLoop e k1 he

theorem parseComparisonLoop_wellFormed {tokens : List Token} {fuel : Nat}
    (ih : AllWellFormed tokens fuel) (e : ASTNode) (k : Nat) (he : e.wellFormed = true) :
    Yields (fun n => n.wellFormed = true) (parseComparisonLoop tokens (fuel + 1) e k) := by
  simp only [parseComparisonLoop, Parse.bind_run]
  refine yields_matchAny (by decide) (fun t ht hv => ?_) ?_
  · simp only [if_true, Parse.bind_run]
    refine yields_previous fun u hu => ?_
    obtain rfl : u = t := Option.some.inj (hu.symm.trans ht)
    refine yields_call (ih.term _) fun r k1 hr => ?_
    have hop : ∀ v ∈ [">", ">=", "<", "<="], v ∈ binaryOperators := by decide
    exact ih.comparisonLoop _ k1 (wellFormed_binary (hop _ hv) he hr)
  · simp only [Bool.false_eq_true, if_false]
    exact yields_ok he

theorem parseComparison_wellFormed {tokens : List Token} {fuel : Nat}
    (ih : AllWellFormed tokens fuel) (k : Nat) :
    Yields (fun n => n.wellFormed = true) (parseComparison tokens (fuel + 1) k) := by
  simp only [parseComparison, Parse.bind_run]
  exact yields_call (ih.term k) fun e k1 he => ih.comparisonLoop e k1 he

theorem parseEqualityLoop_wellFormed {tokens : List Token} {fuel : Nat}
    (ih : AllWellFormed tokens fuel) (e : ASTNode) (k : Nat) (he : e.wellFormed = true) :
    Yields (fun n => n.wellFormed = true) (parseEqualityLoop tokens (fuel + 1) e k) := by
  simp only [parseEqualityLoop, Parse.bind_run]
  refine yields_matchAny (by decide) (fun t ht hv => ?_) ?_
  · simp only [if_true, Parse.bind_run]
    refine yields_previous fun u hu => ?_
    obtain rfl : u = t := Option.some.inj (hu.symm.trans ht)
    refine yields_call (ih.comparison _) fun r k1 hr => ?_
    have hop : ∀ v ∈ ["==", "!="], v ∈ binaryOperators := by decide
    exact ih.equalityLoop _ k1 (wellFormed_binary (hop _ hv) he hr)
  · simp only [Bool.false_eq_true, if_false]
    exact yields_ok he

theorem parseEquality_wellFormed {tokens : List Token} {fuel : Nat}
    (ih : AllWellFormed tokens fuel) (k : Nat) :
    Yields (fun n => n.wellFormed = true) (parseEquality tokens (fuel + 1) k) := by
  simp only [parseEquality, Parse.bind_run]
  exact yields_call (ih.comparison k) fun e k1 he => ih.equalityLoop e k1 he

theorem parseAssignment_wellFormed {tokens : List Token} {fuel : Nat}
    (ih : AllWellFormed tokens fuel) (k : Nat) :
    Yields (fun n => n.wellFormed = true) (parseAssignment tokens (fuel + 1) k) := by
  simp only [parseAssignment, Parse.bind_run]
  refine yields_call (ih.equality k) fun left k1 hl => ?_
  refine yields_bool (fun k2 => ?_) (fun k2 => ?_)
  · simp only [if_true, Parse.bind_run]
    refine yields_call (ih.assignment k2) fun right k3 hr => ?_
    split
    · exact yields_ok (wellFormed_single _ (Or.inl rfl) hr)
    · exact yields_error _
  · simp only [Bool.false_eq_true, if_false]
    exact yields_ok hl

theorem parseExpression_wellFormed {tokens : List Token} {fuel : Nat}
    (ih : AllWellFormed tokens fuel) (k : Nat) :
    Yields (fun n => n.wellFormed = true) (parseExpression tokens (fuel + 1) k) := by
  simp only [parseExpression]
  exact ih.assignment k

theorem parseExpressionStatement_wellFormed {tokens : List Token} {fuel : Nat}
    (ih : AllWellFormed tokens fuel) (k : Nat) :
    Yields (fun n => n.wellFormed = true) (parseExpressionStatement tokens (fuel + 1) k) := by
  simp only [parseExpressionStatement, Parse.bind_run]
  refine yields_call (ih.expression k) fun e k1 he => ?_
  exact yields_andThen fun t k2 _ => yields_ok he

theorem parseReturnStatement_wellFormed {tokens : List Token} {fuel : Nat}
    (ih : AllWellFormed tokens fuel) (k : Nat) :
    Yields (fun n => n.wellFormed = true) (parseReturnStatement tokens (fuel + 1) k) := by
  simp only [parseReturnStatement, Parse.bind_run]
  refine yields_bool (fun k1 => ?_) (fun k1 => ?_)
  · simp only [Bool.not_true, Bool.false_eq_true, if_false, Parse.bind_run]
    exact yields_andThen fun t k2 _ =>
      yields_ok (wellFormed_free _ (by decide) wellFormedChildren_nil)
  · simp only [Bool.not_false, if_true, Parse.bind_run]
    refine yields_call (ih.expression k1) fun e k2 he => ?_
    refine yields_andThen fun t k3 _ => yields_ok (wellFormed_free _ (by decide) ?_)
    rw [wellFormedChildren_some, he, wellFormedChildren_nil]
    rfl

theorem parseVariableDeclaration_wellFormed {tokens : List Token} {fuel : Nat}
    (ih : AllWellFormed tokens fuel) (typeToken nameToken : Token) (k : Nat) :
    Yields (fun n => n.wellFormed = true) (parseVariableDeclaration tokens (fuel + 1) typeToken nameToken k) := by
  have htype : (ASTNode.mk "TYPE" typeToken.value []).wellFormed = true :=
    wellFormed_leaf _ (by decide)
  simp only [parseVariableDeclaration, Parse.bind_run]
  refine yields_bool (fun k1 => ?_) (fun k1 => ?_)
  · simp only [if_true, Parse.bind_run]
    refine yields_call (ih.expression k1) fun e k2 he => ?_
    refine yields_andThen fun t k3 _ => yields_ok (wellFormed_free _ (by decide) ?_)
    have hinit : (ASTNode.mk "INITIALIZATION" "" [some e]).wellFormed = true := by
      refine wellFormed_free _ (by decide) ?_
      rw [wellFormedChildren_some, he, wellFormedChildren_nil]
      rfl
    rw [wellFormedChildren_some, wellFormedChildren_some, htype, hinit,
      wellFormedChildren_nil]
    rfl
  · simp only [Bool.false_eq_true, if_false, Parse.bind_run]
    refine yields_andThen fun t k3 _ => yields_ok (wellFormed_free _ (by decide) ?_)
    rw [wellFormedChildren_some, htype, wellFormedChildren_nil]
    rfl


theorem wellFormedChildren_cons (node : Option ASTNode) (rest : List (Option ASTNode)) :
    wellFormedChildren (node :: rest) =
      (wellFormedChildren [node] && wellFormedChildren rest) :=
  wellFormedChildren_append [node] rest

theorem wellFormedChildren_single {node : ASTNode} (h : node.wellFormed = true) :
    wellFormedChildren [some node] = true := by
  rw [wellFormedChildren_some, h, wellFormedChildren_nil]
  rfl

theorem parseIfStatement_wellFormed {tokens : List Token} {fuel : Nat}
    (ih : AllWellFormed tokens fuel) (k : Nat) :
    Yields (fun n => n.wellFormed = true) (parseIfStatement tokens (fuel + 1) k) := by
  simp only [parseIfStatement, Parse.bind_run]
  refine yields_andThen fun _ k1 _ => ?_
  refine yields_call (ih.expression k1) fun c k2 hc => ?_
  refine yields_andThen fun _ k3 _ => ?_
  refine yields_call (ih.statement k3) fun b k4 hb => ?_
  refine yields_bool (fun k5 => ?_) (fun k5 => ?_)
  · simp only [if_true, Parse.bind_run]
    refine yields_call (ih.statement k5) fun b' k6 hb' => ?_
    refine yields_ok (wellFormed_free _ (by decide) ?_)
    rw [wellFormedChildren_some, hc, wellFormedChildren_cons, hb, hb']
    rfl
  · simp only [Bool.false_eq_true, if_false]
    refine yields_ok (wellFormed_free _ (by decide) ?_)
    rw [wellFormedChildren_some, hc, hb]
    rfl

theorem parseWhileStatement_wellFormed {tokens : List Token} {fuel : Nat}
    (ih : AllWellFormed tokens fuel) (k : Nat) :
    Yields (fun n => n.wellFormed = true) (parseWhileStatement tokens (fuel + 1) k) := by
  simp only [parseWhileStatement, Parse.bind_run]
  refine yields_andThen fun _ k1 _ => ?_
  refine yields_call (ih.expression k1) fun c k2 hc => ?_
  refine yields_andThen fun _ k3 _ => ?_
  refine yields_call (ih.statement k3) fun b k4 hb => ?_
  refine yields_ok (wellFormed_free _ (by decide) ?_)
  rw [wellFormedChildren_some, hc, hb]
  rfl

theorem parseForInit_wellFormed {tokens : List Token} {fuel : Nat}
    (ih : AllWellFormed tokens fuel) (k : Nat) :
    Yields (fun c => wellFormedChildren c = true) (parseForInit tokens (fuel + 1) k) := by
  rw [parseForInit_eq]
  split
  · exact yields_ok wellFormedChildren_nil
  split
  · split
    · split
      · exact yields_call (ih.variableDeclaration _ _ _) fun v k1 hv =>
          yields_ok (wellFormedChildren_single hv)
      · exact yields_error _
    · exact yields_ok wellFormedChildren_nil
  · refine yields_call (ih.expression k) fun e k1 he => ?_
    exact yields_andThen fun _ k2 _ => yields_ok (wellFormedChildren_single he)

theorem forClause_wellFormed {tokens : List Token} {fuel : Nat}
    (ih : AllWellFormed tokens fuel) (terminator : String) (k : Nat) :
    Yields (fun c => wellFormedChildren c = true) (forClause tokens fuel terminator k) := by
  unfold forClause
  split
  · exact yields_ok wellFormedChildren_nil
  · exact yields_call (ih.expression k) fun e k1 he =>
      yields_ok (wellFormedChildren_single he)

theorem parseForStatement_wellFormed {tokens : List Token} {fuel : Nat}
    (ih : AllWellFormed tokens fuel) (k : Nat) :
    Yields (fun n => n.wellFormed = true) (parseForStatement tokens (fuel + 1) k) := by
  rw [parseForStatement_eq]
  refine yields_andThen fun _ k0 _ => ?_
  refine yields_call (ih.forInit k0) fun i k1 hi => ?_
  refine yields_call (forClause_wellFormed ih ";" k1) fun c k2 hc => ?_
  refine yields_andThen fun _ k3 _ => ?_
  refine yields_call (forClause_wellFormed ih ")" k3) fun u k4 hu => ?_
  refine yields_andThen fun _ k5 _ => ?_
  refine yields_call (ih.statement k5) fun b k6 hb => ?_
  refine yields_ok (wellFormed_free _ (by decide) ?_)
  rw [wellFormedChildren_some, wellFormedChildren_some, wellFormedChildren_some, hb,
    wellFormed_free _ (by decide) hi, wellFormed_free _ (by decide) hc,
    wellFormed_free _ (by decide) hu]
  rfl

theorem parseStatement_wellFormed {tokens : List Token} {fuel : Nat}
    (ih : AllWellFormed tokens fuel) (k : Nat) :
    Yields (fun o => wellFormedChildren [o] = true) (parseStatement tokens (fuel + 1) k) := by
  simp only [parseStatement, Parse.bind_run]
  refine yields_andThen fun _ k0 _ => ?_
  refine yields_bool (fun k1 => ?_) (fun k1 => ?_)
  · simp only [if_true]
    exact yields_ok (by rw [wellFormedChildren_none, wellFormedChildren_nil])
  simp only [Bool.false_eq_true, if_false, Parse.bind_run]
  refine yields_bool (fun k2 => ?_) (fun k2 => ?_)
  · simp only [if_true, Parse.bind_run]
    exact yields_call (ih.ifStatement k2) fun n _ hn => yields_ok (wellFormedChildren_single hn)
  simp only [Bool.false_eq_true, if_false, Parse.bind_run]
  refine yields_bool (fun k3 => ?_) (fun k3 => ?_)
  · simp only [if_true, Parse.bind_run]
    exact yields_call (ih.whileStatement k3) fun n _ hn =>
      yields_ok (wellFormedChildren_single hn)
  simp only [Bool.false_eq_true, if_false, Parse.bind_run]
  refine yields_bool (fun k4 => ?_) (fun k4 => ?_)
  · simp only [if_true, Parse.bind_run]
    exact yields_call (ih.forStatement k4) fun n _ hn =>
      yields_ok (wellFormedChildren_single hn)
  simp only [Bool.false_eq_true, if_false, Parse.bind_run]
  refine yields_bool (fun k5 => ?_) (fun k5 => ?_)
  · simp only [if_true, Parse.bind_run]
    exact yields_call (ih.returnStatement k5) fun n _ hn =>
      yields_ok (wellFormedChildren_single hn)
  simp only [Bool.false_eq_true, if_false, Parse.bind_run]
  refine yields_bool (fun k6 => ?_) (fun k6 => ?_)
  · simp only [if_true, Parse.bind_run]
    exact yields_call (ih.block k6) fun n _ hn => yields_ok (wellFormedChildren_single hn)
  · simp only [Bool.false_eq_true, if_false, Parse.bind_run]
    exact yields_call (ih.expressionStatement k6) fun n _ hn =>
      yields_ok (wellFormedChildren_single hn)

theorem parseDeclaration_wellFormed {tokens : List Token} {fuel : Nat}
    (ih : AllWellFormed tokens fuel) (k : Nat) :
    Yields (fun o => wellFormedChildren [o] = true) (parseDeclaration tokens (fuel + 1) k) := by
  simp only [parseDeclaration, Parse.bind_run]
  refine yields_andThen fun _ k0 _ => ?_
  refine yields_bool (fun k1 => ?_) (fun k1 => ?_)
  · simp only [if_true]
    exact yields_ok (by rw [wellFormedChildren_none, wellFormedChildren_nil])
  simp only [Bool.false_eq_true, if_false, Parse.bind_run]
  refine yields_bool (fun k2 => ?_) (fun k2 => ?_)
  · simp only [if_true, Parse.bind_run]
    refine yields_andThen fun typeToken k3 _ => ?_
    refine yields_bool (fun k4 => ?_) (fun k4 => ?_)
    · simp only [if_true, Parse.bind_run]
      refine yields_andThen fun nameToken k5 _ => ?_
      refine yields_bool (fun k6 => ?_) (fun k6 => ?_)
      · simp only [if_true, Parse.bind_run]
        exact yields_call (ih.functionDeclaration _ _ k6) fun n _ hn =>
          yields_ok (wellFormedChildren_single hn)
      · simp only [Bool.false_eq_true, if_false, Parse.bind_run]
        exact yields_call (ih.variableDeclaration _ _ k6) fun n _ hn =>
          yields_ok (wellFormedChildren_single hn)
    · simp only [Bool.false_eq_true, if_false]
      exact ih.statement k4
  · simp only [Bool.false_eq_true, if_false]
    exact ih.statement k2

theorem parseFunctionDeclaration_wellFormed {tokens : List Token} {fuel : Nat}
    (ih : AllWellFormed tokens fuel) (typeToken nameToken : Token) (k : Nat) :
    Yields (fun n => n.wellFormed = true) (parseFunctionDeclaration tokens (fuel + 1) typeToken nameToken k) := by
  have htype : (ASTNode.mk "TYPE" typeToken.value []).wellFormed = true :=
    wellFormed_leaf _ (by decide)
  have hparams : (ASTNode.mk "PARAMETERS" "" []).wellFormed = true :=
    wellFormed_leaf _ (by decide)
  simp only [parseFunctionDeclaration, Parse.bind_run]
  refine yields_andThen fun _ k0 _ => ?_
  refine yields_bool (fun k1 => ?_) (fun k1 => ?_)
  · simp only [if_true, Parse.bind_run]
    refine yields_call (ih.block k1) fun b k2 hb => ?_
    refine yields_ok (wellFormed_free _ (by decide) ?_)
    rw [wellFormedChildren_some, wellFormedChildren_some, wellFormedChildren_some, htype,
      hparams, hb, wellFormedChildren_nil]
    rfl
  · simp only [Bool.false_eq_true, if_false]
    refine yields_ok (wellFormed_free _ (by decide) ?_)
    rw [wellFormedChildren_some, wellFormedChildren_some, htype, hparams,
      wellFormedChildren_nil]
    rfl

theorem parseBlockLoop_wellFormed {tokens : List Token} {fuel : Nat}
    (ih : AllWellFormed tokens fuel) (children : List (Option ASTNode)) (k : Nat)
    (hc : wellFormedChildren children = true) :
    Yields (fun c => wellFormedChildren c = true)
      (parseBlockLoop tokens (fuel + 1) children k) := by
  simp only [parseBlockLoop, Parse.bind_run]
  refine yields_bool (fun k1 => ?_) (fun k1 => ?_)
  · simp only [if_true]
    exact yields_ok hc
  simp only [Bool.false_eq_true, if_false, Parse.bind_run]
  refine yields_bool (fun k2 => ?_) (fun k2 => ?_)
  · simp only [if_true]
    exact yields_ok hc
  simp only [Bool.false_eq_true, if_false, Parse.bind_run]
  refine yields_call (ih.declaration k2) fun d k3 hd => ?_
  exact ih.blockLoop _ k3 (wellFormedChildren_pushIfNotNull hc hd)

theorem parseBlock_wellFormed {tokens : List Token} {fuel : Nat}
    (ih : AllWellFormed tokens fuel) (k : Nat) :
    Yields (fun n => n.wellFormed = true) (parseBlock tokens (fuel + 1) k) := by
  simp only [parseBlock, Parse.bind_run]
  refine yields_call (ih.blockLoop [] k wellFormedChildren_nil) fun c k1 hc => ?_
  exact yields_andThen fun _ k2 _ => yields_ok (wellFormed_free _ (by decide) hc)


theorem allWellFormed_zero (tokens : List Token) : AllWellFormed tokens 0 where
  primary := fun _ => yields_error _
  unary := fun _ => yields_error _
  factorLoop := fun _ _ _ => yields_error _
  factor := fun _ => yields_error _
  termLoop := fun _ _ _ => yields_error _
  term := fun _ => yields_error _
  comparisonLoop := fun _ _ _ => yields_error _
  comparison := fun _ => yields_error _
  equalityLoop := fun _ _ _ => yields_error _
  equality := fun _ => yields_error _
  assignment := fun _ => yields_error _
  expression := fun _ => yields_error _
  expressionStatement := fun _ => yields_error _
  returnStatement := fun _ => yields_error _
  variableDeclaration := fun _ _ _ => yields_error _
  ifStatement := fun _ => yields_error _
  whileStatement := fun _ => yields_error _
  forInit := fun _ => yields_error _
  forStatement := fun _ => yields_error _
  statement := fun _ => yields_error _
  declaration := fun _ => yields_error _
  functionDeclaration := fun _ _ _ => yields_error _
  blockLoop := fun _ _ _ => yields_error _
  block := fun _ => yields_error _

theorem allWellFormed_succ {tokens : List Token} {fuel : Nat}
    (ih : AllWellFormed tokens fuel) : AllWellFormed tokens (fuel + 1) where
  primary := parsePrimary_wellFormed ih
  unary := parseUnary_wellFormed ih
  factorLoop := parseFactorLoop_wellFormed ih
  factor := parseFactor_wellFormed ih
  termLoop := parseTermLoop_wellFormed ih
  term := parseTerm_wellFormed ih
  comparisonLoop := parseComparisonLoop_wellFormed ih
  comparison := parseComparison_wellFormed ih
  equalityLoop := parseEqualityLoop_wellFormed ih
  equality := parseEquality_wellFormed ih
  assignment := parseAssignment_wellFormed ih
  expression := parseExpression_wellFormed ih
  expressionStatement := parseExpressionStatement_wellFormed ih
  returnStatement := parseReturnStatement_wellFormed ih
  variableDeclaration := parseVariableDeclaration_wellFormed ih
  ifStatement := parseIfStatement_wellFormed ih
  whileStatement := parseWhileStatement_wellFormed ih
  forInit := parseForInit_wellFormed ih
  forStatement := parseForStatement_wellFormed ih
  statement := parseStatement_wellFormed ih
  declaration := parseDeclaration_wellFormed ih
  functionDeclaration := parseFunctionDeclaration_wellFormed ih
  blockLoop := parseBlockLoop_wellFormed ih
  block := parseBlock_wellFormed ih

theorem allWellFormed (tokens : List Token) (fuel : Nat) : AllWellFormed tokens fuel := by
  induction fuel with
  | zero => exact allWellFormed_zero tokens
  | succ fuel ih => exact allWellFormed_succ ih

theorem parseLoop_wellFormed (tokens : List Token) (fuel : Nat) :
    ∀ (children : List (Option ASTNode)) (k : Nat), wellFormedChildren children = true →
      Yields (fun c => wellFormedChildren c = true) (parseLoop tokens fuel children k) := by
  induction fuel with
  | zero => intro _ _ _; exact yields_error _
  | succ fuel ih =>
    intro children k hc
    by_cases hlt : k < tokens.length
    · by_cases hcomment : tokens[k].type = "COMMENT"
      · rw [parseLoop_of_comment tokens fuel children (List.getElem?_eq_getElem hlt) hcomment]
        exact ih children (k + 1) hc
      · rw [parseLoop_of_not_comment tokens fuel children (List.getElem?_eq_getElem hlt)
          hcomment]
        refine yields_call ((allWellFormed tokens fuel).declaration k) fun d k1 hd => ?_
        exact ih _ k1 (wellFormedChildren_pushIfNotNull hc hd)
    · rw [parseLoop_of_atEnd tokens fuel children (by omega)]
      exact yields_ok hc

/-- C21: Every tree that `parse` returns is well-formed: its root has the
kind `PROGRAM`, and every node of it has one of the twenty kinds; a `BINARY`
node has two children and one of the eleven binary operators as value, a
`UNARY` node one child and the value `!` or `-`, an `ASSIGNMENT` and a
`GROUPING` node one child, and a `LITERAL`, `IDENTIFIER`, `TYPE` or
`PARAMETERS` node no child. Trees that break one of these conditions (a kind
outside the set, a `BINARY` with one child or with the value `=`, a `UNARY`
with the value `+`, a `GROUPING` without a child, an `IDENTIFIER` with a
child) are not well-formed. -/
theorem parse_wellFormed (tokens : List Token) (tree : ASTNode)
    (h : parse tokens = .ok tree) :
    tree.type = "PROGRAM" ∧ tree.wellFormed = true ∧
    (ASTNode.mk "PROGRAM" "" [some (.mk "EXPRESSION" "" [])]).wellFormed = false ∧
    (ASTNode.mk "PROGRAM" ""
      [some (.mk "BINARY" "+" [some (.mk "LITERAL" "1" [])])]).wellFormed = false ∧
    (ASTNode.mk "PROGRAM" "" [some (.mk "BINARY" "=" [some (.mk "IDENTIFIER" "x" []),
      some (.mk "LITERAL" "1" [])])]).wellFormed = false ∧
    (ASTNode.mk "PROGRAM" ""
      [some (.mk "UNARY" "+" [some (.mk "LITERAL" "1" [])])]).wellFormed = false ∧
    (ASTNode.mk "PROGRAM" "" [some (.mk "GROUPING" "" [])]).wellFormed = false ∧
    (ASTNode.mk "PROGRAM" ""
      [some (.mk "IDENTIFIER" "x" [some (.mk "LITERAL" "1" [])])]).wellFormed = false := by
  have hw := parseLoop_wellFormed tokens (parseFuel tokens) [] 0 wellFormedChildren_nil
  unfold parse at h
  cases hr : parseLoop tokens (parseFuel tokens) [] 0 with
  | error e =>
    rw [hr] at h
    exact absurd h (by simp)
  | ok r =>
    obtain ⟨children, k⟩ := r
    rw [hr] at h hw
    simp only [Except.ok.injEq] at h
    subst h
    exact ⟨rfl, wellFormed_free _ (by decide) hw, rfl, rfl, rfl, rfl, rfl, rfl⟩

/-- The property of C21 on the tokens of `x = -(y + 1) * 2;`, whose tree has
an `ASSIGNMENT`, a `BINARY`, a `UNARY`, a `GROUPING`, a `LITERAL` and an
`IDENTIFIER` node. -/
theorem parse_wellFormed_witness :
    parse [⟨"IDENTIFIER", "x", 1, 1⟩, ⟨"OPERATOR", "=", 1, 3⟩, ⟨"OPERATOR", "-", 1, 5⟩,
        ⟨"PUNCTUATION", "(", 1, 6⟩, ⟨"IDENTIFIER", "y", 1, 7⟩, ⟨"OPERATOR", "+", 1, 9⟩,
        ⟨"NUMBER", "1", 1, 11⟩, ⟨"PUNCTUATION", ")", 1, 12⟩, ⟨"OPERATOR", "*", 1, 14⟩,
        ⟨"NUMBER", "2", 1, 16⟩, ⟨"PUNCTUATION", ";", 1, 17⟩] =
      .ok (.mk "PROGRAM" "" [some (.mk "ASSIGNMENT" "x" [some (.mk "BINARY" "*"
        [some (.mk "UNARY" "-" [some (.mk "GROUPING" "" [some (.mk "BINARY" "+"
          [some (.mk "IDENTIFIER" "y" []), some (.mk "LITERAL" "1" [])])])]),
          some (.mk "LITERAL" "2" [])])])]) ∧
    (ASTNode.mk "PROGRAM" "" [some (.mk "ASSIGNMENT" "x" [some (.mk "BINARY" "*"
        [some (.mk "UNARY" "-" [some (.mk "GROUPING" "" [some (.mk "BINARY" "+"
          [some (.mk "IDENTIFIER" "y" []), some (.mk "LITERAL" "1" [])])])]),
          some (.mk "LITERAL" "2" [])])])]).wellFormed = true :=
  ⟨rfl, (parse_wellFormed
    [⟨"IDENTIFIER", "x", 1, 1⟩, ⟨"OPERATOR", "=", 1, 3⟩, ⟨"OPERATOR", "-", 1, 5⟩,
      ⟨"PUNCTUATION", "(", 1, 6⟩, ⟨"IDENTIFIER", "y", 1, 7⟩, ⟨"OPERATOR", "+", 1, 9⟩,
      ⟨"NUMBER", "1", 1, 11⟩, ⟨"PUNCTUATION", ")", 1, 12⟩, ⟨"OPERATOR", "*", 1, 14⟩,
      ⟨"NUMBER", "2", 1, 16⟩, ⟨"PUNCTUATION", ";", 1, 17⟩]
    (.mk "PROGRAM" "" [some (.mk "ASSIGNMENT" "x" [some (.mk "BINARY" "*"
      [some (.mk "UNARY" "-" [some (.mk "GROUPING" "" [some (.mk "BINARY" "+"
        [some (.mk "IDENTIFIER" "y" []), some (.mk "LITERAL" "1" [])])])]),
        some (.mk "LITERAL" "2" [])])])]) rfl).2.1⟩

/-! ## Reads of the token vector -/

theorem good_ne_outOfRange {α : Type} {n lo : Nat} {s : Prop}
    {r : Except Failure (α × Nat)} (h : Good n lo s r) : r ≠ .error .outOfRange := by
  intro he
  rw [he] at h
  exact h

theorem skipParameters_eq (tokens : List Token) (fuel k : Nat) :
    skipParameters tokens (fuel + 1) k =
      if checkAt tokens k "PUNCTUATION" ")" then .ok ((), k + 1)
      else if tokens.length ≤ k then
        .error (.runtimeError "Unexpected end of file while parsing function parameters")
      else skipParameters tokens fuel (k + 1) := by
  simp only [skipParameters, Parse.bind_run, matchToken_eq, andThen_ok]
  by_cases h : checkAt tokens k "PUNCTUATION" ")" = true
  · simp only [h, if_true]
    rfl
  · simp only [h, Bool.false_eq_true, if_false, Parse.bind_run, isAtEnd_eq, andThen_ok]
    by_cases hk : tokens.length ≤ k
    · simp only [hk, decide_True, if_true]
      rfl
    · simp only [hk, decide_False, Bool.false_eq_true, if_false, Parse.bind_run,
        advance_of_getElem? (List.getElem?_eq_getElem (Nat.lt_of_not_le hk)), andThen_ok]


theorem peek_nil (k : Nat) : peek [] k = .error .outOfRange := by
  simp only [peek, Parse.bind_apply]
  show (if k ≥ ([] : List Token).length then
      match ([] : List Token).getLast? with
      | some back => pure ⟨"EOF", "", back.line, back.column⟩
      | none => throw Failure.outOfRange
    else
      match ([] : List Token)[k]? with
      | some token => pure token
      | none => throw Failure.outOfRange : Parse Token) k = _
  rw [if_pos (show k ≥ ([] : List Token).length from Nat.zero_le k)]
  rfl

/-- C23: No read outside the token vector is reachable from `parse`. In the
embedding every such read (the element before the cursor 0 in `previous`, the
last element of an empty vector in `peek`, an index at or past the size) is
the failure `outOfRange`; `parse` never returns it, on no token sequence, and
on the empty one it returns the empty `PROGRAM`. On a non-empty sequence no
rule started at a cursor within the sequence returns it. With a token under
the cursor `k`, `previous` at `k + 1` and `advance` at `k` return this token;
`match` and `consume` move the cursor only when `check` succeeds, which it
does only at a token; the parameter loop moves it only when it is not at the
end, and the init clause of `for` only at a `;`; and `consume` at a mismatch, which calls `peek`, throws a `runtime_error`
when the sequence is non-empty. -/
theorem parse_in_bounds :
    (∀ tokens : List Token, parse tokens ≠ .error .outOfRange) ∧
    parse [] = .ok (.mk "PROGRAM" "" []) ∧
    (∀ (tokens : List Token) (fuel k : Nat), tokens ≠ [] → k ≤ tokens.length →
      parseDeclaration tokens fuel k ≠ .error .outOfRange ∧
      parseStatement tokens fuel k ≠ .error .outOfRange ∧
      parseIfStatement tokens fuel k ≠ .error .outOfRange ∧
      parseWhileStatement tokens fuel k ≠ .error .outOfRange ∧
      parseForStatement tokens fuel k ≠ .error .outOfRange ∧
      parseReturnStatement tokens fuel k ≠ .error .outOfRange ∧
      parseBlock tokens fuel k ≠ .error .outOfRange ∧
      parseExpressionStatement tokens fuel k ≠ .error .outOfRange ∧
      parseExpression tokens fuel k ≠ .error .outOfRange ∧
      parseUnary tokens fuel k ≠ .error .outOfRange ∧
      parsePrimary tokens fuel k ≠ .error .outOfRange ∧
      skipComments tokens fuel k ≠ .error .outOfRange ∧
      skipParameters tokens fuel k ≠ .error .outOfRange ∧
      (∀ typeToken nameToken,
        parseFunctionDeclaration tokens fuel typeToken nameToken k ≠ .error .outOfRange ∧
        parseVariableDeclaration tokens fuel typeToken nameToken k ≠ .error .outOfRange) ∧
      ∀ children, parseLoop tokens fuel children k ≠ .error .outOfRange) ∧
    (∀ (tokens : List Token) (k : Nat) (t : Token), tokens[k]? = some t →
      previous tokens (k + 1) = .ok (t, k + 1) ∧ advance tokens k = .ok (t, k + 1)) ∧
    (∀ (tokens : List Token) (type value : String) (k : Nat),
      matchToken tokens type value k =
        .ok (checkAt tokens k type value, if checkAt tokens k type value then k + 1 else k) ∧
      (checkAt tokens k type value = true → k < tokens.length)) ∧
    (∀ (tokens : List Token) (type value message : String) (k : Nat) (t : Token) (k' : Nat),
      consume tokens type value message k = .ok (t, k') →
      checkAt tokens k type value = true ∧ tokens[k]? = some t ∧ k' = k + 1) ∧
    (∀ (tokens : List Token) (type value message : String) (k : Nat), tokens ≠ [] →
      checkAt tokens k type value = false →
      ∃ what, consume tokens type value message k = .error (.runtimeError what)) ∧
    (∀ (tokens : List Token) (fuel k : Nat),
      skipParameters tokens (fuel + 1) k =
        if checkAt tokens k "PUNCTUATION" ")" then .ok ((), k + 1)
        else if tokens.length ≤ k then
          .error (.runtimeError "Unexpected end of file while parsing function parameters")
        else skipParameters tokens fuel (k + 1)) ∧
    (∀ (tokens : List Token) (fuel k : Nat), checkAt tokens k "PUNCTUATION" ";" = true →
      parseForInit tokens (fuel + 1) k = .ok ([], k + 1)) ∧
    (∀ tokens : List Token, previous tokens 0 = .error .outOfRange) ∧
    (∀ k : Nat, peek [] k = .error .outOfRange) ∧
    advance [] 0 = .error .outOfRange := by
  refine ⟨?_, rfl, ?_, ?_, ?_, ?_, ?_, skipParameters_eq, ?_, fun _ => rfl, peek_nil, rfl⟩
  · intro tokens h
    rcases parse_total tokens with ⟨tree, ht⟩ | ⟨what, hw⟩
    · rw [ht] at h
      exact absurd h (by simp)
    · rw [hw] at h
      exact absurd h (by simp)
  · intro tokens fuel k hne hk
    have g := allGood hne fuel
    exact ⟨good_ne_outOfRange (g.declaration k hk),
      good_ne_outOfRange (g.statement k hk),
      good_ne_outOfRange (g.ifStatement k hk),
      good_ne_outOfRange (g.whileStatement k hk),
      good_ne_outOfRange (g.forStatement k hk),
      good_ne_outOfRange (g.returnStatement k hk),
      good_ne_outOfRange (g.block k hk),
      good_ne_outOfRange (g.expressionStatement k hk),
      good_ne_outOfRange (g.expression k hk),
      good_ne_outOfRange (g.unary k hk),
      good_ne_outOfRange (g.primary k hk),
      good_ne_outOfRange (skipComments_good tokens fuel k hk),
      good_ne_outOfRange (skipParameters_good tokens fuel k hk),
      fun typeToken nameToken =>
        ⟨good_ne_outOfRange (g.functionDeclaration typeToken nameToken k hk),
          good_ne_outOfRange (g.variableDeclaration typeToken nameToken k hk)⟩,
      fun children => good_ne_outOfRange (parseLoop_good hne fuel children k hk)⟩
  · intro tokens k t ht
    exact ⟨previous_succ ht, advance_of_getElem? ht⟩
  · intro tokens type value k
    exact ⟨matchToken_eq tokens type value k, checkAt_lt⟩
  · intro tokens type value message k t k' h
    exact consume_eq_ok h
  · intro tokens type value message k hne h
    exact consume_of_not_checkAt hne h message
  · intro tokens fuel k h
    rw [parseForInit_eq, h, if_pos rfl]

/-- The rules of C23 on the tokens of `if (x)`, where the input ends after the
header: the declaration read at the cursor 0 returns a node and makes no read
out of range. -/
theorem parse_in_bounds_witness :
    parseDeclaration [⟨"KEYWORD", "if", 1, 1⟩, ⟨"PUNCTUATION", "(", 1, 4⟩,
        ⟨"IDENTIFIER", "x", 1, 5⟩, ⟨"PUNCTUATION", ")", 1, 6⟩] 20 0 ≠ .error .outOfRange ∧
    consume [⟨"KEYWORD", "if", 1, 1⟩, ⟨"PUNCTUATION", "(", 1, 4⟩,
        ⟨"IDENTIFIER", "x", 1, 5⟩, ⟨"PUNCTUATION", ")", 1, 6⟩] "PUNCTUATION" ";" "Expected" 4 =
      .error (.runtimeError "Expected at line 1, column 6") :=
  ⟨(parse_in_bounds.2.2.1
    [⟨"KEYWORD", "if", 1, 1⟩, ⟨"PUNCTUATION", "(", 1, 4⟩, ⟨"IDENTIFIER", "x", 1, 5⟩,
      ⟨"PUNCTUATION", ")", 1, 6⟩] 20 0 (by simp) (by decide)).1, rfl⟩

/-! ## Null children -/

/-- C22: After the header of an `if`, `while` or `for` statement at the end
of the input, `parseStatement` returns the null pointer and the rule pushes it
as a child: `parse` succeeds on the tokens of `if (x)`, `while (x) // c`,
`for (;;)` and `if (x) y; else`, and the returned tree has a null child (the
then-branch, the body, the body, the else-branch). With the statement present
(`if (x) y;`) no child is null. -/
theorem parse_null_child :
    compile "if (x)" = .ok (.mk "PROGRAM" ""
      [some (.mk "IF_STATEMENT" "" [some (.mk "IDENTIFIER" "x" []), none])]) ∧
    (ASTNode.mk "PROGRAM" ""
      [some (.mk "IF_STATEMENT" "" [some (.mk "IDENTIFIER" "x" []), none])]).noNullChild =
        false ∧
    compile "while (x) // c" = .ok (.mk "PROGRAM" ""
      [some (.mk "WHILE_STATEMENT" "" [some (.mk "IDENTIFIER" "x" []), none])]) ∧
    (ASTNode.mk "PROGRAM" ""
      [some (.mk "WHILE_STATEMENT" "" [some (.mk "IDENTIFIER" "x" []), none])]).noNullChild =
        false ∧
    compile "for (;;)" = .ok (.mk "PROGRAM" ""
      [some (.mk "FOR_STATEMENT" "" [some (.mk "FOR_INIT" "" []),
        some (.mk "FOR_CONDITION" "" []), some (.mk "FOR_INCREMENT" "" []), none])]) ∧
    compile "if (x) y; else" = .ok (.mk "PROGRAM" ""
      [some (.mk "IF_STATEMENT" "" [some (.mk "IDENTIFIER" "x" []),
        some (.mk "IDENTIFIER" "y" []), none])]) ∧
    compile "if (x) y;" = .ok (.mk "PROGRAM" ""
      [some (.mk "IF_STATEMENT" "" [some (.mk "IDENTIFIER" "x" []),
        some (.mk "IDENTIFIER" "y" [])])]) ∧
    (ASTNode.mk "PROGRAM" ""
      [some (.mk "IF_STATEMENT" "" [some (.mk "IDENTIFIER" "x" []),
        some (.mk "IDENTIFIER" "y" [])])]).noNullChild = true :=
  ⟨rfl, rfl, rfl, rfl, rfl, rfl, rfl, rfl⟩

end MiniCompiler
